import Mathlib

/-!
# Event-sourced core: projections, write models, push and commands

A shallow embedding of

* `internal/auth/repository/eventsourcing/handler/token.go`
  (`Token.Reducers`, `Token.Reduce`, the payload helpers, `Token.getProjectByID`),
* `internal/eventstore/v3/event.go` (`commandToEvent`),
* `internal/command/user_human_otp_model.go` (the three OTP write models),
* `internal/auth/repository/eventsourcing/view/user_session.go` (the deletes of user
  sessions),

and, for the parts of the core of which the embedded files hold the tests only (the push of
the event store, the instance-domain and organisation commands, the session commands),
models written from the specification; their definitions say so.

Conventions of the embedding

* A Go function returning `(T, error)` becomes a function into `Except GoError T`; where the
  Go code can also panic, the result type is `Outcome T`.
* Calls on the token view and on the event store made *during* a call are recorded, in
  order, in the `calls` component of the result (`Traced`).
* A closure handed to `handler2.NewStatement` is represented by what its body does when it
  is run (`handler2.Exec`): every closure of `Token.Reduce` is a single call on the view.
* Code of other packages that the embedded functions call (event-type constants,
  `AppendEvent` of the view models, the JSON syntax, the project query) is not part of the
  embedded files; it is supplied through the record `handler.Packages`, the receiver
  `handler.Token`, or as an explicit argument.
-/

/-- Byte slices, Go `[]byte`. -/
abbrev Bytes := List UInt8

/-! ## Package `errors` -/

namespace errors

/-- The error kinds of package `errors` (the spec calls PreconditionFailed
`FailedPrecondition`). -/
inductive Kind where
  | Internal
  | NotFound
  | InvalidArgument
  | PreconditionFailed
  | AlreadyExists
  | Unauthenticated
  | PermissionDenied
  deriving DecidableEq, Repr

end errors

/-- A non-nil Go `error` value: either built by package `errors`
(`ThrowX(parent, id, message)`) or produced by code outside of it. -/
inductive GoError where
  | foreign (text : String)
  | caos (kind : errors.Kind) (parent : Option GoError) (id message : String)

namespace errors

/-- Go `errors.ThrowInternal(parent, id, message)`. -/
def ThrowInternal (parent : Option GoError) (id message : String) : GoError :=
  .caos .Internal parent id message

/-- Go `errors.ThrowNotFound(parent, id, message)`. -/
def ThrowNotFound (parent : Option GoError) (id message : String) : GoError :=
  .caos .NotFound parent id message

end errors

/-- What a call of a Go function that may panic ends in: a panic, a returned non-nil error,
or a returned value with a nil error. -/
inductive Outcome (α : Type) where
  | panic
  | err (e : GoError)
  | ok (a : α)

/-! ## Package `eventstore` (interface side) -/

namespace eventstore

abbrev EventType := String

abbrev AggregateType := String

/-- Go `eventstore.Aggregate`, with the fields the embedded files set or read
(`Type` is spelled `Typ`). -/
structure Aggregate where
  ID : String
  Typ : AggregateType
  ResourceOwner : String
  InstanceID : String
  deriving DecidableEq, Repr

/-- The interface `eventstore.Event` as the reducer sees it: the values of its methods
(`Type()` is spelled `Typ`). -/
structure Event where
  Aggregate : eventstore.Aggregate
  Creator : String
  Typ : EventType
  Revision : Nat
  Sequence : Nat
  DataAsBytes : Bytes
  deriving DecidableEq, Repr

end eventstore

/-! ## Package `encoding/json` -/

namespace json

/-- A JSON text after parsing. Numbers keep their literal. Object members are in document
order and may repeat a key. -/
inductive Value where
  | null
  | bool (b : Bool)
  | number (literal : String)
  | string (s : String)
  | array (items : List Value)
  | object (members : List (String × Value))

/-- Go `json.Unmarshal(data, &m)` with `m` a `map[string]interface{}`: a syntax error and a
JSON value that is neither `null` nor an object are errors; `null` leaves no entry; an object
stores its members. The map is kept as the member list, read with `mapIndex`. -/
def unmarshalMap (parse : Bytes → Option Value) (data : Bytes) :
    Except GoError (List (String × Value)) :=
  match parse data with
  | none => .error (.foreign "json: syntax error")
  | some .null => .ok []
  | some (.object members) => .ok members
  | some _ => .error (.foreign "json: cannot unmarshal into Go value of map type")

/-- Go `m[key]` on the map filled from the member list: the value of the last member with
that key, `none` (the nil interface) when there is none. -/
def mapIndex (m : List (String × Value)) (key : String) : Option Value :=
  m.reverse.lookup key

/-- Go type assertion `x.(string)` on a decoded `interface{}`: `none` stands for the
run-time panic of a failed assertion. -/
def assertString : Option Value → Option String
  | some (.string s) => some s
  | _ => none

end json

/-! ## View models -/

namespace view_model

/-- Modelled from the spec: the declaration of `view_model.TokenView` is outside the embedded
files; the row carries token-id, user-id, instance, client-id (application), audience,
scopes, preferred-language, expiration and refresh-token-id. -/
structure TokenView where
  ID : String
  UserID : String
  InstanceID : String
  ApplicationID : String
  Audience : List String
  Scopes : List String
  PreferredLanguage : String
  Expiration : Nat
  RefreshTokenID : String
  deriving DecidableEq, Repr

/-- Go `new(view_model.TokenView)`: the zero value. -/
def TokenView.new : TokenView := ⟨"", "", "", "", [], [], "", 0, ""⟩

/-- Modelled from the spec: the declaration of `view_model.UserView` is outside the embedded
files; the reducer reads its preferred language only. -/
structure UserView where
  ID : String
  InstanceID : String
  PreferredLanguage : String
  deriving DecidableEq, Repr

/-- Go `new(view_model.UserView)`: the zero value. -/
def UserView.new : UserView := ⟨"", "", ""⟩

end view_model

/-! ## Project models -/

namespace es_models

/-- Go `es_models.ObjectRoot`, embedded in the event-sourced project model. -/
structure ObjectRoot where
  AggregateID : String
  Sequence : Nat
  ResourceOwner : String
  InstanceID : String
  deriving DecidableEq, Repr

/-- Modelled from the spec: `es_models.SearchQuery` is declared outside the embedded files; a
filter query names aggregate types, an aggregate id, an instance id and a sequence bound. -/
structure SearchQuery where
  AggregateTypes : List String
  AggregateID : String
  InstanceID : String
  SequenceGreater : Nat
  deriving DecidableEq, Repr

end es_models

namespace project_es_model

/-- The OIDC configuration of an application; the reducer reads `ClientID`. -/
structure OIDCConfig where
  AppID : String
  ClientID : String
  deriving DecidableEq, Repr

/-- Go `project_es_model.Application`: the target of `applicationFromSession`. -/
structure Application where
  AppID : String
  Name : String
  OIDCConfig : Option OIDCConfig
  deriving DecidableEq, Repr

/-- Go `project_es_model.Project`: the project rebuilt from its events. -/
structure Project extends es_models.ObjectRoot where
  Name : String
  Applications : List Application
  deriving DecidableEq, Repr

end project_es_model

namespace proj_model

/-- Go `proj_model.OIDCConfig`. -/
structure OIDCConfig where
  AppID : String
  ClientID : String
  deriving DecidableEq, Repr

/-- Go `proj_model.Application`; `OIDCConfig` is a pointer, `none` is nil. -/
structure Application where
  AppID : String
  Name : String
  OIDCConfig : Option OIDCConfig
  deriving DecidableEq, Repr

/-- Go `proj_model.Project`, as returned by `getProjectByID`. -/
structure Project where
  AggregateID : String
  Sequence : Nat
  Name : String
  Applications : List Application
  deriving DecidableEq, Repr

end proj_model

/-! ## Package `auth_view`: calls on the token view -/

namespace auth_view

/-- A call of a method of `*auth_view.View` on the token table, with its arguments. -/
inductive Call where
  | TokensByUserID (userID instanceID : String)
  | PutToken (token : view_model.TokenView)
  | PutTokens (tokens : List view_model.TokenView)
  | DeleteSessionTokens (agentID : String) (event : eventstore.Event)
  | DeleteUserTokens (event : eventstore.Event)
  | DeleteToken (tokenID instanceID : String)
  | DeleteTokensFromRefreshToken (refreshTokenID instanceID : String)
  | DeleteApplicationTokens (event : eventstore.Event) (ids : List String)
  | DeleteInstanceTokens (event : eventstore.Event)
  | DeleteOrgTokens (event : eventstore.Event)
  deriving DecidableEq, Repr

/-- The calls that change the token table (every call but the query). -/
def Call.isWrite : Call → Bool
  | .TokensByUserID _ _ => false
  | _ => true

/-- The token view as the reducer reads it: the answer of the table to `TokensByUserID`
at the time of the call. The returned rows are the pointees of the `[]*TokenView`. -/
structure View where
  TokensByUserID : String → String → Except GoError (List view_model.TokenView)

end auth_view

/-! ## Package `handler2`: statements -/

/-- An I/O call made by the reducer: on the token view or on the event store. -/
inductive IOCall where
  | view (c : auth_view.Call)
  | esFilter (query : es_models.SearchQuery)
  deriving DecidableEq, Repr

/-- The result of a call together with the I/O calls made while it ran, in order. -/
structure Traced (α : Type) where
  calls : List IOCall
  out : Outcome α

namespace handler2

/-- The closure `func(ex Executer, projectionName string) error` of a statement, given by
what its body does when run: `call c` returns the error of the view call `c`;
`nilDereference` panics on a nil pointer before any call. -/
inductive Exec where
  | call (c : auth_view.Call)
  | nilDereference
  deriving DecidableEq, Repr

/-- Modelled from the spec: `handler2.Statement` is declared outside the embedded files; a
statement belongs to one event and carries the closure to execute in the transaction, nil
(`none`) for a no-op. -/
structure Statement where
  event : eventstore.Event
  Execute : Option Exec
  deriving DecidableEq, Repr

/-- Go `handler2.NewStatement(event, e)`. -/
def NewStatement (event : eventstore.Event) (e : Exec) : Statement := ⟨event, some e⟩

/-- Go `handler2.NewNoOpStatement(event)`, the statement with a nil closure. -/
def NewNoOpStatement (event : eventstore.Event) : Statement := ⟨event, none⟩

/-- Go `handler2.EventReducer`. -/
structure EventReducer where
  Event : eventstore.EventType
  Reduce : eventstore.Event → Traced Statement

/-- Go `handler2.AggregateReducer` (the field is spelled `EventRedusers` in the source). -/
structure AggregateReducer where
  Aggregate : eventstore.AggregateType
  EventRedusers : List EventReducer

/-- The interface `handler.EventStore` as the reducer uses it: the answer to `Filter`. -/
structure EventStore where
  Filter : es_models.SearchQuery → Except GoError (List eventstore.Event)

end handler2

/-! ## Package `handler`: the token projection -/

namespace handler

/-- What the reducer takes from other packages: the event-type and aggregate-type constants of
packages `user`, `project`, `org` and `instance`, the JSON syntax, and the functions of the
view and project models. The constants are the case expressions of the switch of
`Token.Reduce`; Go rejects a switch with two equal constant cases, which is field
`distinct`. -/
structure Packages where
  userAggregateType : eventstore.AggregateType
  projectAggregateType : eventstore.AggregateType
  orgAggregateType : eventstore.AggregateType
  instanceAggregateType : eventstore.AggregateType
  UserTokenAddedType : eventstore.EventType
  PersonalAccessTokenAddedType : eventstore.EventType
  UserV1ProfileChangedType : eventstore.EventType
  HumanProfileChangedType : eventstore.EventType
  UserV1SignedOutType : eventstore.EventType
  HumanSignedOutType : eventstore.EventType
  UserLockedType : eventstore.EventType
  UserDeactivatedType : eventstore.EventType
  UserRemovedType : eventstore.EventType
  UserTokenRemovedType : eventstore.EventType
  PersonalAccessTokenRemovedType : eventstore.EventType
  HumanRefreshTokenRemovedType : eventstore.EventType
  ApplicationDeactivatedType : eventstore.EventType
  ApplicationRemovedType : eventstore.EventType
  ProjectDeactivatedType : eventstore.EventType
  ProjectRemovedType : eventstore.EventType
  InstanceRemovedEventType : eventstore.EventType
  OrgRemovedEventType : eventstore.EventType
  distinct : [UserTokenAddedType, PersonalAccessTokenAddedType, UserV1ProfileChangedType,
    HumanProfileChangedType, UserV1SignedOutType, HumanSignedOutType, UserLockedType,
    UserDeactivatedType, UserRemovedType, UserTokenRemovedType, PersonalAccessTokenRemovedType,
    HumanRefreshTokenRemovedType, ApplicationDeactivatedType, ApplicationRemovedType,
    ProjectDeactivatedType, ProjectRemovedType, InstanceRemovedEventType,
    OrgRemovedEventType].Nodup
  /-- The JSON syntax: the parsed value of a byte slice, `none` when it is not valid JSON. -/
  jsonParse : Bytes → Option json.Value
  /-- Decoding of a JSON value other than `null` into a `project_es_model.Application`. -/
  decodeApplication : json.Value → Except GoError project_es_model.Application
  /-- Method `(*TokenView).AppendEvent`: the view after the event, or the error. -/
  TokenViewAppendEvent : view_model.TokenView → eventstore.Event →
    Except GoError view_model.TokenView
  /-- Method `(*UserView).AppendEvent`: the view after the event, or the error. -/
  UserViewAppendEvent : view_model.UserView → eventstore.Event →
    Except GoError view_model.UserView
  /-- Function `proj_view.ProjectByIDQuery(id, instanceID, latestSequence)`. -/
  ProjectByIDQuery : String → String → Nat → Except GoError es_models.SearchQuery
  /-- Method `(*project_es_model.Project).AppendEvent`: the project after the event. -/
  ProjectAppendEvent : project_es_model.Project → eventstore.Event →
    Except GoError project_es_model.Project
  /-- Function `project_es_model.ProjectToModel`. -/
  ProjectToModel : project_es_model.Project → proj_model.Project

/-- The event types named in the switch of `Token.Reduce`, in case order. -/
def Packages.switchTypes (p : Packages) : List eventstore.EventType :=
  [p.UserTokenAddedType, p.PersonalAccessTokenAddedType, p.UserV1ProfileChangedType,
    p.HumanProfileChangedType, p.UserV1SignedOutType, p.HumanSignedOutType, p.UserLockedType,
    p.UserDeactivatedType, p.UserRemovedType, p.UserTokenRemovedType,
    p.PersonalAccessTokenRemovedType, p.HumanRefreshTokenRemovedType,
    p.ApplicationDeactivatedType, p.ApplicationRemovedType, p.ProjectDeactivatedType,
    p.ProjectRemovedType, p.InstanceRemovedEventType, p.OrgRemovedEventType]

/-- Modelled from the spec: `(*project_es_model.Project).AppendEvents` is outside the embedded
files; the loader feeds each event to the reduce function in order and stops at the first
error. -/
def AppendEvents (p : Packages) (project : project_es_model.Project) :
    List eventstore.Event → Except GoError project_es_model.Project
  | [] => .ok project
  | event :: events =>
    match p.ProjectAppendEvent project event with
    | .error err => .error err
    | .ok project1 => AppendEvents p project1 events

/-- Go `type Token struct { view *auth_view.View; es handler.EventStore }`. -/
structure Token where
  view : auth_view.View
  es : handler2.EventStore

/-- Go `agentIDFromSession`. -/
def agentIDFromSession (p : Packages) (event : eventstore.Event) : Outcome String :=
  match json.unmarshalMap p.jsonParse event.DataAsBytes with
  | .error _ => .err (errors.ThrowInternal none "MODEL-sd325" "could not unmarshal data")
  | .ok session =>
    match json.assertString (json.mapIndex session "userAgentID") with
    | none => .panic
    | some id => .ok id

/-- Go `applicationFromSession`: `json.Unmarshal(data, &application)` with `application` a
`*Application`; JSON `null` sets the pointer to nil (`none`). -/
def applicationFromSession (p : Packages) (event : eventstore.Event) :
    Except GoError (Option project_es_model.Application) :=
  let unmarshalled : Except GoError (Option project_es_model.Application) :=
    match p.jsonParse event.DataAsBytes with
    | none => .error (.foreign "json: syntax error")
    | some .null => .ok none
    | some v =>
      match p.decodeApplication v with
      | .error err => .error err
      | .ok application => .ok (some application)
  match unmarshalled with
  | .error _ => .error (errors.ThrowInternal none "MODEL-Hrw1q" "could not unmarshal data")
  | .ok application => .ok application

/-- Go `tokenIDFromRemovedEvent`. -/
def tokenIDFromRemovedEvent (p : Packages) (event : eventstore.Event) : Outcome String :=
  match json.unmarshalMap p.jsonParse event.DataAsBytes with
  | .error _ => .err (errors.ThrowInternal none "MODEL-Sff32" "could not unmarshal data")
  | .ok removed =>
    match json.assertString (json.mapIndex removed "tokenId") with
    | none => .panic
    | some id => .ok id

/-- Go `refreshTokenIDFromRemovedEvent`. -/
def refreshTokenIDFromRemovedEvent (p : Packages) (event : eventstore.Event) : Outcome String :=
  match json.unmarshalMap p.jsonParse event.DataAsBytes with
  | .error _ => .err (errors.ThrowInternal none "MODEL-Dfb3w" "could not unmarshal data")
  | .ok removed =>
    match json.assertString (json.mapIndex removed "tokenId") with
    | none => .panic
    | some id => .ok id

/-- Go `(*Token).getProjectByID`. -/
def Token.getProjectByID (p : Packages) (t : Token) (projID instanceID : String) :
    List IOCall × Except GoError proj_model.Project :=
  match p.ProjectByIDQuery projID instanceID 0 with
  | .error err => ([], .error err)
  | .ok query =>
    let esProject : project_es_model.Project :=
      { AggregateID := projID, Sequence := 0, ResourceOwner := "", InstanceID := "",
        Name := "", Applications := [] }
    match t.es.Filter query with
    | .error err => ([.esFilter query], .error err)
    | .ok events =>
      match AppendEvents p esProject events with
      | .error err => ([.esFilter query], .error err)
      | .ok esProject1 =>
        if esProject1.Sequence = 0 then
          ([.esFilter query],
            .error (errors.ThrowNotFound none "EVENT-Dsdw2" "Errors.Project.NotFound"))
        else
          ([.esFilter query], .ok (p.ProjectToModel esProject1))

/-- The loop of the project case of `Token.Reduce`: append the `ClientID` of every
application whose `OIDCConfig` is not nil. -/
def collectApplicationIDs (applications : List proj_model.Application) : List String :=
  applications.foldl
    (fun applicationIDs app =>
      match app.OIDCConfig with
      | some config => applicationIDs ++ [config.ClientID]
      | none => applicationIDs)
    []

/-- Go `(*Token).Reduce`: the switch on `event.Type()`, case by case in source order. -/
def Token.Reduce (p : Packages) (t : Token) (event : eventstore.Event) :
    Traced handler2.Statement :=
  if event.Typ = p.UserTokenAddedType ∨ event.Typ = p.PersonalAccessTokenAddedType then
    match p.TokenViewAppendEvent view_model.TokenView.new event with
    | .error err => ⟨[], .err err⟩
    | .ok token => ⟨[], .ok (handler2.NewStatement event (.call (.PutToken token)))⟩
  else if event.Typ = p.UserV1ProfileChangedType ∨ event.Typ = p.HumanProfileChangedType then
    match p.UserViewAppendEvent view_model.UserView.new event with
    | .error err => ⟨[], .err err⟩
    | .ok user =>
      let read := IOCall.view (.TokensByUserID event.Aggregate.ID event.Aggregate.InstanceID)
      match t.view.TokensByUserID event.Aggregate.ID event.Aggregate.InstanceID with
      | .error err => ⟨[read], .err err⟩
      | .ok tokens =>
        let tokens1 := tokens.map
          (fun token => { token with PreferredLanguage := user.PreferredLanguage })
        ⟨[read], .ok (handler2.NewStatement event (.call (.PutTokens tokens1)))⟩
  else if event.Typ = p.UserV1SignedOutType ∨ event.Typ = p.HumanSignedOutType then
    match agentIDFromSession p event with
    | .panic => ⟨[], .panic⟩
    | .err err => ⟨[], .err err⟩
    | .ok id => ⟨[], .ok (handler2.NewStatement event (.call (.DeleteSessionTokens id event)))⟩
  else if event.Typ = p.UserLockedType ∨ event.Typ = p.UserDeactivatedType
      ∨ event.Typ = p.UserRemovedType then
    ⟨[], .ok (handler2.NewStatement event (.call (.DeleteUserTokens event)))⟩
  else if event.Typ = p.UserTokenRemovedType
      ∨ event.Typ = p.PersonalAccessTokenRemovedType then
    match tokenIDFromRemovedEvent p event with
    | .panic => ⟨[], .panic⟩
    | .err err => ⟨[], .err err⟩
    | .ok id =>
      ⟨[], .ok (handler2.NewStatement event
        (.call (.DeleteToken id event.Aggregate.InstanceID)))⟩
  else if event.Typ = p.HumanRefreshTokenRemovedType then
    match refreshTokenIDFromRemovedEvent p event with
    | .panic => ⟨[], .panic⟩
    | .err err => ⟨[], .err err⟩
    | .ok id =>
      ⟨[], .ok (handler2.NewStatement event
        (.call (.DeleteTokensFromRefreshToken id event.Aggregate.InstanceID)))⟩
  else if event.Typ = p.ApplicationDeactivatedType
      ∨ event.Typ = p.ApplicationRemovedType then
    match applicationFromSession p event with
    | .error err => ⟨[], .err err⟩
    | .ok application =>
      ⟨[], .ok (handler2.NewStatement event
        (match application with
          | none => .nilDereference
          | some app => .call (.DeleteApplicationTokens event [app.AppID])))⟩
  else if event.Typ = p.ProjectDeactivatedType ∨ event.Typ = p.ProjectRemovedType then
    match Token.getProjectByID p t event.Aggregate.ID event.Aggregate.InstanceID with
    | (calls, .error err) => ⟨calls, .err err⟩
    | (calls, .ok project) =>
      let applicationIDs := collectApplicationIDs project.Applications
      ⟨calls, .ok (handler2.NewStatement event
        (.call (.DeleteApplicationTokens event applicationIDs)))⟩
  else if event.Typ = p.InstanceRemovedEventType then
    ⟨[], .ok (handler2.NewStatement event (.call (.DeleteInstanceTokens event)))⟩
  else if event.Typ = p.OrgRemovedEventType then
    ⟨[], .ok (handler2.NewStatement event (.call (.DeleteOrgTokens event)))⟩
  else
    ⟨[], .ok (handler2.NewNoOpStatement event)⟩

/-- Go `(*Token).Reducers`, entry by entry in source order. -/
def Token.Reducers (p : Packages) (t : Token) : List handler2.AggregateReducer :=
  [ { Aggregate := p.userAggregateType,
      EventRedusers :=
        [ { Event := p.UserTokenAddedType, Reduce := Token.Reduce p t },
          { Event := p.UserV1ProfileChangedType, Reduce := Token.Reduce p t },
          { Event := p.HumanProfileChangedType, Reduce := Token.Reduce p t },
          { Event := p.UserV1SignedOutType, Reduce := Token.Reduce p t },
          { Event := p.HumanSignedOutType, Reduce := Token.Reduce p t },
          { Event := p.UserLockedType, Reduce := Token.Reduce p t },
          { Event := p.UserDeactivatedType, Reduce := Token.Reduce p t },
          { Event := p.UserRemovedType, Reduce := Token.Reduce p t },
          { Event := p.UserTokenRemovedType, Reduce := Token.Reduce p t },
          { Event := p.PersonalAccessTokenRemovedType, Reduce := Token.Reduce p t },
          { Event := p.HumanRefreshTokenRemovedType, Reduce := Token.Reduce p t } ] },
    { Aggregate := p.projectAggregateType,
      EventRedusers :=
        [ { Event := p.ApplicationDeactivatedType, Reduce := Token.Reduce p t },
          { Event := p.ApplicationRemovedType, Reduce := Token.Reduce p t },
          { Event := p.ProjectDeactivatedType, Reduce := Token.Reduce p t },
          { Event := p.ProjectRemovedType, Reduce := Token.Reduce p t } ] },
    { Aggregate := p.orgAggregateType,
      EventRedusers :=
        [ { Event := p.OrgRemovedEventType, Reduce := Token.Reduce p t } ] },
    { Aggregate := p.instanceAggregateType,
      EventRedusers :=
        [ { Event := p.InstanceRemovedEventType, Reduce := Token.Reduce p t } ] } ]

/-- The `(aggregate type, event type)` pairs for which `Reducers` registers a reducer. -/
def Token.registered (p : Packages) (t : Token) :
    List (eventstore.AggregateType × eventstore.EventType) :=
  (Token.Reducers p t).flatMap (fun ar => ar.EventRedusers.map (fun er => (ar.Aggregate, er.Event)))

end handler

/-! ## Package `eventstore` (v3): events from commands -/

namespace v3

/-- Byte slice of an encoded payload, Go `type Payload []byte`. -/
abbrev Payload := Bytes

/-- The entry of the latest-sequence list given to `commandToEvent`: the aggregate (taken
non-nil) and its sequence. -/
structure latestSequence where
  aggregate : eventstore.Aggregate
  sequence : Nat
  deriving DecidableEq, Repr

/-- Whether a unique constraint is added or removed. -/
inductive UniqueConstraintAction where
  | Add
  | Remove
  deriving DecidableEq, Repr

/-- Go `eventstore.UniqueConstraint`: an ADD or REMOVE of the row
`(instance, unique type, unique field)`, the instance being that of the command. -/
structure UniqueConstraint where
  UniqueType : String
  UniqueField : String
  Action : UniqueConstraintAction
  deriving DecidableEq, Repr

/-- The interface `eventstore.Command` as `commandToEvent` and the push see it; `P` is the
type of the payload value, `none` the nil interface. -/
structure Command (P : Type) where
  Aggregate : eventstore.Aggregate
  Creator : String
  Typ : eventstore.EventType
  Revision : Nat
  Payload : Option P
  UniqueConstraints : List UniqueConstraint

/-- Go `type event struct`; `createdAt` is an instant, `0` the zero time. -/
structure event where
  aggregate : eventstore.Aggregate
  creator : String
  revision : Nat
  typ : eventstore.EventType
  createdAt : Nat
  sequence : Nat
  globalSequence : Nat
  payload : Payload
  deriving DecidableEq, Repr

/-- Go `commandToEvent`; `marshal` is `json.Marshal` on the payload type. -/
def commandToEvent {P : Type} (marshal : P → Except GoError Bytes)
    (sequence : latestSequence) (command : Command P) : Except GoError event :=
  let encoded : Except GoError Payload :=
    match command.Payload with
    | none => .ok []
    | some value => marshal value
  match encoded with
  | .error err => .error err
  | .ok payload =>
    .ok { aggregate := sequence.aggregate,
          creator := command.Creator,
          revision := command.Revision,
          typ := command.Typ,
          createdAt := 0,
          sequence := sequence.sequence,
          globalSequence := 0,
          payload := payload }

end v3

/-! ## Sample values -/

namespace sample

/-- The bytes of an ASCII text. -/
def bytes (text : String) : Bytes := text.toList.map (fun c => c.toNat.toUInt8)

/-- A JSON syntax cut down to five payloads: a removed-token object, a signed-out object, an
application object, a profile object and `null`; every other byte slice is rejected. -/
def jsonParse (data : Bytes) : Option json.Value :=
  if data = bytes "\x7b\"tokenId\":\"t1\"\x7d" then
    some (.object [("tokenId", .string "t1")])
  else if data = bytes "\x7b\"userAgentID\":\"agent1\"\x7d" then
    some (.object [("userAgentID", .string "agent1")])
  else if data = bytes "\x7b\"appId\":\"app1\"\x7d" then
    some (.object [("appId", .string "app1")])
  else if data = bytes "\x7b\"preferredLanguage\":\"de\"\x7d" then
    some (.object [("preferredLanguage", .string "de")])
  else if data = bytes "null" then
    some .null
  else
    none

/-- An application decoder that reads the string member `appId`. -/
def decodeApplication : json.Value → Except GoError project_es_model.Application
  | .object members =>
    match json.mapIndex members "appId" with
    | some (.string id) => .ok ⟨id, "", none⟩
    | some _ => .error (.foreign "json: cannot unmarshal into Go struct field")
    | none => .ok ⟨"", "", none⟩
  | _ => .error (.foreign "json: cannot unmarshal into Go value of struct type")

/-- A user view reducer for the samples: the payload must be a JSON object; its string
member `preferredLanguage`, when present, becomes the preferred language. -/
def UserViewAppendEvent (user : view_model.UserView) (event : eventstore.Event) :
    Except GoError view_model.UserView :=
  match jsonParse event.DataAsBytes with
  | some (.object members) =>
    .ok { ID := event.Aggregate.ID,
          InstanceID := event.Aggregate.InstanceID,
          PreferredLanguage :=
            match json.mapIndex members "preferredLanguage" with
            | some (.string language) => language
            | _ => user.PreferredLanguage }
  | _ => .error (.foreign "json: cannot unmarshal the event data")

/-- A project reducer for the samples: an event of type `project.application.oidc.added`
adds an OIDC application named by the creator field, any other event a plain application;
the sequence of the project becomes that of the event. -/
def ProjectAppendEvent (project : project_es_model.Project) (event : eventstore.Event) :
    Except GoError project_es_model.Project :=
  let app : project_es_model.Application :=
    if event.Typ = "project.application.oidc.added" then
      ⟨event.Creator, "", some ⟨event.Creator, event.Creator ++ "@client"⟩⟩
    else
      ⟨event.Creator, "", none⟩
  .ok { project with Sequence := event.Sequence, Applications := project.Applications ++ [app] }

/-- The sample conversion of the rebuilt project to the project model. -/
def ProjectToModel (project : project_es_model.Project) : proj_model.Project :=
  { AggregateID := project.AggregateID,
    Sequence := project.Sequence,
    Name := project.Name,
    Applications := project.Applications.map
      (fun app => ⟨app.AppID, app.Name, app.OIDCConfig.map (fun c => ⟨c.AppID, c.ClientID⟩)⟩) }

/-- A concrete choice of the imported packages. -/
def packages : handler.Packages where
  userAggregateType := "user"
  projectAggregateType := "project"
  orgAggregateType := "org"
  instanceAggregateType := "instance"
  UserTokenAddedType := "user.token.added"
  PersonalAccessTokenAddedType := "user.pat.added"
  UserV1ProfileChangedType := "user.profile.changed"
  HumanProfileChangedType := "user.human.profile.changed"
  UserV1SignedOutType := "user.signed.out"
  HumanSignedOutType := "user.human.signed.out"
  UserLockedType := "user.locked"
  UserDeactivatedType := "user.deactivated"
  UserRemovedType := "user.removed"
  UserTokenRemovedType := "user.token.removed"
  PersonalAccessTokenRemovedType := "user.pat.removed"
  HumanRefreshTokenRemovedType := "user.human.refresh.token.removed"
  ApplicationDeactivatedType := "project.application.deactivated"
  ApplicationRemovedType := "project.application.removed"
  ProjectDeactivatedType := "project.deactivated"
  ProjectRemovedType := "project.removed"
  InstanceRemovedEventType := "instance.removed"
  OrgRemovedEventType := "org.removed"
  distinct := by decide
  jsonParse := jsonParse
  decodeApplication := decodeApplication
  TokenViewAppendEvent := fun token event =>
    .ok { token with UserID := event.Aggregate.ID, InstanceID := event.Aggregate.InstanceID }
  UserViewAppendEvent := UserViewAppendEvent
  ProjectByIDQuery := fun id instanceID latestSequence =>
    .ok ⟨["project"], id, instanceID, latestSequence⟩
  ProjectAppendEvent := ProjectAppendEvent
  ProjectToModel := ProjectToModel

/-- Two token rows of user `user1` in instance `inst1`. -/
def rows : List view_model.TokenView :=
  [ ⟨"t1", "user1", "inst1", "app1", ["aud"], ["openid"], "en", 100, ""⟩,
    ⟨"t2", "user1", "inst1", "app2", [], ["openid", "email"], "fr", 200, "r1"⟩ ]

/-- A project history: created, an OIDC application, a plain application, an OIDC application. -/
def projectEvents : List eventstore.Event :=
  [ ⟨⟨"proj1", "project", "org1", "inst1"⟩, "app0", "project.added", 1, 1, []⟩,
    ⟨⟨"proj1", "project", "org1", "inst1"⟩, "app1", "project.application.oidc.added", 1, 2, []⟩,
    ⟨⟨"proj1", "project", "org1", "inst1"⟩, "app2", "project.application.added", 1, 3, []⟩,
    ⟨⟨"proj1", "project", "org1", "inst1"⟩, "app3", "project.application.oidc.added", 1, 4, []⟩ ]

/-- A token projection whose view holds `rows` for `user1` in `inst1` and whose event store
holds `projectEvents` for `proj1`. -/
def token : handler.Token where
  view := ⟨fun userID instanceID =>
    .ok (rows.filter (fun row => row.UserID = userID ∧ row.InstanceID = instanceID))⟩
  es := ⟨fun query => .ok (if query.AggregateID = "proj1" then projectEvents else [])⟩

/-- A sample event of aggregate `id` of instance `inst1` with the given type and payload. -/
def eventOf (aggregateType id typ : String) (data : Bytes) : eventstore.Event :=
  ⟨⟨id, aggregateType, "org1", "inst1"⟩, "editor", typ, 1, 7, data⟩

/-- An encoder for payloads that already are JSON text: the bytes of the text, and an error
for the empty text. -/
def marshal (text : String) : Except GoError Bytes :=
  if text = "" then .error (.foreign "json: unsupported value") else .ok (bytes text)

/-- The latest-sequence entry of aggregate `user1`, owned by `org1`, at sequence 5. -/
def latest : v3.latestSequence := ⟨⟨"user1", "user", "org1", "inst1"⟩, 5⟩

/-- A command on `user1` that names another resource owner and carries the payload `null`. -/
def command : v3.Command String :=
  ⟨⟨"user1", "user", "org2", "inst1"⟩, "editor", "user.added", 2, some "null", []⟩

end sample

/-! ## Package `errors`: classification -/

namespace errors

/-- Modelled from the spec: package `errors` is outside the embedded files; an error is
NotFound when it was thrown with that kind (a wrapped NotFound parent does not count). -/
def IsNotFound : GoError → Bool
  | .caos .NotFound _ _ _ => true
  | _ => false

end errors

/-! ## Package `view` (auth): user sessions -/

namespace view

/-- The database handle `v.Db` as the delete functions of package
`internal/user/repository/view` answer on it: the error each returns for a table and its
arguments, `none` for nil. -/
structure Db where
  DeleteUserSessions : (table userID instanceID : String) → Option GoError
  DeleteInstanceUserSessions : (table instanceID : String) → Option GoError
  DeleteOrgUserSessions : (table instanceID orgID : String) → Option GoError

end view

namespace auth_view

/-- Go `const userSessionTable`. -/
def userSessionTable : String := "auth.user_sessions"

/-- Go `(*View).DeleteUserSessions`, with `db` the field `v.Db`. -/
def DeleteUserSessions (db : view.Db) (userID instanceID : String) : Option GoError :=
  match db.DeleteUserSessions userSessionTable userID instanceID with
  | some err => if !errors.IsNotFound err then some err else none
  | none => none

/-- Go `(*View).DeleteInstanceUserSessions`, with `db` the field `v.Db`. -/
def DeleteInstanceUserSessions (db : view.Db) (instanceID : String) : Option GoError :=
  match db.DeleteInstanceUserSessions userSessionTable instanceID with
  | some err => if !errors.IsNotFound err then some err else none
  | none => none

/-- Go `(*View).DeleteOrgUserSessions`, with `db` the field `v.Db`. -/
def DeleteOrgUserSessions (db : view.Db) (event : eventstore.Event) : Option GoError :=
  match db.DeleteOrgUserSessions userSessionTable event.Aggregate.InstanceID
      event.Aggregate.ResourceOwner with
  | some err => if !errors.IsNotFound err then some err else none
  | none => none

end auth_view

/-! ## Package `command`: OTP write models -/

namespace crypto

/-- Go `crypto.CryptoValue`, with the fields set in the embedded files. -/
structure CryptoValue where
  CryptoType : Nat
  Algorithm : String
  KeyID : String
  Crypted : Bytes
  deriving DecidableEq, Repr

end crypto

namespace domain

/-- Go `domain.MFAState`: the zero value and the three states the write model assigns. -/
inductive MFAState where
  | MFAStateUnspecified
  | MFAStateNotReady
  | MFAStateReady
  | MFAStateRemoved
  deriving DecidableEq, Repr

end domain

namespace user

/-- An event of the user aggregate, by its dynamic Go type as the type switches of the write
models tell them apart; `other` is an event of any other type. Only the OTP-added event
carries a field the write models read. -/
inductive Event where
  | HumanOTPAddedEvent (Secret : Option crypto.CryptoValue)
  | HumanOTPVerifiedEvent
  | HumanOTPRemovedEvent
  | UserRemovedEvent
  | HumanPhoneVerifiedEvent
  | HumanOTPSMSAddedEvent
  | HumanOTPSMSRemovedEvent
  | HumanPhoneRemovedEvent
  | HumanEmailVerifiedEvent
  | HumanOTPEmailAddedEvent
  | HumanOTPEmailRemovedEvent
  | other (typ : eventstore.EventType)
  deriving DecidableEq, Repr

end user

namespace eventstore

/-- Go `eventstore.WriteModel`, embedded in every write model; `Events` holds the events
appended and not yet reduced. -/
structure WriteModel where
  AggregateID : String
  ProcessedSequence : Nat
  Events : List user.Event
  ResourceOwner : String
  InstanceID : String
  deriving DecidableEq, Repr

end eventstore

namespace command

/-- Go `type HumanTOTPWriteModel struct`. -/
structure HumanTOTPWriteModel where
  WriteModel : eventstore.WriteModel
  State : domain.MFAState
  Secret : Option crypto.CryptoValue
  deriving DecidableEq, Repr

/-- Go `NewHumanTOTPWriteModel`. -/
def NewHumanTOTPWriteModel (userID resourceOwner : String) : HumanTOTPWriteModel :=
  { WriteModel := { AggregateID := userID, ProcessedSequence := 0, Events := [],
                    ResourceOwner := resourceOwner, InstanceID := "" },
    State := .MFAStateUnspecified,
    Secret := none }

/-- The body of the loop of `(*HumanTOTPWriteModel).Reduce`: the type switch on one event. -/
def HumanTOTPWriteModel.reduceEvent (wm : HumanTOTPWriteModel) (event : user.Event) :
    HumanTOTPWriteModel :=
  match event with
  | .HumanOTPAddedEvent secret => { wm with Secret := secret, State := .MFAStateNotReady }
  | .HumanOTPVerifiedEvent => { wm with State := .MFAStateReady }
  | .HumanOTPRemovedEvent => { wm with State := .MFAStateRemoved }
  | .UserRemovedEvent => { wm with State := .MFAStateRemoved }
  | _ => wm

/-- Go `(*HumanTOTPWriteModel).Reduce`: the loop over `wm.Events`, then `wm.WriteModel.Reduce()`,
which is given as `base` (the embedded write model after the call, and the error returned).
The result is the write model after the call and the error returned. -/
def HumanTOTPWriteModel.Reduce
    (base : eventstore.WriteModel → eventstore.WriteModel × Option GoError)
    (wm : HumanTOTPWriteModel) : HumanTOTPWriteModel × Option GoError :=
  let wm1 := wm.WriteModel.Events.foldl HumanTOTPWriteModel.reduceEvent wm
  ({ wm1 with WriteModel := (base wm1.WriteModel).1 }, (base wm1.WriteModel).2)

/-- Go `type HumanOTPSMSWriteModel struct`. -/
structure HumanOTPSMSWriteModel where
  WriteModel : eventstore.WriteModel
  phoneVerified : Bool
  otpAdded : Bool
  deriving DecidableEq, Repr

/-- Go `NewHumanOTPSMSWriteModel`. -/
def NewHumanOTPSMSWriteModel (userID resourceOwner : String) : HumanOTPSMSWriteModel :=
  { WriteModel := { AggregateID := userID, ProcessedSequence := 0, Events := [],
                    ResourceOwner := resourceOwner, InstanceID := "" },
    phoneVerified := false,
    otpAdded := false }

/-- The body of the loop of `(*HumanOTPSMSWriteModel).Reduce`. -/
def HumanOTPSMSWriteModel.reduceEvent (wm : HumanOTPSMSWriteModel) (event : user.Event) :
    HumanOTPSMSWriteModel :=
  match event with
  | .HumanPhoneVerifiedEvent => { wm with phoneVerified := true }
  | .HumanOTPSMSAddedEvent => { wm with otpAdded := true }
  | .HumanOTPSMSRemovedEvent => { wm with otpAdded := false }
  | .HumanPhoneRemovedEvent => { wm with phoneVerified := false, otpAdded := false }
  | .UserRemovedEvent => { wm with phoneVerified := false, otpAdded := false }
  | _ => wm

/-- Go `(*HumanOTPSMSWriteModel).Reduce`; `base` is `wm.WriteModel.Reduce()`. -/
def HumanOTPSMSWriteModel.Reduce
    (base : eventstore.WriteModel → eventstore.WriteModel × Option GoError)
    (wm : HumanOTPSMSWriteModel) : HumanOTPSMSWriteModel × Option GoError :=
  let wm1 := wm.WriteModel.Events.foldl HumanOTPSMSWriteModel.reduceEvent wm
  ({ wm1 with WriteModel := (base wm1.WriteModel).1 }, (base wm1.WriteModel).2)

/-- Go `type HumanOTPEmailWriteModel struct`. -/
structure HumanOTPEmailWriteModel where
  WriteModel : eventstore.WriteModel
  emailVerified : Bool
  otpAdded : Bool
  deriving DecidableEq, Repr

/-- Go `NewHumanOTPEmailWriteModel`. -/
def NewHumanOTPEmailWriteModel (userID resourceOwner : String) : HumanOTPEmailWriteModel :=
  { WriteModel := { AggregateID := userID, ProcessedSequence := 0, Events := [],
                    ResourceOwner := resourceOwner, InstanceID := "" },
    emailVerified := false,
    otpAdded := false }

/-- The body of the loop of `(*HumanOTPEmailWriteModel).Reduce`. -/
def HumanOTPEmailWriteModel.reduceEvent (wm : HumanOTPEmailWriteModel) (event : user.Event) :
    HumanOTPEmailWriteModel :=
  match event with
  | .HumanEmailVerifiedEvent => { wm with emailVerified := true }
  | .HumanOTPEmailAddedEvent => { wm with otpAdded := true }
  | .HumanOTPEmailRemovedEvent => { wm with otpAdded := false }
  | .UserRemovedEvent => { wm with emailVerified := false, otpAdded := false }
  | _ => wm

/-- Go `(*HumanOTPEmailWriteModel).Reduce`; `base` is `wm.WriteModel.Reduce()`. -/
def HumanOTPEmailWriteModel.Reduce
    (base : eventstore.WriteModel → eventstore.WriteModel × Option GoError)
    (wm : HumanOTPEmailWriteModel) : HumanOTPEmailWriteModel × Option GoError :=
  let wm1 := wm.WriteModel.Events.foldl HumanOTPEmailWriteModel.reduceEvent wm
  ({ wm1 with WriteModel := (base wm1.WriteModel).1 }, (base wm1.WriteModel).2)

/-- The event types named in the switch of `(*HumanTOTPWriteModel).Reduce`. -/
def HumanTOTPWriteModel.named : user.Event → Bool
  | .HumanOTPAddedEvent _ => true
  | .HumanOTPVerifiedEvent => true
  | .HumanOTPRemovedEvent => true
  | .UserRemovedEvent => true
  | _ => false

/-- The event types named in the switch of `(*HumanOTPSMSWriteModel).Reduce`. -/
def HumanOTPSMSWriteModel.named : user.Event → Bool
  | .HumanPhoneVerifiedEvent => true
  | .HumanOTPSMSAddedEvent => true
  | .HumanOTPSMSRemovedEvent => true
  | .HumanPhoneRemovedEvent => true
  | .UserRemovedEvent => true
  | _ => false

/-- The event types named in the switch of `(*HumanOTPEmailWriteModel).Reduce`. -/
def HumanOTPEmailWriteModel.named : user.Event → Bool
  | .HumanEmailVerifiedEvent => true
  | .HumanOTPEmailAddedEvent => true
  | .HumanOTPEmailRemovedEvent => true
  | .UserRemovedEvent => true
  | _ => false

/-- The write model with `events` as its list of events to reduce. -/
def HumanTOTPWriteModel.withEvents (wm : HumanTOTPWriteModel) (events : List user.Event) :
    HumanTOTPWriteModel :=
  { wm with WriteModel := { wm.WriteModel with Events := events } }

/-- The write model with `events` as its list of events to reduce. -/
def HumanOTPSMSWriteModel.withEvents (wm : HumanOTPSMSWriteModel) (events : List user.Event) :
    HumanOTPSMSWriteModel :=
  { wm with WriteModel := { wm.WriteModel with Events := events } }

/-- The write model with `events` as its list of events to reduce. -/
def HumanOTPEmailWriteModel.withEvents (wm : HumanOTPEmailWriteModel)
    (events : List user.Event) : HumanOTPEmailWriteModel :=
  { wm with WriteModel := { wm.WriteModel with Events := events } }

end command

namespace sample

/-- A base `WriteModel.Reduce` for the examples: it adds the number of events to the
processed sequence and empties the list of events. -/
def baseReduce (wm : eventstore.WriteModel) : eventstore.WriteModel × Option GoError :=
  ({ wm with ProcessedSequence := wm.ProcessedSequence + wm.Events.length, Events := [] }, none)

/-- A database whose deletes answer NotFound for user `nobody`, a connection error for
instance `down`, and nil otherwise. -/
def db : view.Db where
  DeleteUserSessions := fun _ userID instanceID =>
    if instanceID = "down" then some (.foreign "connection refused")
    else if userID = "nobody" then some (errors.ThrowNotFound none "VIEW-1" "not found")
    else none
  DeleteInstanceUserSessions := fun _ instanceID =>
    if instanceID = "down" then some (.foreign "connection refused") else none
  DeleteOrgUserSessions := fun _ instanceID orgID =>
    if instanceID = "down" then some (.foreign "connection refused")
    else if orgID = "nobody" then some (errors.ThrowNotFound none "VIEW-2" "not found")
    else none

end sample

/-! ## Event store (v3): push -/

namespace context

/-- Go `context.Context`, as far as a push looks at it: whether it is cancelled. -/
structure Context where
  canceled : Bool
  deriving DecidableEq, Repr

end context

namespace v3

/-- The identity of an aggregate: instance, type and id. -/
def aggregateKey (a : eventstore.Aggregate) : String × String × String :=
  (a.InstanceID, a.Typ, a.ID)

/-- The tables of the event store: the events in insertion order and the live rows
`(instance, unique type, unique field)` of the unique constraints. -/
structure Store where
  events : List event
  uniques : List (String × String × String)
  deriving DecidableEq, Repr

/-- Modelled from the spec: the push of the v3 event store (`push.go`, `sequence.go`) is
outside the embedded files. The latest sequence of an aggregate is the highest sequence
among its stored events, 0 when it has none. -/
def storedSequence (stored : List event) (a : eventstore.Aggregate) : Nat :=
  (stored.filter (fun e => aggregateKey e.aggregate = aggregateKey a)).foldl
    (fun latest e => max latest e.sequence) 0

/-- Modelled from the spec: the sequence entries of a push, one per aggregate identity among
the commands, in order of first appearance; the entry carries the aggregate of the first
command for that identity (test `TestCRDB_Push_ResourceOwner`) and the stored sequence. -/
def commandsToSequences {P : Type} (stored : List event) (commands : List (Command P)) :
    List latestSequence :=
  commands.foldl
    (fun sequences command =>
      match sequences.find? (fun s => aggregateKey s.aggregate = aggregateKey command.Aggregate) with
      | some _ => sequences
      | none => sequences ++ [⟨command.Aggregate, storedSequence stored command.Aggregate⟩])
    []

/-- Modelled from the spec: each command is assigned the next per-aggregate sequence. The
entry of the aggregate is looked up by identity and incremented; the result is the
incremented entry and the list with that entry replaced. -/
def nextSequence : List latestSequence → eventstore.Aggregate →
    Option (latestSequence × List latestSequence)
  | [], _ => none
  | s :: rest, a =>
    if aggregateKey s.aggregate = aggregateKey a then
      some ({ s with sequence := s.sequence + 1 }, { s with sequence := s.sequence + 1 } :: rest)
    else
      match nextSequence rest a with
      | none => none
      | some (found, rest1) => some (found, s :: rest1)

/-- Modelled from the spec: the commands of a push become events in command order, each
through `commandToEvent` with the incremented sequence entry of its aggregate. -/
def mapCommands {P : Type} (marshal : P → Except GoError Bytes) :
    List latestSequence → List (Command P) → Except GoError (List event)
  | _, [] => .ok []
  | sequences, command :: rest =>
    match nextSequence sequences command.Aggregate with
    | none => .error (.foreign "no sequence found")
    | some (sequence, sequences1) =>
      match commandToEvent marshal sequence command with
      | .error err => .error err
      | .ok e =>
        match mapCommands marshal sequences1 rest with
        | .error err => .error err
        | .ok events => .ok (e :: events)

/-- Modelled from the spec: the store assigns a global sequence; the events get the numbers
following `first`, in order. -/
def assignGlobalSequence : Nat → List event → List event
  | _, [] => []
  | first, e :: rest => { e with globalSequence := first + 1 } :: assignGlobalSequence (first + 1) rest

/-- Modelled from the spec: one unique-constraint operation on the rows: an ADD of a live row
fails with AlreadyExists, a REMOVE deletes the row. -/
def applyUniqueConstraint (uniques : List (String × String × String)) (instanceID : String)
    (constraint : UniqueConstraint) : Except GoError (List (String × String × String)) :=
  match constraint.Action with
  | .Add =>
    if (instanceID, constraint.UniqueType, constraint.UniqueField) ∈ uniques then
      .error (.caos .AlreadyExists none "V3-DKcYh" "Errors.AlreadyExists")
    else
      .ok (uniques ++ [(instanceID, constraint.UniqueType, constraint.UniqueField)])
  | .Remove =>
    .ok (uniques.filter
      (fun row => row ≠ (instanceID, constraint.UniqueType, constraint.UniqueField)))

/-- Modelled from the spec: the unique-constraint operations of one command, in order. -/
def applyUniqueConstraints (instanceID : String) :
    List (String × String × String) → List UniqueConstraint →
    Except GoError (List (String × String × String))
  | uniques, [] => .ok uniques
  | uniques, constraint :: rest =>
    match applyUniqueConstraint uniques instanceID constraint with
    | .error err => .error err
    | .ok uniques1 => applyUniqueConstraints instanceID uniques1 rest

/-- Modelled from the spec: all attached unique-constraint operations of the commands of a
push, in command order. -/
def handleUniqueConstraints {P : Type} :
    List (String × String × String) → List (Command P) →
    Except GoError (List (String × String × String))
  | uniques, [] => .ok uniques
  | uniques, command :: rest =>
    match applyUniqueConstraints command.Aggregate.InstanceID uniques
        command.UniqueConstraints with
    | .error err => .error err
    | .ok uniques1 => handleUniqueConstraints uniques1 rest

/-- Modelled from the spec: `push(ctx, commands...) → events, error` of the event store
(`push.go` is outside the embedded files). One transaction: the commands are given the next
per-aggregate sequences and turned into events, the events get global sequences and are
written, and the unique-constraint operations are applied; a cancelled context, an encoding
error or a unique violation fails the whole push and leaves the store as it was. The result
is the store after the push and what the push returns. Concurrent pushes (sequence races)
are outside the model. -/
def Push {P : Type} (marshal : P → Except GoError Bytes) (ctx : context.Context)
    (store : Store) (commands : List (Command P)) : Store × Except GoError (List event) :=
  if ctx.canceled then
    (store, .error (.foreign "context canceled"))
  else
    match mapCommands marshal (commandsToSequences store.events commands) commands with
    | .error err => (store, .error err)
    | .ok mapped =>
      let events := assignGlobalSequence store.events.length mapped
      match handleUniqueConstraints store.uniques commands with
      | .error err => (store, .error err)
      | .ok uniques => ({ events := store.events ++ events, uniques := uniques }, .ok events)

/-- The aggregate of the first command of the list with the identity of `a`; `a` itself when
no command has that identity. -/
def firstAggregate {P : Type} (commands : List (Command P)) (a : eventstore.Aggregate) :
    eventstore.Aggregate :=
  match (commands.map (fun c => c.Aggregate)).find?
      (fun b => aggregateKey b = aggregateKey a) with
  | some b => b
  | none => a

/-- The number of stored events of the aggregates that the commands target. -/
def countTargeted {P : Type} (commands : List (Command P)) (events : List event) : Nat :=
  (events.filter
    (fun e => commands.any (fun c => aggregateKey c.Aggregate = aggregateKey e.aggregate))).length

end v3

namespace sample

/-- The command of the push tests: an event of type `test.event` on aggregate `id` of
instance `inst1`, with the given resource owner and unique constraints. -/
def generateCommand (id resourceOwner : String)
    (uniqueConstraints : List v3.UniqueConstraint) : v3.Command String :=
  ⟨⟨id, "test", resourceOwner, "inst1"⟩, "editor", "test.event", 1, some "null",
    uniqueConstraints⟩

/-- An empty event store. -/
def emptyStore : v3.Store := ⟨[], []⟩

/-- The commands of the push test with a different resource owner per event. -/
def ownerCommands : List (v3.Command String) :=
  [ generateCommand "507" "caos" [], generateCommand "507" "ignored" [],
    generateCommand "508" "zitadel" [], generateCommand "508" "ignored" [] ]

end sample

/-! ## Package `strings` -/

namespace strings

/-- Go `unicode.IsSpace`: the white space characters. -/
def isSpace (c : Char) : Bool :=
  (9 ≤ c.toNat ∧ c.toNat ≤ 13) ∨ c.toNat = 32 ∨ c.toNat = 0x85 ∨ c.toNat = 0xA0 ∨
    c.toNat = 0x1680 ∨ (0x2000 ≤ c.toNat ∧ c.toNat ≤ 0x200A) ∨ c.toNat = 0x2028 ∨
    c.toNat = 0x2029 ∨ c.toNat = 0x202F ∨ c.toNat = 0x205F ∨ c.toNat = 0x3000

/-- Go `strings.TrimSpace`: the string without its leading and trailing white space. -/
def TrimSpace (s : String) : String :=
  ⟨(s.data.dropWhile isSpace).rdropWhile isSpace⟩

end strings

/-! ## Package `command`: instance domains and organisations -/

namespace errors

/-- Go `errors.ThrowInvalidArgument(parent, id, message)`. -/
def ThrowInvalidArgument (parent : Option GoError) (id message : String) : GoError :=
  .caos .InvalidArgument parent id message

/-- Go `errors.ThrowPreconditionFailed(parent, id, message)`. -/
def ThrowPreconditionFailed (parent : Option GoError) (id message : String) : GoError :=
  .caos .PreconditionFailed parent id message

/-- The kind of an error thrown by package `errors`, `none` for any other error. -/
def kindOf : GoError → Option Kind
  | .caos kind _ _ _ => some kind
  | .foreign _ => none

end errors

namespace command

/-- A call on the event store made while a command runs; `C` is the type of the pushed
commands. -/
inductive EventstoreCall (C : Type) where
  | Filter (aggregateID : String)
  | Push (commands : List C)

/-- What a command does: its calls on the event store, in order, and what it returns. -/
structure Run (C α : Type) where
  calls : List (EventstoreCall C)
  result : Except GoError α

/-- Modelled from the spec: the validation helper for domain names is outside the embedded
files. A domain name may hold ASCII letters, digits, dots and hyphens only: non-ASCII
characters (umlauts, emoji) and other punctuation such as the apostrophe are excluded. -/
def allowedDomainRune (c : Char) : Bool :=
  (48 ≤ c.toNat ∧ c.toNat ≤ 57) ∨ (65 ≤ c.toNat ∧ c.toNat ≤ 90) ∨
    (97 ≤ c.toNat ∧ c.toNat ≤ 122) ∨ c.toNat = 45 ∨ c.toNat = 46

/-- Modelled from the spec: domain names reject the empty name and names with a character
that is not allowed, with InvalidArgument (the spec gives no error ids). -/
def validateInstanceDomain (instanceDomain : String) : Option GoError :=
  if instanceDomain = "" then
    some (errors.ThrowInvalidArgument none "" "Errors.Invalid.Argument")
  else if !instanceDomain.data.all allowedDomainRune then
    some (errors.ThrowInvalidArgument none "" "Errors.Instance.Domain.InvalidCharacter")
  else
    none

/-- Modelled from the spec: `AddInstanceDomain` (`instance_domain.go` is outside the embedded
files). The validation error is produced before any event is emitted; the rest of the
command (load the write models, check, push), which the claims about validation do not
reach, is the parameter `proceed`. -/
def AddInstanceDomain {C α : Type} (proceed : String → Run C α) (instanceDomain : String) :
    Run C α :=
  match validateInstanceDomain instanceDomain with
  | some err => ⟨[], .error err⟩
  | none => proceed instanceDomain

/-- Modelled from the spec: `SetPrimaryInstanceDomain`; the empty domain is rejected with
InvalidArgument before the rest of the command, `proceed`. -/
def SetPrimaryInstanceDomain {C α : Type} (proceed : String → Run C α)
    (instanceDomain : String) : Run C α :=
  if instanceDomain = "" then
    ⟨[], .error (errors.ThrowInvalidArgument none "" "Errors.Invalid.Argument")⟩
  else
    proceed instanceDomain

/-- Modelled from the spec: `RemoveInstanceDomain`; the empty domain is rejected with
InvalidArgument before the rest of the command, `proceed`. -/
def RemoveInstanceDomain {C α : Type} (proceed : String → Run C α)
    (instanceDomain : String) : Run C α :=
  if instanceDomain = "" then
    ⟨[], .error (errors.ThrowInvalidArgument none "" "Errors.Invalid.Argument")⟩
  else
    proceed instanceDomain

end command

namespace domain

/-- Go `domain.OrgState`: the zero value and the states of an organisation. -/
inductive OrgState where
  | OrgStateUnspecified
  | OrgStateActive
  | OrgStateInactive
  | OrgStateRemoved
  deriving DecidableEq, Repr

end domain

namespace org

/-- An event of the org aggregate, by its Go type and with the arguments of its constructor
in the command tests (`org.NewOrgAddedEvent(ctx, aggregate, name)` and so on); pushed as a
command and filtered as an event. -/
inductive Event where
  | OrgAddedEvent (name : String)
  | OrgChangedEvent (oldName newName : String)
  | OrgDeactivatedEvent
  | OrgReactivatedEvent
  | OrgRemovedEvent
  | DomainAddedEvent (domain : String)
  | DomainVerifiedEvent (domain : String)
  | DomainPrimarySetEvent (domain : String)
  | DomainRemovedEvent (domain : String) (verified : Bool)
  | MemberAddedEvent (userID : String) (roles : List String)
  deriving DecidableEq, Repr

end org

namespace command

/-- A command of the org aggregate `aggregateID` that pushes `event`. -/
structure OrgCommand where
  aggregateID : String
  event : org.Event
  deriving DecidableEq, Repr

/-- The event store as the org commands use it (the mock of the command tests): the events
`Filter` returns for an org, and the error of `Push`, `none` for nil. -/
structure Eventstore where
  Filter : String → Except GoError (List org.Event)
  Push : List OrgCommand → Option GoError

/-- Modelled from the spec: the write model of an organisation (`org_model.go` is outside the
embedded files): the state and the name, as needed to validate the next command. -/
structure OrgWriteModel where
  AggregateID : String
  State : domain.OrgState
  Name : String
  PrimaryDomain : String
  deriving DecidableEq, Repr

/-- Modelled from the spec: the write model before any event. -/
def NewOrgWriteModel (orgID : String) : OrgWriteModel :=
  ⟨orgID, .OrgStateUnspecified, "", ""⟩

/-- Modelled from the spec: the reduce of the org write model on one event: added makes the
org active under its name, changed renames it, deactivated and reactivated switch the state,
removed is terminal. -/
def OrgWriteModel.reduceEvent (wm : OrgWriteModel) (event : org.Event) : OrgWriteModel :=
  match event with
  | .OrgAddedEvent name => { wm with Name := name, State := .OrgStateActive }
  | .OrgChangedEvent _ newName => { wm with Name := newName }
  | .OrgDeactivatedEvent => { wm with State := .OrgStateInactive }
  | .OrgReactivatedEvent => { wm with State := .OrgStateActive }
  | .OrgRemovedEvent => { wm with State := .OrgStateRemoved }
  | .DomainPrimarySetEvent d => { wm with PrimaryDomain := d }
  | _ => wm

/-- Modelled from the spec: the write-model loader: filter the events of the org and feed
them to the reduce in order. -/
def getOrgWriteModelByID (es : Eventstore) (orgID : String) : Except GoError OrgWriteModel :=
  match es.Filter orgID with
  | .error err => .error err
  | .ok events => .ok (events.foldl OrgWriteModel.reduceEvent (NewOrgWriteModel orgID))

/-- Whether the org of the write model exists: it has been added and not removed. -/
def OrgWriteModel.exists (wm : OrgWriteModel) : Bool :=
  wm.State ≠ .OrgStateUnspecified ∧ wm.State ≠ .OrgStateRemoved

/-- Modelled from the spec: `DeactivateOrg` (`org.go` is outside the embedded files): load
the write model; an org that does not exist is NotFound, an inactive org is
PreconditionFailed; otherwise push one org-deactivated event. The result is the resource
owner of the object details. -/
def DeactivateOrg (es : Eventstore) (orgID : String) : Run OrgCommand String :=
  match getOrgWriteModelByID es orgID with
  | .error err => ⟨[.Filter orgID], .error err⟩
  | .ok wm =>
    if !wm.exists then
      ⟨[.Filter orgID], .error (errors.ThrowNotFound none "" "Errors.Org.NotFound")⟩
    else if wm.State = .OrgStateInactive then
      ⟨[.Filter orgID],
        .error (errors.ThrowPreconditionFailed none "" "Errors.Org.AlreadyDeactivated")⟩
    else
      match es.Push [⟨orgID, .OrgDeactivatedEvent⟩] with
      | some err => ⟨[.Filter orgID, .Push [⟨orgID, .OrgDeactivatedEvent⟩]], .error err⟩
      | none => ⟨[.Filter orgID, .Push [⟨orgID, .OrgDeactivatedEvent⟩]], .ok orgID⟩

/-- Modelled from the spec: `ReactivateOrg`: load the write model; an org that does not exist
is NotFound, an org that is not inactive is PreconditionFailed; otherwise push one
org-reactivated event. -/
def ReactivateOrg (es : Eventstore) (orgID : String) : Run OrgCommand String :=
  match getOrgWriteModelByID es orgID with
  | .error err => ⟨[.Filter orgID], .error err⟩
  | .ok wm =>
    if !wm.exists then
      ⟨[.Filter orgID], .error (errors.ThrowNotFound none "" "Errors.Org.NotFound")⟩
    else if wm.State ≠ .OrgStateInactive then
      ⟨[.Filter orgID],
        .error (errors.ThrowPreconditionFailed none "" "Errors.Org.AlreadyActive")⟩
    else
      match es.Push [⟨orgID, .OrgReactivatedEvent⟩] with
      | some err => ⟨[.Filter orgID, .Push [⟨orgID, .OrgReactivatedEvent⟩]], .error err⟩
      | none => ⟨[.Filter orgID, .Push [⟨orgID, .OrgReactivatedEvent⟩]], .ok orgID⟩

/-- Modelled from the spec: `ChangeOrg`: the name is trimmed; a name that is empty after
trimming is InvalidArgument before the event store is touched; an org that does not exist is
NotFound; a trimmed name equal to the current name is PreconditionFailed. The rest of the
command (the org-changed event, the events of the default domain and the push), which the
spec does not describe, is the parameter `rename`, given the write model and the trimmed
name. -/
def ChangeOrg (es : Eventstore) (rename : OrgWriteModel → String → Run OrgCommand String)
    (orgID name : String) : Run OrgCommand String :=
  let name := strings.TrimSpace name
  if name = "" then
    ⟨[], .error (errors.ThrowInvalidArgument none "" "Errors.Org.Invalid")⟩
  else
    match getOrgWriteModelByID es orgID with
    | .error err => ⟨[.Filter orgID], .error err⟩
    | .ok wm =>
      if !wm.exists then
        ⟨[.Filter orgID], .error (errors.ThrowNotFound none "" "Errors.Org.NotFound")⟩
      else if wm.Name = name then
        ⟨[.Filter orgID],
          .error (errors.ThrowPreconditionFailed none "" "Errors.Org.NotChanged")⟩
      else
        let rest := rename wm name
        ⟨.Filter orgID :: rest.calls, rest.result⟩

/-- Modelled from the spec: `AddOrg`: the name is trimmed; a name that is empty after trimming
is InvalidArgument before the event store is touched. The rest of the command (the new id,
the checks on the user, the events and the push), which the spec does not describe, is the
parameter `add`, given the trimmed name. -/
def AddOrg {α : Type} (add : String → Run OrgCommand α) (name : String) : Run OrgCommand α :=
  let name := strings.TrimSpace name
  if name = "" then
    ⟨[], .error (errors.ThrowInvalidArgument none "" "Errors.Org.Invalid")⟩
  else
    add name

end command

namespace sample

/-- The rest of an instance-domain command for the examples: one filter and the push of one
event named after the domain. -/
def proceedDomain (instanceDomain : String) : command.Run String String :=
  ⟨[.Filter "INSTANCE", .Push [instanceDomain]], .ok "INSTANCE"⟩

/-- The rest of `AddOrg` as in the command test: the org `org2` is added under the trimmed
name with its default domain and its owner; the result is the stored name. -/
def addOrg (name : String) : command.Run command.OrgCommand String :=
  ⟨[.Filter "org2", .Filter "user1", .Filter "org2",
      .Push [⟨"org2", .OrgAddedEvent name⟩,
        ⟨"org2", .DomainAddedEvent (name.toLower ++ ".iam-domain")⟩,
        ⟨"org2", .DomainVerifiedEvent (name.toLower ++ ".iam-domain")⟩,
        ⟨"org2", .DomainPrimarySetEvent (name.toLower ++ ".iam-domain")⟩,
        ⟨"org2", .MemberAddedEvent "user1" ["ORG_OWNER"]⟩]],
    .ok name⟩

/-- The rest of `ChangeOrg` for the examples: the push of the org-changed event. -/
def renameOrg (wm : command.OrgWriteModel) (name : String) :
    command.Run command.OrgCommand String :=
  ⟨[.Push [⟨wm.AggregateID, .OrgChangedEvent wm.Name name⟩]], .ok wm.AggregateID⟩

/-- The event store of the command tests: `org1` was added as `org`, `org3` was added and
deactivated, no other org has events; every push succeeds. -/
def orgStore : command.Eventstore where
  Filter := fun orgID =>
    if orgID = "org1" then .ok [.OrgAddedEvent "org"]
    else if orgID = "org3" then .ok [.OrgAddedEvent "org", .OrgDeactivatedEvent]
    else .ok []
  Push := fun _ => none

end sample

/-! ## Session state machine -/

namespace session

/-- Modelled from the spec: a session token. The core treats tokens as opaque values; the
model names a token by the number of its minting, every minting handing out a token that
was not handed out before. -/
structure Token where
  serial : Nat
  deriving DecidableEq, Repr

/-- Modelled from the spec: the hash of a token, which the session stores in place of the
token. The hash is kept symbolic: it names the token it was computed from and nothing else,
so two tokens have the same hash only when they are the same token. -/
structure TokenHash where
  ofToken : Token
  deriving DecidableEq, Repr

/-- Modelled from the spec: the token generator; `mint n` is the token of the n-th
minting. -/
def mint (n : Nat) : Token := ⟨n⟩

/-- Modelled from the spec: the hash of a token. -/
def hash (token : Token) : TokenHash := ⟨token⟩

/-- Modelled from the spec: the events of the session aggregate that the model covers:
session added, the factor events of the User and Password checks, token set (the session
stores only the hash of its token) and session terminated. -/
inductive Event where
  | AddedEvent
  | UserCheckedEvent (userID : String)
  | PasswordCheckedEvent
  | TokenSetEvent (tokenHash : TokenHash)
  | TerminatedEvent
  deriving DecidableEq, Repr

/-- The state of a session: not created, active, terminated. -/
inductive State where
  | Unspecified
  | Active
  | Terminated
  deriving DecidableEq, Repr

/-- Modelled from the spec: the write model of a session: the verified factors (the user, the
password), the token hash and the state. -/
structure WriteModel where
  State : State
  UserID : Option String
  PasswordChecked : Bool
  TokenHash : Option TokenHash
  deriving DecidableEq, Repr

/-- The write model before any event. -/
def NewWriteModel : WriteModel := ⟨.Unspecified, none, false, none⟩

/-- Modelled from the spec: the reduce of the session write model on one event. -/
def WriteModel.reduceEvent (wm : WriteModel) (event : Event) : WriteModel :=
  match event with
  | .AddedEvent => { wm with State := .Active }
  | .UserCheckedEvent userID => { wm with UserID := some userID }
  | .PasswordCheckedEvent => { wm with PasswordChecked := true }
  | .TokenSetEvent tokenHash => { wm with TokenHash := some tokenHash }
  | .TerminatedEvent => { wm with State := .Terminated }

/-- The checks of a command that the model covers: the user to check and the password to
check, each optional. -/
structure Checks where
  User : Option String
  Password : Option String
  deriving DecidableEq, Repr

/-- The collaborators of the session commands, outside the core: the id generator, the lookup
of a user and the verification of a password (each gives its error, `none` for success). -/
structure Collaborators where
  newID : Nat → String
  checkUser : String → Option GoError
  verifyPassword : String → String → Option GoError

/-- The state of the server: the events of all session aggregates in push order, each with
the id of its session, and the numbers of tokens minted and of ids generated so far. -/
structure Server where
  events : List (String × Event)
  minted : Nat
  generated : Nat
  deriving DecidableEq, Repr

/-- The server before any command. -/
def Server.init : Server := ⟨[], 0, 0⟩

/-- Modelled from the spec: the write-model loader: the events of the session, reduced in
order. -/
def writeModelOf (server : Server) (id : String) : WriteModel :=
  ((server.events.filter (fun e => e.1 = id)).map (fun e => e.2)).foldl
    WriteModel.reduceEvent NewWriteModel

/-- Modelled from the spec: the checks of a command, consumed in the order User, Password;
each valid check emits its factor event. A Password check requires a User factor,
established by this command or an earlier one, and fails with FailedPrecondition
(PreconditionFailed) without one. -/
def checkEvents (c : Collaborators) (wm : WriteModel) (checks : Checks) :
    Except GoError (List Event) :=
  let afterUser : Except GoError (WriteModel × List Event) :=
    match checks.User with
    | none => .ok (wm, [])
    | some userID =>
      match c.checkUser userID with
      | some err => .error err
      | none => .ok ({ wm with UserID := some userID }, [.UserCheckedEvent userID])
  match afterUser with
  | .error err => .error err
  | .ok (wm1, userEvents) =>
    match checks.Password with
    | none => .ok userEvents
    | some password =>
      match wm1.UserID with
      | none =>
        .error (errors.ThrowPreconditionFailed none "" "Errors.User.UserIDMissing")
      | some userID =>
        match c.verifyPassword userID password with
        | some err => .error err
        | none => .ok (userEvents ++ [.PasswordCheckedEvent])

/-- Modelled from the spec: `CreateSession(checks) → (id, token)`: creates the aggregate,
applies the checks, mints a token and emits session-added, the factor events and the token
event; a failing check emits nothing. Challenges, the other checks, metadata and expiry are
outside the model. -/
def CreateSession (c : Collaborators) (server : Server) (checks : Checks) :
    Server × Except GoError (String × Token) :=
  match checkEvents c NewWriteModel checks with
  | .error err => (server, .error err)
  | .ok factorEvents =>
    let id := c.newID server.generated
    let token := mint server.minted
    ({ events := server.events ++
          ([Event.AddedEvent] ++ factorEvents ++ [Event.TokenSetEvent (hash token)]).map
            (fun e => (id, e)),
       minted := server.minted + 1,
       generated := server.generated + 1 },
      .ok (id, token))

end session

namespace sample

/-- Collaborators for the examples: the n-th id is `n + 1` letters `s`; the user `user1`
exists and has the password `secret`. -/
def collaborators : session.Collaborators where
  newID := fun n => ⟨List.replicate (n + 1) 's'⟩
  checkUser := fun userID =>
    if userID = "user1" then none else some (errors.ThrowNotFound none "" "Errors.User.NotFound")
  verifyPassword := fun userID password =>
    if userID = "user1" ∧ password = "secret" then none
    else some (errors.ThrowInvalidArgument none "" "Errors.User.Password.Invalid")

end sample

/-! ## Token projection: payloads without the string member -/

namespace sample

/-- The sample JSON syntax with three more payloads: the empty object, a removed-token object
whose `tokenId` is a number and a signed-out object whose `userAgentID` is a number. -/
def jsonParseNumbers (data : Bytes) : Option json.Value :=
  if data = bytes "\x7b\x7d" then
    some (.object [])
  else if data = bytes "\x7b\"tokenId\":5\x7d" then
    some (.object [("tokenId", .number "5")])
  else if data = bytes "\x7b\"userAgentID\":5\x7d" then
    some (.object [("userAgentID", .number "5")])
  else
    jsonParse data

/-- The sample packages with the larger JSON syntax. -/
def packagesNumbers : handler.Packages := { packages with jsonParse := jsonParseNumbers }

/-- An event store whose filter fails for the project `down`, and otherwise answers as that
of `token`. -/
def tokenFailing : handler.Token where
  view := token.view
  es := ⟨fun query =>
    if query.AggregateID = "down" then .error (.foreign "connection refused")
    else token.es.Filter query⟩

end sample

/-! ## OTP write models: the last event of a set -/

namespace command

/-- The last event of `events` that is among the events selected by `among`, if any. -/
def lastAmong (among : user.Event → Bool) (events : List user.Event) : Option user.Event :=
  events.reverse.find? among

/-- Whether an event is an OTP-added event. -/
def isHumanOTPAddedEvent : user.Event → Bool
  | .HumanOTPAddedEvent _ => true
  | _ => false

end command

/-! ## Package `models` (eventstore v1) -/

namespace models

/-- Go `type Event struct` of the v1 event store; `CreationDate` is an instant and
`AggregateVersion` the version string. -/
structure Event where
  ID : String
  Seq : Nat
  CreationDate : Nat
  Typ : eventstore.EventType
  PreviousSequence : Nat
  Data : Bytes
  AggregateID : String
  AggregateType : eventstore.AggregateType
  AggregateVersion : String
  Service : String
  User : String
  ResourceOwner : String
  InstanceID : String
  deriving DecidableEq, Repr

/-- Go `(*Event).DataAsBytes`. -/
def Event.DataAsBytes (e : Event) : Bytes := e.Data

/-- Go `(*Event).Unmarshal`; `unmarshal` is `json.Unmarshal` for the type `T` of the value
`ptr` points to: the value after the call and the error returned. -/
def Event.Unmarshal {T : Type} (unmarshal : Bytes → T → T × Option GoError) (e : Event)
    (ptr : T) : T × Option GoError :=
  unmarshal e.DataAsBytes ptr

/-- Go `(*Event).Validate`; the receiver `none` is the nil pointer, the result `none` the nil
error. -/
def Event.Validate : Option Event → Option GoError
  | none => some (errors.ThrowPreconditionFailed none "MODEL-oEAG4" "event is nil")
  | some e =>
    if e.Typ = "" then
      some (errors.ThrowPreconditionFailed none "MODEL-R2sB0" "type not defined")
    else if e.AggregateID = "" then
      some (errors.ThrowPreconditionFailed none "MODEL-A6WwL" "aggregate id not set")
    else if e.AggregateType = "" then
      some (errors.ThrowPreconditionFailed none "MODEL-EzdyK" "aggregate type not set")
    else if e.Service = "" then
      some (errors.ThrowPreconditionFailed none "MODEL-4Yqik" "editor service not set")
    else if e.User = "" then
      some (errors.ThrowPreconditionFailed none "MODEL-L3NHO" "editor user not set")
    else if e.ResourceOwner = "" then
      some (errors.ThrowPreconditionFailed none "MODEL-omFVT" "resource ow")
    else
      none

end models

namespace v3

/-- Go `(*event).Unmarshal`; `unmarshal` is `json.Unmarshal` for the type `T` of the value
`ptr` points to: the value after the call and the error returned. -/
def event.Unmarshal {T : Type} (unmarshal : Bytes → T → T × Option GoError) (e : event)
    (ptr : T) : T × Option GoError :=
  if e.payload.length = 0 then
    (ptr, none)
  else
    unmarshal e.payload ptr

end v3

/-! ## Package `reflect` -/

namespace reflect

/-- Go `reflect.Kind`, cut down to the kinds of the types below. -/
inductive Kind where
  | Bool
  | Int
  | Uint8
  | Float64
  | String
  | Slice
  | Map
  | Struct
  | Ptr
  | Interface
  deriving DecidableEq, Repr

/-- A Go type as `reflect.TypeOf` reports it: the basic types, slices, maps, structs (by
name), pointers, the empty interface, and a defined type over an underlying type. -/
inductive Typ where
  | bool
  | int
  | uint8
  | float64
  | string
  | slice (elem : Typ)
  | map (key elem : Typ)
  | struct (name : String)
  | ptr (elem : Typ)
  | emptyInterface
  | named (name : String) (underlying : Typ)
  deriving DecidableEq, Repr

/-- Go `Type.Kind()`: a defined type has the kind of its underlying type. -/
def Typ.Kind : Typ → Kind
  | .bool => .Bool
  | .int => .Int
  | .uint8 => .Uint8
  | .float64 => .Float64
  | .string => .String
  | .slice _ => .Slice
  | .map _ _ => .Map
  | .struct _ => .Struct
  | .ptr _ => .Ptr
  | .emptyInterface => .Interface
  | .named _ underlying => underlying.Kind

/-- Go `Type.Elem()`: the element type of a pointer, slice or map type; `none` stands for the
panic on a type of any other kind. -/
def Typ.Elem : Typ → Option Typ
  | .slice elem => some elem
  | .map _ elem => some elem
  | .ptr elem => some elem
  | .named _ underlying => underlying.Elem
  | _ => none

end reflect

namespace models

/-- The argument `i interface` of `eventData`, by the case of the type switch that its dynamic
type selects: the nil interface, a `[]byte`, a `map[string]interface`, or a value of any
other dynamic type `t`. `V` is the type of the values handed to `json.Marshal`. -/
inductive Data (V : Type) where
  | nil
  | bytes (v : Bytes)
  | mapStringAny (v : V)
  | other (t : reflect.Typ) (v : V)

/-- Go `eventData`; `marshal` is `json.Marshal`. The nil byte slice is the empty list. -/
def eventData {V : Type} (marshal : V → Except GoError Bytes) : Data V → Outcome Bytes
  | .bytes v => .ok v
  | .mapStringAny v =>
    match marshal v with
    | .error err =>
      .err (errors.ThrowInvalidArgument (some err) "MODEL-s2fgE" "unable to marshal data")
    | .ok bytes => .ok bytes
  | .nil => .ok []
  | .other t v =>
    let elem : Option reflect.Typ := if t.Kind = .Ptr then t.Elem else some t
    match elem with
    | none => .panic
    | some t1 =>
      if t1.Kind ≠ .Struct then
        .err (errors.ThrowInvalidArgument none "MODEL-rjWdN" "data is not valid")
      else
        match marshal v with
        | .error err =>
          .err (errors.ThrowInvalidArgument (some err) "MODEL-Y2OpM" "unable to marshal data")
        | .ok bytes => .ok bytes

end models

namespace sample

/-- A sample `json.Unmarshal` into a string: the bytes `null` leave the target alone, a
quoted ASCII text replaces it, anything else is a syntax error. -/
def unmarshalString (data : Bytes) (target : String) : String × Option GoError :=
  if data = bytes "null" then (target, none)
  else if data = bytes "\"de\"" then ("de", none)
  else (target, some (.foreign "json: syntax error"))

/-- A valid v1 event. -/
def v1Event : models.Event :=
  { ID := "e1", Seq := 7, CreationDate := 0, Typ := "user.added", PreviousSequence := 6,
    Data := bytes "null", AggregateID := "user1", AggregateType := "user",
    AggregateVersion := "v1", Service := "zitadel", User := "editor", ResourceOwner := "org1",
    InstanceID := "inst1" }

end sample

/-! ## Theorems -/

open handler handler2

set_option linter.unnecessarySeqFocus false

/-! ### The switch of `Token.Reduce`, case by case -/

/-- The foreach loop over the applications collects the client ids of the OIDC
applications, in order. -/
theorem collectApplicationIDs_eq_filterMap (applications : List proj_model.Application) :
    collectApplicationIDs applications
      = applications.filterMap (fun app => app.OIDCConfig.map (fun config => config.ClientID)) := by
  have key : ∀ (l : List proj_model.Application) (acc : List String),
      l.foldl
        (fun applicationIDs app =>
          match app.OIDCConfig with
          | some config => applicationIDs ++ [config.ClientID]
          | none => applicationIDs)
        acc
        = acc ++ l.filterMap (fun app => app.OIDCConfig.map (fun config => config.ClientID)) := by
    intro l
    induction l with
    | nil => intro acc; simp
    | cons app rest ih =>
      intro acc
      cases hc : app.OIDCConfig with
      | none => simp [List.foldl_cons, List.filterMap_cons, hc, ih]
      | some config => simp [List.foldl_cons, List.filterMap_cons, hc, ih]
  simpa [collectApplicationIDs] using key applications []

/-- First case of the switch: token added and personal access token added. -/
theorem Reduce_case_tokenAdded (p : Packages) (t : Token) (event : eventstore.Event)
    (h : event.Typ = p.UserTokenAddedType ∨ event.Typ = p.PersonalAccessTokenAddedType) :
    Token.Reduce p t event =
      match p.TokenViewAppendEvent view_model.TokenView.new event with
      | .error err => ⟨[], .err err⟩
      | .ok token => ⟨[], .ok (NewStatement event (.call (.PutToken token)))⟩ := by
  simp [Token.Reduce, h]

/-- Second case of the switch: profile changed. -/
theorem Reduce_case_profileChanged (p : Packages) (t : Token) (event : eventstore.Event)
    (h : event.Typ = p.UserV1ProfileChangedType ∨ event.Typ = p.HumanProfileChangedType) :
    Token.Reduce p t event =
      match p.UserViewAppendEvent view_model.UserView.new event with
      | .error err => ⟨[], .err err⟩
      | .ok user =>
        match t.view.TokensByUserID event.Aggregate.ID event.Aggregate.InstanceID with
        | .error err =>
          ⟨[.view (.TokensByUserID event.Aggregate.ID event.Aggregate.InstanceID)], .err err⟩
        | .ok tokens =>
          ⟨[.view (.TokensByUserID event.Aggregate.ID event.Aggregate.InstanceID)],
            .ok (NewStatement event (.call (.PutTokens (tokens.map
              (fun token => { token with PreferredLanguage := user.PreferredLanguage })))))⟩ := by
  have hd := p.distinct
  simp only [List.nodup_cons, List.mem_cons, List.mem_singleton, not_or, List.not_mem_nil,
    not_false_eq_true, and_true, List.nodup_nil] at hd
  rcases h with h | h <;> simp [Token.Reduce, h, hd, eq_comm]

/-- Third case of the switch: signed out. -/
theorem Reduce_case_signedOut (p : Packages) (t : Token) (event : eventstore.Event)
    (h : event.Typ = p.UserV1SignedOutType ∨ event.Typ = p.HumanSignedOutType) :
    Token.Reduce p t event =
      match agentIDFromSession p event with
      | .panic => ⟨[], .panic⟩
      | .err err => ⟨[], .err err⟩
      | .ok id => ⟨[], .ok (NewStatement event (.call (.DeleteSessionTokens id event)))⟩ := by
  have hd := p.distinct
  simp only [List.nodup_cons, List.mem_cons, List.mem_singleton, not_or, List.not_mem_nil,
    not_false_eq_true, and_true, List.nodup_nil] at hd
  rcases h with h | h <;> simp [Token.Reduce, h, hd, eq_comm]

/-- Fourth case of the switch: user locked, deactivated, removed. -/
theorem Reduce_case_userGone (p : Packages) (t : Token) (event : eventstore.Event)
    (h : event.Typ = p.UserLockedType ∨ event.Typ = p.UserDeactivatedType
      ∨ event.Typ = p.UserRemovedType) :
    Token.Reduce p t event
      = ⟨[], .ok (NewStatement event (.call (.DeleteUserTokens event)))⟩ := by
  have hd := p.distinct
  simp only [List.nodup_cons, List.mem_cons, List.mem_singleton, not_or, List.not_mem_nil,
    not_false_eq_true, and_true, List.nodup_nil] at hd
  rcases h with h | h | h <;> simp [Token.Reduce, h, hd, eq_comm]

/-- Fifth case of the switch: token removed and personal access token removed. -/
theorem Reduce_case_tokenRemoved (p : Packages) (t : Token) (event : eventstore.Event)
    (h : event.Typ = p.UserTokenRemovedType ∨ event.Typ = p.PersonalAccessTokenRemovedType) :
    Token.Reduce p t event =
      match tokenIDFromRemovedEvent p event with
      | .panic => ⟨[], .panic⟩
      | .err err => ⟨[], .err err⟩
      | .ok id =>
        ⟨[], .ok (NewStatement event (.call (.DeleteToken id event.Aggregate.InstanceID)))⟩ := by
  have hd := p.distinct
  simp only [List.nodup_cons, List.mem_cons, List.mem_singleton, not_or, List.not_mem_nil,
    not_false_eq_true, and_true, List.nodup_nil] at hd
  rcases h with h | h <;> simp [Token.Reduce, h, hd, eq_comm]

/-- Sixth case of the switch: refresh token removed. -/
theorem Reduce_case_refreshTokenRemoved (p : Packages) (t : Token) (event : eventstore.Event)
    (h : event.Typ = p.HumanRefreshTokenRemovedType) :
    Token.Reduce p t event =
      match refreshTokenIDFromRemovedEvent p event with
      | .panic => ⟨[], .panic⟩
      | .err err => ⟨[], .err err⟩
      | .ok id =>
        ⟨[], .ok (NewStatement event
          (.call (.DeleteTokensFromRefreshToken id event.Aggregate.InstanceID)))⟩ := by
  have hd := p.distinct
  simp only [List.nodup_cons, List.mem_cons, List.mem_singleton, not_or, List.not_mem_nil,
    not_false_eq_true, and_true, List.nodup_nil] at hd
  simp [Token.Reduce, h, hd, eq_comm]

/-- Seventh case of the switch: application deactivated, removed. -/
theorem Reduce_case_application (p : Packages) (t : Token) (event : eventstore.Event)
    (h : event.Typ = p.ApplicationDeactivatedType ∨ event.Typ = p.ApplicationRemovedType) :
    Token.Reduce p t event =
      match applicationFromSession p event with
      | .error err => ⟨[], .err err⟩
      | .ok application =>
        ⟨[], .ok (NewStatement event
          (match application with
            | none => .nilDereference
            | some app => .call (.DeleteApplicationTokens event [app.AppID])))⟩ := by
  have hd := p.distinct
  simp only [List.nodup_cons, List.mem_cons, List.mem_singleton, not_or, List.not_mem_nil,
    not_false_eq_true, and_true, List.nodup_nil] at hd
  rcases h with h | h <;> simp [Token.Reduce, h, hd, eq_comm]

/-- Eighth case of the switch: project deactivated, removed. -/
theorem Reduce_case_project (p : Packages) (t : Token) (event : eventstore.Event)
    (h : event.Typ = p.ProjectDeactivatedType ∨ event.Typ = p.ProjectRemovedType) :
    Token.Reduce p t event =
      match Token.getProjectByID p t event.Aggregate.ID event.Aggregate.InstanceID with
      | (calls, .error err) => ⟨calls, .err err⟩
      | (calls, .ok project) =>
        ⟨calls, .ok (NewStatement event
          (.call (.DeleteApplicationTokens event
            (collectApplicationIDs project.Applications))))⟩ := by
  have hd := p.distinct
  simp only [List.nodup_cons, List.mem_cons, List.mem_singleton, not_or, List.not_mem_nil,
    not_false_eq_true, and_true, List.nodup_nil] at hd
  rcases h with h | h <;> simp [Token.Reduce, h, hd, eq_comm]

/-- Ninth case of the switch: instance removed. -/
theorem Reduce_case_instanceRemoved (p : Packages) (t : Token) (event : eventstore.Event)
    (h : event.Typ = p.InstanceRemovedEventType) :
    Token.Reduce p t event
      = ⟨[], .ok (NewStatement event (.call (.DeleteInstanceTokens event)))⟩ := by
  have hd := p.distinct
  simp only [List.nodup_cons, List.mem_cons, List.mem_singleton, not_or, List.not_mem_nil,
    not_false_eq_true, and_true, List.nodup_nil] at hd
  simp [Token.Reduce, h, hd, eq_comm]

/-- Tenth case of the switch: org removed. -/
theorem Reduce_case_orgRemoved (p : Packages) (t : Token) (event : eventstore.Event)
    (h : event.Typ = p.OrgRemovedEventType) :
    Token.Reduce p t event
      = ⟨[], .ok (NewStatement event (.call (.DeleteOrgTokens event)))⟩ := by
  have hd := p.distinct
  simp only [List.nodup_cons, List.mem_cons, List.mem_singleton, not_or, List.not_mem_nil,
    not_false_eq_true, and_true, List.nodup_nil] at hd
  simp [Token.Reduce, h, hd, eq_comm]

/-- Default case of the switch: a type that is none of the case constants. -/
theorem Reduce_case_default (p : Packages) (t : Token) (event : eventstore.Event)
    (h : event.Typ ∉ p.switchTypes) :
    Token.Reduce p t event = ⟨[], .ok (NewNoOpStatement event)⟩ := by
  simp only [Packages.switchTypes, List.mem_cons, List.mem_singleton, not_or, List.not_mem_nil,
    not_false_eq_true, and_true] at h
  obtain ⟨h1, h2, h3, h4, h5, h6, h7, h8, h9, h10, h11, h12, h13, h14, h15, h16, h17, h18⟩ := h
  simp [Token.Reduce, h1, h2, h3, h4, h5, h6, h7, h8, h9, h10, h11, h12, h13, h14, h15, h16,
    h17, h18]

/-! ### Unknown event types -/

/-- C1: for an event whose type is none of the event types named in the switch of
`Token.Reduce`, `Reduce` returns the no-op statement of that event with a nil error (no
failure, no panic), makes no call on the token view or the event store, and does so whatever
the payload bytes are. -/
theorem Reduce_unknown_type_is_noop (p : Packages) (t : Token) (event : eventstore.Event)
    (h : event.Typ ∉ p.switchTypes) :
    Token.Reduce p t event = ⟨[], .ok (NewNoOpStatement event)⟩ ∧
    ∀ data : Bytes,
      Token.Reduce p t { event with DataAsBytes := data }
        = ⟨[], .ok (NewNoOpStatement { event with DataAsBytes := data })⟩ :=
  ⟨Reduce_case_default p t event h,
    fun data => Reduce_case_default p t { event with DataAsBytes := data } h⟩

/-- C1 witness: an event of type `user.added` with an arbitrary payload. -/
theorem Reduce_unknown_type_is_noop_witness :
    (sample.eventOf "user" "user1" "user.added" [1, 2, 3]).Typ ∉ sample.packages.switchTypes ∧
    Token.Reduce sample.packages sample.token (sample.eventOf "user" "user1" "user.added" [1, 2, 3])
      = ⟨[], .ok (NewNoOpStatement (sample.eventOf "user" "user1" "user.added" [1, 2, 3]))⟩ :=
  ⟨by decide,
    (Reduce_unknown_type_is_noop sample.packages sample.token
      (sample.eventOf "user" "user1" "user.added" [1, 2, 3]) (by decide)).1⟩

/-! ### Registration of the reducers -/

/-- C2: `Token.Reduce` has a case for personal-access-token-added that is the case of
user-token-added (the event is appended to a fresh token view, which the statement upserts
with `PutToken`), and `Token.Reducers` registers user-token-added under the user aggregate,
but `Token.Reducers` registers personal-access-token-added under no aggregate at all. -/
theorem Reducers_omits_PersonalAccessTokenAdded (p : Packages) (t : Token) :
    (p.userAggregateType, p.UserTokenAddedType) ∈ Token.registered p t ∧
    (∀ aggregate, (aggregate, p.PersonalAccessTokenAddedType) ∉ Token.registered p t) ∧
    (∀ event : eventstore.Event,
      Token.Reduce p t { event with Typ := p.PersonalAccessTokenAddedType } =
        match p.TokenViewAppendEvent view_model.TokenView.new
            { event with Typ := p.PersonalAccessTokenAddedType } with
        | .error err => ⟨[], .err err⟩
        | .ok token =>
          ⟨[], .ok (NewStatement { event with Typ := p.PersonalAccessTokenAddedType }
            (.call (.PutToken token)))⟩) ∧
    (∀ event : eventstore.Event,
      Token.Reduce p t { event with Typ := p.UserTokenAddedType } =
        match p.TokenViewAppendEvent view_model.TokenView.new
            { event with Typ := p.UserTokenAddedType } with
        | .error err => ⟨[], .err err⟩
        | .ok token =>
          ⟨[], .ok (NewStatement { event with Typ := p.UserTokenAddedType }
            (.call (.PutToken token)))⟩) := by
  have hd := p.distinct
  simp only [List.nodup_cons, List.mem_cons, List.mem_singleton, not_or, List.not_mem_nil,
    not_false_eq_true, and_true, List.nodup_nil] at hd
  refine ⟨?_, ?_, ?_, ?_⟩
  · simp [Token.registered, Token.Reducers]
  · intro aggregate
    simp [Token.registered, Token.Reducers, hd, eq_comm]
  · intro event
    exact Reduce_case_tokenAdded p t _ (Or.inr rfl)
  · intro event
    exact Reduce_case_tokenAdded p t _ (Or.inl rfl)

/-! ### I/O during planning -/

/-- The I/O of `getProjectByID`: nothing when the query cannot be built, else the one
`Filter` call with the query. -/
theorem getProjectByID_calls (p : Packages) (t : Token) (projID instanceID : String) :
    (Token.getProjectByID p t projID instanceID).1 = [] ∨
    ∃ query, p.ProjectByIDQuery projID instanceID 0 = .ok query ∧
      (Token.getProjectByID p t projID instanceID).1 = [.esFilter query] := by
  unfold Token.getProjectByID
  cases hq : p.ProjectByIDQuery projID instanceID 0 with
  | error err => left; rfl
  | ok query =>
    right
    refine ⟨query, rfl, ?_⟩
    simp only
    cases hf : t.es.Filter query with
    | error err => rfl
    | ok events =>
      simp only
      cases ha : AppendEvents p _ events with
      | error err => rfl
      | ok es =>
        simp only
        split_ifs <;> rfl

/-- C3 (as amended): while planning, `Token.Reduce` makes no call at all, except that the
profile-changed reducer calls `TokensByUserID` of the token view once, with the aggregate id
and instance id of the event, and the project-deactivated / project-removed reducer calls
`Filter` of the event store once; no write of the token view is made during the call to
`Reduce`, and the closure of a returned statement makes write calls only. -/
theorem Reduce_planning_calls (p : Packages) (t : Token) (event : eventstore.Event) :
    ((Token.Reduce p t event).calls = [] ∨
      ((event.Typ = p.UserV1ProfileChangedType ∨ event.Typ = p.HumanProfileChangedType) ∧
        (Token.Reduce p t event).calls
          = [.view (.TokensByUserID event.Aggregate.ID event.Aggregate.InstanceID)]) ∨
      ((event.Typ = p.ProjectDeactivatedType ∨ event.Typ = p.ProjectRemovedType) ∧
        ∃ query, p.ProjectByIDQuery event.Aggregate.ID event.Aggregate.InstanceID 0 = .ok query ∧
          (Token.Reduce p t event).calls = [.esFilter query])) ∧
    (∀ c, IOCall.view c ∈ (Token.Reduce p t event).calls → c.isWrite = false) ∧
    (∀ statement c, (Token.Reduce p t event).out = .ok statement →
      statement.Execute = some (.call c) → c.isWrite = true) := by
  by_cases h1 : event.Typ = p.UserTokenAddedType ∨ event.Typ = p.PersonalAccessTokenAddedType
  · rw [Reduce_case_tokenAdded p t event h1]
    split <;> simp [NewStatement, auth_view.Call.isWrite] <;>
      (intro statement c hs he; subst hs; simp at he; try (subst he; rfl))
  by_cases h2 : event.Typ = p.UserV1ProfileChangedType ∨ event.Typ = p.HumanProfileChangedType
  · rw [Reduce_case_profileChanged p t event h2]
    split
    · simp
    · split <;> simp [NewStatement, auth_view.Call.isWrite, h2] <;>
      (intro statement c hs he; subst hs; simp at he; try (subst he; rfl))
  by_cases h3 : event.Typ = p.UserV1SignedOutType ∨ event.Typ = p.HumanSignedOutType
  · rw [Reduce_case_signedOut p t event h3]
    split <;> simp [NewStatement, auth_view.Call.isWrite] <;>
      (intro statement c hs he; subst hs; simp at he; try (subst he; rfl))
  by_cases h4 : event.Typ = p.UserLockedType ∨ event.Typ = p.UserDeactivatedType
      ∨ event.Typ = p.UserRemovedType
  · rw [Reduce_case_userGone p t event h4]
    simp [NewStatement, auth_view.Call.isWrite] <;>
      (intro statement c hs he; subst hs; simp at he; try (subst he; rfl))
  by_cases h5 : event.Typ = p.UserTokenRemovedType
      ∨ event.Typ = p.PersonalAccessTokenRemovedType
  · rw [Reduce_case_tokenRemoved p t event h5]
    split <;> simp [NewStatement, auth_view.Call.isWrite] <;>
      (intro statement c hs he; subst hs; simp at he; try (subst he; rfl))
  by_cases h6 : event.Typ = p.HumanRefreshTokenRemovedType
  · rw [Reduce_case_refreshTokenRemoved p t event h6]
    split <;> simp [NewStatement, auth_view.Call.isWrite] <;>
      (intro statement c hs he; subst hs; simp at he; try (subst he; rfl))
  by_cases h7 : event.Typ = p.ApplicationDeactivatedType
      ∨ event.Typ = p.ApplicationRemovedType
  · rw [Reduce_case_application p t event h7]
    split
    · simp
    · split <;> simp [NewStatement, auth_view.Call.isWrite] <;>
      (intro statement c hs he; subst hs; simp at he; try (subst he; rfl))
  by_cases h8 : event.Typ = p.ProjectDeactivatedType ∨ event.Typ = p.ProjectRemovedType
  · rw [Reduce_case_project p t event h8]
    have hc := getProjectByID_calls p t event.Aggregate.ID event.Aggregate.InstanceID
    split
    · rename_i calls err heq
      rw [heq] at hc
      rcases hc with hc | ⟨query, hq, hc⟩
      · simp only at hc
        simp [hc]
      · simp only at hc
        simp [hc, hq, h8]
    · rename_i calls project heq
      rw [heq] at hc
      rcases hc with hc | ⟨query, hq, hc⟩
      · simp only at hc
        simp [hc, NewStatement, auth_view.Call.isWrite] <;>
          (intro statement c hs he; subst hs; simp at he; try (subst he; rfl))
      · simp only at hc
        simp [hc, hq, h8, NewStatement, auth_view.Call.isWrite] <;>
          (intro statement c hs he; subst hs; simp at he; try (subst he; rfl))
  by_cases h9 : event.Typ = p.InstanceRemovedEventType
  · rw [Reduce_case_instanceRemoved p t event h9]
    simp [NewStatement, auth_view.Call.isWrite] <;>
      (intro statement c hs he; subst hs; simp at he; try (subst he; rfl))
  by_cases h10 : event.Typ = p.OrgRemovedEventType
  · rw [Reduce_case_orgRemoved p t event h10]
    simp [NewStatement, auth_view.Call.isWrite] <;>
      (intro statement c hs he; subst hs; simp at he; try (subst he; rfl))
  have hdef : event.Typ ∉ p.switchTypes := by
    simp only [Packages.switchTypes, List.mem_cons, List.mem_singleton, List.not_mem_nil,
      or_false]
    tauto
  rw [Reduce_case_default p t event hdef]
  simp [NewNoOpStatement]
  intro statement c hs he
  subst hs
  simp at he

/-- C3 counterexample: for a profile-changed event the call to `Reduce` itself reads the
token view (`TokensByUserID`), outside the closure of the returned statement. -/
theorem Reduce_reads_view_while_planning :
    (Token.Reduce sample.packages sample.token
        (sample.eventOf "user" "user1" "user.profile.changed"
          (sample.bytes "\x7b\"preferredLanguage\":\"de\"\x7d"))).calls
      = [IOCall.view (.TokensByUserID "user1" "inst1")] ∧
    ¬ (∀ c, IOCall.view c ∉ (Token.Reduce sample.packages sample.token
        (sample.eventOf "user" "user1" "user.profile.changed"
          (sample.bytes "\x7b\"preferredLanguage\":\"de\"\x7d"))).calls) := by
  have h : (Token.Reduce sample.packages sample.token
        (sample.eventOf "user" "user1" "user.profile.changed"
          (sample.bytes "\x7b\"preferredLanguage\":\"de\"\x7d"))).calls
      = [IOCall.view (.TokensByUserID "user1" "inst1")] := by
    decide
  refine ⟨h, ?_⟩
  rw [h]
  simp

/-! ### Project deactivated or removed -/

/-- C4: for a project-deactivated or project-removed event whose project is found (the query
is built, `Filter` returns events, they append without error and the rebuilt project has a
non-zero sequence), `Reduce` returns a statement that deletes application tokens for the
client ids of the applications of the rebuilt project that have an OIDC config, in
application order; the list is no longer than the application list and is empty when no
application has an OIDC config. -/
theorem Reduce_project_deletes_oidc_client_ids (p : Packages) (t : Token)
    (event : eventstore.Event) (query : es_models.SearchQuery)
    (events : List eventstore.Event) (esProject : project_es_model.Project)
    (h : event.Typ = p.ProjectDeactivatedType ∨ event.Typ = p.ProjectRemovedType)
    (hquery : p.ProjectByIDQuery event.Aggregate.ID event.Aggregate.InstanceID 0 = .ok query)
    (hfilter : t.es.Filter query = .ok events)
    (happend : AppendEvents p
      { AggregateID := event.Aggregate.ID, Sequence := 0, ResourceOwner := "", InstanceID := "",
        Name := "", Applications := [] } events = .ok esProject)
    (hfound : esProject.Sequence ≠ 0) :
    Token.Reduce p t event =
      ⟨[.esFilter query],
        .ok (NewStatement event (.call (.DeleteApplicationTokens event
          ((p.ProjectToModel esProject).Applications.filterMap
            (fun app => app.OIDCConfig.map (fun config => config.ClientID))))))⟩ ∧
    ((p.ProjectToModel esProject).Applications.filterMap
        (fun app => app.OIDCConfig.map (fun config => config.ClientID))).length
      ≤ (p.ProjectToModel esProject).Applications.length ∧
    ((∀ app ∈ (p.ProjectToModel esProject).Applications, app.OIDCConfig = none) →
      (p.ProjectToModel esProject).Applications.filterMap
        (fun app => app.OIDCConfig.map (fun config => config.ClientID)) = []) := by
  refine ⟨?_, List.length_filterMap_le _ _, ?_⟩
  · rw [Reduce_case_project p t event h]
    simp [Token.getProjectByID, hquery, hfilter, happend, hfound,
      collectApplicationIDs_eq_filterMap]
  · intro hnone
    rw [List.filterMap_eq_nil_iff]
    intro app happ
    simp [hnone app happ]

/-- C4 witness: the sample project has an OIDC application, a plain application and a second
OIDC application; the statement deletes the tokens of the two client ids, in order. -/
theorem Reduce_project_deletes_oidc_client_ids_witness :
    Token.Reduce sample.packages sample.token
        (sample.eventOf "project" "proj1" "project.removed" [])
      = ⟨[.esFilter ⟨["project"], "proj1", "inst1", 0⟩],
          .ok (NewStatement (sample.eventOf "project" "proj1" "project.removed" [])
            (.call (.DeleteApplicationTokens
              (sample.eventOf "project" "proj1" "project.removed" [])
              ["app1@client", "app3@client"])))⟩ :=
  (Reduce_project_deletes_oidc_client_ids sample.packages sample.token
    (sample.eventOf "project" "proj1" "project.removed" [])
    ⟨["project"], "proj1", "inst1", 0⟩ sample.projectEvents
    { AggregateID := "proj1", Sequence := 4, ResourceOwner := "", InstanceID := "",
      Name := "",
      Applications := [⟨"app0", "", none⟩, ⟨"app1", "", some ⟨"app1", "app1@client"⟩⟩,
        ⟨"app2", "", none⟩, ⟨"app3", "", some ⟨"app3", "app3@client"⟩⟩] }
    (Or.inr rfl) rfl rfl rfl (by decide)).1

/-! ### Profile changed -/

/-- C5: for a profile-changed event (v1 or human) whose append to a fresh user view gives
`user` and for which `TokensByUserID(aggregate id, instance id)` returns `rows`, the statement
of `Reduce` writes back (`PutTokens`) exactly those rows, in order, each with
`PreferredLanguage` set to `user.PreferredLanguage` and every other field unchanged; the
rows written are rows of the user and instance of the event whenever the returned rows
are. -/
theorem Reduce_profileChanged_rewrites_language (p : Packages) (t : Token)
    (event : eventstore.Event) (user : view_model.UserView) (rows : List view_model.TokenView)
    (h : event.Typ = p.UserV1ProfileChangedType ∨ event.Typ = p.HumanProfileChangedType)
    (huser : p.UserViewAppendEvent view_model.UserView.new event = .ok user)
    (hrows : t.view.TokensByUserID event.Aggregate.ID event.Aggregate.InstanceID = .ok rows) :
    Token.Reduce p t event =
      ⟨[.view (.TokensByUserID event.Aggregate.ID event.Aggregate.InstanceID)],
        .ok (NewStatement event (.call (.PutTokens
          (rows.map (fun row => { row with PreferredLanguage := user.PreferredLanguage })))))⟩ ∧
    (rows.map (fun row => { row with PreferredLanguage := user.PreferredLanguage })).length
      = rows.length ∧
    (∀ written ∈ rows.map (fun row => { row with PreferredLanguage := user.PreferredLanguage }),
      written.PreferredLanguage = user.PreferredLanguage) ∧
    (rows.map (fun row => { row with PreferredLanguage := user.PreferredLanguage })).map
        (fun written => { written with PreferredLanguage := "" })
      = rows.map (fun row => { row with PreferredLanguage := "" }) ∧
    ((∀ row ∈ rows, row.UserID = event.Aggregate.ID ∧
        row.InstanceID = event.Aggregate.InstanceID) →
      ∀ written ∈ rows.map (fun row => { row with PreferredLanguage := user.PreferredLanguage }),
        written.UserID = event.Aggregate.ID ∧
          written.InstanceID = event.Aggregate.InstanceID) := by
  refine ⟨?_, by simp, ?_, by simp, ?_⟩
  · rw [Reduce_case_profileChanged p t event h]
    simp [huser, hrows]
  · intro written hw
    simp only [List.mem_map] at hw
    obtain ⟨row, _, rfl⟩ := hw
    rfl
  · intro hall written hw
    simp only [List.mem_map] at hw
    obtain ⟨row, hrow, rfl⟩ := hw
    exact hall row hrow

/-- C5 witness: the two sample rows of `user1` are written back with language `de`. -/
theorem Reduce_profileChanged_rewrites_language_witness :
    Token.Reduce sample.packages sample.token
        (sample.eventOf "user" "user1" "user.human.profile.changed"
          (sample.bytes "\x7b\"preferredLanguage\":\"de\"\x7d"))
      = ⟨[.view (.TokensByUserID "user1" "inst1")],
          .ok (NewStatement (sample.eventOf "user" "user1" "user.human.profile.changed"
          (sample.bytes "\x7b\"preferredLanguage\":\"de\"\x7d"))
            (.call (.PutTokens
              [ ⟨"t1", "user1", "inst1", "app1", ["aud"], ["openid"], "de", 100, ""⟩,
                ⟨"t2", "user1", "inst1", "app2", [], ["openid", "email"], "de", 200, "r1"⟩ ])))⟩ :=
  (Reduce_profileChanged_rewrites_language sample.packages sample.token
    (sample.eventOf "user" "user1" "user.human.profile.changed"
          (sample.bytes "\x7b\"preferredLanguage\":\"de\"\x7d"))
    ⟨"user1", "inst1", "de"⟩ sample.rows (Or.inr rfl) rfl rfl).1

/-! ### User, instance and org removal -/

/-- C6: whatever the payload bytes, `Reduce` returns a nil error, makes no call while
planning, and returns the statement that calls `DeleteUserTokens(event)` for a user-locked,
user-deactivated or user-removed event, `DeleteInstanceTokens(event)` for an instance-removed
event, and `DeleteOrgTokens(event)` for an org-removed event. -/
theorem Reduce_removal_events (p : Packages) (t : Token) (event : eventstore.Event)
    (data : Bytes) :
    ((event.Typ = p.UserLockedType ∨ event.Typ = p.UserDeactivatedType
        ∨ event.Typ = p.UserRemovedType) →
      Token.Reduce p t { event with DataAsBytes := data }
        = ⟨[], .ok (NewStatement { event with DataAsBytes := data }
            (.call (.DeleteUserTokens { event with DataAsBytes := data })))⟩) ∧
    (event.Typ = p.InstanceRemovedEventType →
      Token.Reduce p t { event with DataAsBytes := data }
        = ⟨[], .ok (NewStatement { event with DataAsBytes := data }
            (.call (.DeleteInstanceTokens { event with DataAsBytes := data })))⟩) ∧
    (event.Typ = p.OrgRemovedEventType →
      Token.Reduce p t { event with DataAsBytes := data }
        = ⟨[], .ok (NewStatement { event with DataAsBytes := data }
            (.call (.DeleteOrgTokens { event with DataAsBytes := data })))⟩) :=
  ⟨fun h => Reduce_case_userGone p t { event with DataAsBytes := data } h,
    fun h => Reduce_case_instanceRemoved p t { event with DataAsBytes := data } h,
    fun h => Reduce_case_orgRemoved p t { event with DataAsBytes := data } h⟩

/-- C6 witness: a user-locked, an instance-removed and an org-removed event whose payload is
not even JSON. -/
theorem Reduce_removal_events_witness :
    Token.Reduce sample.packages sample.token (sample.eventOf "user" "user1" "user.locked" [9])
      = ⟨[], .ok (NewStatement (sample.eventOf "user" "user1" "user.locked" [9])
          (.call (.DeleteUserTokens (sample.eventOf "user" "user1" "user.locked" [9]))))⟩ ∧
    Token.Reduce sample.packages sample.token
        (sample.eventOf "instance" "inst1" "instance.removed" [9])
      = ⟨[], .ok (NewStatement (sample.eventOf "instance" "inst1" "instance.removed" [9])
          (.call (.DeleteInstanceTokens
            (sample.eventOf "instance" "inst1" "instance.removed" [9]))))⟩ ∧
    Token.Reduce sample.packages sample.token (sample.eventOf "org" "org1" "org.removed" [9])
      = ⟨[], .ok (NewStatement (sample.eventOf "org" "org1" "org.removed" [9])
          (.call (.DeleteOrgTokens (sample.eventOf "org" "org1" "org.removed" [9]))))⟩ :=
  ⟨(Reduce_removal_events sample.packages sample.token
      (sample.eventOf "user" "user1" "user.locked" []) [9]).1 (Or.inl rfl),
    (Reduce_removal_events sample.packages sample.token
      (sample.eventOf "instance" "inst1" "instance.removed" []) [9]).2.1 rfl,
    (Reduce_removal_events sample.packages sample.token
      (sample.eventOf "org" "org1" "org.removed" []) [9]).2.2 rfl⟩

/-! ### Token removed, refresh token removed -/

/-- C7: when the payload of the event is a JSON object whose member `tokenId` is the string
`id`, `Reduce` returns, for a user-token-removed or personal-access-token-removed event, the
statement that calls `DeleteToken(id, InstanceID)` and, for a human-refresh-token-removed
event, the statement that calls `DeleteTokensFromRefreshToken(id, InstanceID)`, with the
instance id of the aggregate of the event; it makes no other call. -/
theorem Reduce_tokenRemoved_deletes_by_tokenId (p : Packages) (t : Token)
    (event : eventstore.Event) (members : List (String × json.Value)) (id : String)
    (hparse : p.jsonParse event.DataAsBytes = some (.object members))
    (hid : json.mapIndex members "tokenId" = some (.string id)) :
    ((event.Typ = p.UserTokenRemovedType ∨ event.Typ = p.PersonalAccessTokenRemovedType) →
      Token.Reduce p t event
        = ⟨[], .ok (NewStatement event
            (.call (.DeleteToken id event.Aggregate.InstanceID)))⟩) ∧
    (event.Typ = p.HumanRefreshTokenRemovedType →
      Token.Reduce p t event
        = ⟨[], .ok (NewStatement event
            (.call (.DeleteTokensFromRefreshToken id event.Aggregate.InstanceID)))⟩) := by
  constructor
  · intro h
    rw [Reduce_case_tokenRemoved p t event h]
    simp [tokenIDFromRemovedEvent, json.unmarshalMap, hparse, hid, json.assertString]
  · intro h
    rw [Reduce_case_refreshTokenRemoved p t event h]
    simp [refreshTokenIDFromRemovedEvent, json.unmarshalMap, hparse, hid, json.assertString]

/-- C7 witness: the payload with `tokenId` equal to `t1`, as a removed token, a removed
personal access token and a removed refresh token. -/
theorem Reduce_tokenRemoved_deletes_by_tokenId_witness :
    Token.Reduce sample.packages sample.token
        (sample.eventOf "user" "user1" "user.pat.removed"
          (sample.bytes "\x7b\"tokenId\":\"t1\"\x7d"))
      = ⟨[], .ok (NewStatement
          (sample.eventOf "user" "user1" "user.pat.removed"
            (sample.bytes "\x7b\"tokenId\":\"t1\"\x7d"))
          (.call (.DeleteToken "t1" "inst1")))⟩ ∧
    Token.Reduce sample.packages sample.token
        (sample.eventOf "user" "user1" "user.human.refresh.token.removed"
          (sample.bytes "\x7b\"tokenId\":\"t1\"\x7d"))
      = ⟨[], .ok (NewStatement
          (sample.eventOf "user" "user1" "user.human.refresh.token.removed"
            (sample.bytes "\x7b\"tokenId\":\"t1\"\x7d"))
          (.call (.DeleteTokensFromRefreshToken "t1" "inst1")))⟩ :=
  ⟨(Reduce_tokenRemoved_deletes_by_tokenId sample.packages sample.token
      (sample.eventOf "user" "user1" "user.pat.removed"
        (sample.bytes "\x7b\"tokenId\":\"t1\"\x7d"))
      [("tokenId", .string "t1")] "t1" rfl rfl).1 (Or.inr rfl),
    (Reduce_tokenRemoved_deletes_by_tokenId sample.packages sample.token
      (sample.eventOf "user" "user1" "user.human.refresh.token.removed"
        (sample.bytes "\x7b\"tokenId\":\"t1\"\x7d"))
      [("tokenId", .string "t1")] "t1" rfl rfl).2 rfl⟩

/-! ### Signed out -/

/-- C8: for a signed-out event (v1 or human) whose payload is a JSON object whose member
`userAgentID` is the string `id`, `Reduce` returns the statement that calls
`DeleteSessionTokens(id, event)`, and makes no other call. -/
theorem Reduce_signedOut_deletes_session_tokens (p : Packages) (t : Token)
    (event : eventstore.Event) (members : List (String × json.Value)) (id : String)
    (h : event.Typ = p.UserV1SignedOutType ∨ event.Typ = p.HumanSignedOutType)
    (hparse : p.jsonParse event.DataAsBytes = some (.object members))
    (hid : json.mapIndex members "userAgentID" = some (.string id)) :
    Token.Reduce p t event
      = ⟨[], .ok (NewStatement event (.call (.DeleteSessionTokens id event)))⟩ := by
  rw [Reduce_case_signedOut p t event h]
  simp [agentIDFromSession, json.unmarshalMap, hparse, hid, json.assertString]

/-- C8 witness: a human-signed-out event of user agent `agent1`. -/
theorem Reduce_signedOut_deletes_session_tokens_witness :
    Token.Reduce sample.packages sample.token
        (sample.eventOf "user" "user1" "user.human.signed.out"
          (sample.bytes "\x7b\"userAgentID\":\"agent1\"\x7d"))
      = ⟨[], .ok (NewStatement
          (sample.eventOf "user" "user1" "user.human.signed.out"
            (sample.bytes "\x7b\"userAgentID\":\"agent1\"\x7d"))
          (.call (.DeleteSessionTokens "agent1"
            (sample.eventOf "user" "user1" "user.human.signed.out"
              (sample.bytes "\x7b\"userAgentID\":\"agent1\"\x7d")))))⟩ :=
  Reduce_signedOut_deletes_session_tokens sample.packages sample.token
    (sample.eventOf "user" "user1" "user.human.signed.out"
      (sample.bytes "\x7b\"userAgentID\":\"agent1\"\x7d"))
    [("userAgentID", .string "agent1")] "agent1" (Or.inr rfl) rfl rfl

/-! ### Application deactivated or removed -/

/-- C9: for an application-deactivated or application-removed event, when the payload is
valid JSON other than `null` that decodes to the application `app`, `Reduce` returns the
statement that calls `DeleteApplicationTokens(event, app.AppID)` with that one id; when the
payload is not valid JSON, `Reduce` returns the Internal error `MODEL-Hrw1q` and no
statement. -/
theorem Reduce_application_deletes_app_tokens (p : Packages) (t : Token)
    (event : eventstore.Event)
    (h : event.Typ = p.ApplicationDeactivatedType ∨ event.Typ = p.ApplicationRemovedType) :
    (∀ (value : json.Value) (app : project_es_model.Application),
      p.jsonParse event.DataAsBytes = some value → value ≠ .null →
      p.decodeApplication value = .ok app →
      Token.Reduce p t event
        = ⟨[], .ok (NewStatement event
            (.call (.DeleteApplicationTokens event [app.AppID])))⟩) ∧
    (p.jsonParse event.DataAsBytes = none →
      Token.Reduce p t event
        = ⟨[], .err (.caos .Internal none "MODEL-Hrw1q" "could not unmarshal data")⟩) := by
  rw [Reduce_case_application p t event h]
  constructor
  · intro value app hparse hnull hdecode
    cases value <;> simp_all [applicationFromSession]
  · intro hparse
    simp [applicationFromSession, hparse, errors.ThrowInternal]

/-- C9 witness: an application-removed event for `app1`, and one whose payload is not
JSON. -/
theorem Reduce_application_deletes_app_tokens_witness :
    Token.Reduce sample.packages sample.token
        (sample.eventOf "project" "proj1" "project.application.removed"
          (sample.bytes "\x7b\"appId\":\"app1\"\x7d"))
      = ⟨[], .ok (NewStatement
          (sample.eventOf "project" "proj1" "project.application.removed"
            (sample.bytes "\x7b\"appId\":\"app1\"\x7d"))
          (.call (.DeleteApplicationTokens
            (sample.eventOf "project" "proj1" "project.application.removed"
              (sample.bytes "\x7b\"appId\":\"app1\"\x7d"))
            ["app1"])))⟩ ∧
    Token.Reduce sample.packages sample.token
        (sample.eventOf "project" "proj1" "project.application.removed" [9])
      = ⟨[], .err (.caos .Internal none "MODEL-Hrw1q" "could not unmarshal data")⟩ :=
  ⟨(Reduce_application_deletes_app_tokens sample.packages sample.token
      (sample.eventOf "project" "proj1" "project.application.removed"
        (sample.bytes "\x7b\"appId\":\"app1\"\x7d")) (Or.inr rfl)).1
      (.object [("appId", .string "app1")]) ⟨"app1", "", none⟩ rfl
      (fun hnull => json.Value.noConfusion hnull) rfl,
    (Reduce_application_deletes_app_tokens sample.packages sample.token
      (sample.eventOf "project" "proj1" "project.application.removed" [9]) (Or.inr rfl)).2
      rfl⟩

/-! ### Events from commands -/

/-- C10: `commandToEvent` returns an event whose creator, revision and type are those of the
command, whose aggregate and sequence are those of the latest-sequence entry, and whose
payload is empty for a nil command payload and the JSON encoding of the command payload
otherwise (creation time and global sequence are left zero); when the encoding fails it
returns that error and no event. -/
theorem commandToEvent_spec {P : Type} (marshal : P → Except GoError Bytes)
    (sequence : v3.latestSequence) (command : v3.Command P) :
    (command.Payload = none →
      v3.commandToEvent marshal sequence command
        = .ok ⟨sequence.aggregate, command.Creator, command.Revision, command.Typ, 0,
            sequence.sequence, 0, []⟩) ∧
    (∀ value encoded, command.Payload = some value → marshal value = .ok encoded →
      v3.commandToEvent marshal sequence command
        = .ok ⟨sequence.aggregate, command.Creator, command.Revision, command.Typ, 0,
            sequence.sequence, 0, encoded⟩) ∧
    (∀ value err, command.Payload = some value → marshal value = .error err →
      v3.commandToEvent marshal sequence command = .error err) := by
  refine ⟨?_, ?_, ?_⟩
  · intro hnil
    simp [v3.commandToEvent, hnil]
  · intro value encoded hsome hok
    simp [v3.commandToEvent, hsome, hok]
  · intro value err hsome herr
    simp [v3.commandToEvent, hsome, herr]

/-- C10 witness: the sample command becomes an event of the aggregate of the sequence entry,
at sequence 5, with the encoded payload. -/
theorem commandToEvent_spec_witness :
    v3.commandToEvent sample.marshal sample.latest sample.command
      = .ok ⟨⟨"user1", "user", "org1", "inst1"⟩, "editor", 2, "user.added", 0, 5, 0,
          sample.bytes "null"⟩ :=
  (commandToEvent_spec sample.marshal sample.latest sample.command).2.1
    "null" (sample.bytes "null") rfl rfl

/-! ### OTP write models -/

/-- The loop of the TOTP write model leaves the embedded write model alone. -/
theorem totp_fold_WriteModel (events : List user.Event) :
    ∀ wm : command.HumanTOTPWriteModel,
      (events.foldl command.HumanTOTPWriteModel.reduceEvent wm).WriteModel = wm.WriteModel := by
  induction events with
  | nil => intro wm; rfl
  | cons event rest ih =>
    intro wm
    rw [List.foldl_cons, ih]
    cases event <;> rfl

/-- The domain fields after the loop of the TOTP write model depend on the domain fields
before it and on the events only. -/
theorem totp_fold_congr (events : List user.Event) :
    ∀ wm wm1 : command.HumanTOTPWriteModel, wm.State = wm1.State → wm.Secret = wm1.Secret →
      (events.foldl command.HumanTOTPWriteModel.reduceEvent wm).State
        = (events.foldl command.HumanTOTPWriteModel.reduceEvent wm1).State ∧
      (events.foldl command.HumanTOTPWriteModel.reduceEvent wm).Secret
        = (events.foldl command.HumanTOTPWriteModel.reduceEvent wm1).Secret := by
  induction events with
  | nil => intro wm wm1 hs hc; exact ⟨hs, hc⟩
  | cons event rest ih =>
    intro wm wm1 hs hc
    simp only [List.foldl_cons]
    apply ih <;> cases event <;> simp [command.HumanTOTPWriteModel.reduceEvent, hs, hc]

/-- Events that the switch of the TOTP write model does not name change no domain field. -/
theorem totp_fold_unnamed (events : List user.Event) :
    ∀ wm : command.HumanTOTPWriteModel,
      (∀ event ∈ events, command.HumanTOTPWriteModel.named event = false) →
      events.foldl command.HumanTOTPWriteModel.reduceEvent wm = wm := by
  induction events with
  | nil => intro wm _; rfl
  | cons event rest ih =>
    intro wm h
    have hev := h event (List.mem_cons_self _ _)
    have hrest : ∀ e ∈ rest, command.HumanTOTPWriteModel.named e = false :=
      fun e he => h e (List.mem_cons_of_mem _ he)
    rw [List.foldl_cons]
    have hstep : command.HumanTOTPWriteModel.reduceEvent wm event = wm := by
      cases event <;> simp_all [command.HumanTOTPWriteModel.reduceEvent,
        command.HumanTOTPWriteModel.named]
    rw [hstep]
    exact ih wm hrest

/-- The loop of the OTP-SMS write model leaves the embedded write model alone. -/
theorem sms_fold_WriteModel (events : List user.Event) :
    ∀ wm : command.HumanOTPSMSWriteModel,
      (events.foldl command.HumanOTPSMSWriteModel.reduceEvent wm).WriteModel
        = wm.WriteModel := by
  induction events with
  | nil => intro wm; rfl
  | cons event rest ih =>
    intro wm
    rw [List.foldl_cons, ih]
    cases event <;> rfl

/-- The flags after the loop of the OTP-SMS write model depend on the flags before it and on
the events only. -/
theorem sms_fold_congr (events : List user.Event) :
    ∀ wm wm1 : command.HumanOTPSMSWriteModel,
      wm.phoneVerified = wm1.phoneVerified → wm.otpAdded = wm1.otpAdded →
      (events.foldl command.HumanOTPSMSWriteModel.reduceEvent wm).phoneVerified
        = (events.foldl command.HumanOTPSMSWriteModel.reduceEvent wm1).phoneVerified ∧
      (events.foldl command.HumanOTPSMSWriteModel.reduceEvent wm).otpAdded
        = (events.foldl command.HumanOTPSMSWriteModel.reduceEvent wm1).otpAdded := by
  induction events with
  | nil => intro wm wm1 hs hc; exact ⟨hs, hc⟩
  | cons event rest ih =>
    intro wm wm1 hs hc
    simp only [List.foldl_cons]
    apply ih <;> cases event <;> simp [command.HumanOTPSMSWriteModel.reduceEvent, hs, hc]

/-- Events that the switch of the OTP-SMS write model does not name change no flag. -/
theorem sms_fold_unnamed (events : List user.Event) :
    ∀ wm : command.HumanOTPSMSWriteModel,
      (∀ event ∈ events, command.HumanOTPSMSWriteModel.named event = false) →
      events.foldl command.HumanOTPSMSWriteModel.reduceEvent wm = wm := by
  induction events with
  | nil => intro wm _; rfl
  | cons event rest ih =>
    intro wm h
    have hev := h event (List.mem_cons_self _ _)
    have hrest : ∀ e ∈ rest, command.HumanOTPSMSWriteModel.named e = false :=
      fun e he => h e (List.mem_cons_of_mem _ he)
    rw [List.foldl_cons]
    have hstep : command.HumanOTPSMSWriteModel.reduceEvent wm event = wm := by
      cases event <;> simp_all [command.HumanOTPSMSWriteModel.reduceEvent,
        command.HumanOTPSMSWriteModel.named]
    rw [hstep]
    exact ih wm hrest

/-- The loop of the OTP-email write model leaves the embedded write model alone. -/
theorem email_fold_WriteModel (events : List user.Event) :
    ∀ wm : command.HumanOTPEmailWriteModel,
      (events.foldl command.HumanOTPEmailWriteModel.reduceEvent wm).WriteModel
        = wm.WriteModel := by
  induction events with
  | nil => intro wm; rfl
  | cons event rest ih =>
    intro wm
    rw [List.foldl_cons, ih]
    cases event <;> rfl

/-- The flags after the loop of the OTP-email write model depend on the flags before it and
on the events only. -/
theorem email_fold_congr (events : List user.Event) :
    ∀ wm wm1 : command.HumanOTPEmailWriteModel,
      wm.emailVerified = wm1.emailVerified → wm.otpAdded = wm1.otpAdded →
      (events.foldl command.HumanOTPEmailWriteModel.reduceEvent wm).emailVerified
        = (events.foldl command.HumanOTPEmailWriteModel.reduceEvent wm1).emailVerified ∧
      (events.foldl command.HumanOTPEmailWriteModel.reduceEvent wm).otpAdded
        = (events.foldl command.HumanOTPEmailWriteModel.reduceEvent wm1).otpAdded := by
  induction events with
  | nil => intro wm wm1 hs hc; exact ⟨hs, hc⟩
  | cons event rest ih =>
    intro wm wm1 hs hc
    simp only [List.foldl_cons]
    apply ih <;> cases event <;> simp [command.HumanOTPEmailWriteModel.reduceEvent, hs, hc]

/-- Events that the switch of the OTP-email write model does not name change no flag. -/
theorem email_fold_unnamed (events : List user.Event) :
    ∀ wm : command.HumanOTPEmailWriteModel,
      (∀ event ∈ events, command.HumanOTPEmailWriteModel.named event = false) →
      events.foldl command.HumanOTPEmailWriteModel.reduceEvent wm = wm := by
  induction events with
  | nil => intro wm _; rfl
  | cons event rest ih =>
    intro wm h
    have hev := h event (List.mem_cons_self _ _)
    have hrest : ∀ e ∈ rest, command.HumanOTPEmailWriteModel.named e = false :=
      fun e he => h e (List.mem_cons_of_mem _ he)
    rw [List.foldl_cons]
    have hstep : command.HumanOTPEmailWriteModel.reduceEvent wm event = wm := by
      cases event <;> simp_all [command.HumanOTPEmailWriteModel.reduceEvent,
        command.HumanOTPEmailWriteModel.named]
    rw [hstep]
    exact ih wm hrest
/-- C12: `Reduce` of the three OTP write models is a left fold of the type switch over
`wm.Events`: the domain fields after the call (State and Secret; phoneVerified and otpAdded;
emailVerified and otpAdded) are determined by the domain fields before the call and the list
of events, whatever the embedded write model and its `Reduce` are; events of types that the
switch does not name leave them unchanged; and reducing `es1` and then `es2` gives the same
fields as reducing `es1 ++ es2` in one call. -/
theorem OTP_Reduce_is_left_fold
    (base base1 : eventstore.WriteModel → eventstore.WriteModel × Option GoError) :
    ((∀ wm wm1 : command.HumanTOTPWriteModel,
        wm.State = wm1.State → wm.Secret = wm1.Secret →
        wm.WriteModel.Events = wm1.WriteModel.Events →
        (wm.Reduce base).1.State = (wm1.Reduce base1).1.State ∧
        (wm.Reduce base).1.Secret = (wm1.Reduce base1).1.Secret) ∧
      (∀ wm : command.HumanTOTPWriteModel,
        (∀ event ∈ wm.WriteModel.Events, command.HumanTOTPWriteModel.named event = false) →
        (wm.Reduce base).1.State = wm.State ∧ (wm.Reduce base).1.Secret = wm.Secret) ∧
      (∀ (wm : command.HumanTOTPWriteModel) (es1 es2 : List user.Event),
        ((((wm.withEvents es1).Reduce base).1.withEvents es2).Reduce base).1.State
          = ((wm.withEvents (es1 ++ es2)).Reduce base).1.State ∧
        ((((wm.withEvents es1).Reduce base).1.withEvents es2).Reduce base).1.Secret
          = ((wm.withEvents (es1 ++ es2)).Reduce base).1.Secret)) ∧
    ((∀ wm wm1 : command.HumanOTPSMSWriteModel,
        wm.phoneVerified = wm1.phoneVerified → wm.otpAdded = wm1.otpAdded →
        wm.WriteModel.Events = wm1.WriteModel.Events →
        (wm.Reduce base).1.phoneVerified = (wm1.Reduce base1).1.phoneVerified ∧
        (wm.Reduce base).1.otpAdded = (wm1.Reduce base1).1.otpAdded) ∧
      (∀ wm : command.HumanOTPSMSWriteModel,
        (∀ event ∈ wm.WriteModel.Events, command.HumanOTPSMSWriteModel.named event = false) →
        (wm.Reduce base).1.phoneVerified = wm.phoneVerified ∧
        (wm.Reduce base).1.otpAdded = wm.otpAdded) ∧
      (∀ (wm : command.HumanOTPSMSWriteModel) (es1 es2 : List user.Event),
        ((((wm.withEvents es1).Reduce base).1.withEvents es2).Reduce base).1.phoneVerified
          = ((wm.withEvents (es1 ++ es2)).Reduce base).1.phoneVerified ∧
        ((((wm.withEvents es1).Reduce base).1.withEvents es2).Reduce base).1.otpAdded
          = ((wm.withEvents (es1 ++ es2)).Reduce base).1.otpAdded)) ∧
    ((∀ wm wm1 : command.HumanOTPEmailWriteModel,
        wm.emailVerified = wm1.emailVerified → wm.otpAdded = wm1.otpAdded →
        wm.WriteModel.Events = wm1.WriteModel.Events →
        (wm.Reduce base).1.emailVerified = (wm1.Reduce base1).1.emailVerified ∧
        (wm.Reduce base).1.otpAdded = (wm1.Reduce base1).1.otpAdded) ∧
      (∀ wm : command.HumanOTPEmailWriteModel,
        (∀ event ∈ wm.WriteModel.Events, command.HumanOTPEmailWriteModel.named event = false) →
        (wm.Reduce base).1.emailVerified = wm.emailVerified ∧
        (wm.Reduce base).1.otpAdded = wm.otpAdded) ∧
      (∀ (wm : command.HumanOTPEmailWriteModel) (es1 es2 : List user.Event),
        ((((wm.withEvents es1).Reduce base).1.withEvents es2).Reduce base).1.emailVerified
          = ((wm.withEvents (es1 ++ es2)).Reduce base).1.emailVerified ∧
        ((((wm.withEvents es1).Reduce base).1.withEvents es2).Reduce base).1.otpAdded
          = ((wm.withEvents (es1 ++ es2)).Reduce base).1.otpAdded)) := by
  refine ⟨⟨?_, ?_, ?_⟩, ⟨?_, ?_, ?_⟩, ⟨?_, ?_, ?_⟩⟩
  · intro wm wm1 hs hc he
    simp only [command.HumanTOTPWriteModel.Reduce]
    rw [he]
    exact totp_fold_congr _ wm wm1 hs hc
  · intro wm h
    simp only [command.HumanTOTPWriteModel.Reduce]
    rw [totp_fold_unnamed _ wm h]
    exact ⟨rfl, rfl⟩
  · intro wm es1 es2
    simp only [command.HumanTOTPWriteModel.Reduce, command.HumanTOTPWriteModel.withEvents,
      List.foldl_append]
    apply totp_fold_congr
    · exact (totp_fold_congr es1 _ _ (by rfl) (by rfl)).1
    · exact (totp_fold_congr es1 _ _ (by rfl) (by rfl)).2
  · intro wm wm1 hs hc he
    simp only [command.HumanOTPSMSWriteModel.Reduce]
    rw [he]
    exact sms_fold_congr _ wm wm1 hs hc
  · intro wm h
    simp only [command.HumanOTPSMSWriteModel.Reduce]
    rw [sms_fold_unnamed _ wm h]
    exact ⟨rfl, rfl⟩
  · intro wm es1 es2
    simp only [command.HumanOTPSMSWriteModel.Reduce, command.HumanOTPSMSWriteModel.withEvents,
      List.foldl_append]
    apply sms_fold_congr
    · exact (sms_fold_congr es1 _ _ (by rfl) (by rfl)).1
    · exact (sms_fold_congr es1 _ _ (by rfl) (by rfl)).2
  · intro wm wm1 hs hc he
    simp only [command.HumanOTPEmailWriteModel.Reduce]
    rw [he]
    exact email_fold_congr _ wm wm1 hs hc
  · intro wm h
    simp only [command.HumanOTPEmailWriteModel.Reduce]
    rw [email_fold_unnamed _ wm h]
    exact ⟨rfl, rfl⟩
  · intro wm es1 es2
    simp only [command.HumanOTPEmailWriteModel.Reduce,
      command.HumanOTPEmailWriteModel.withEvents, List.foldl_append]
    apply email_fold_congr
    · exact (email_fold_congr es1 _ _ (by rfl) (by rfl)).1
    · exact (email_fold_congr es1 _ _ (by rfl) (by rfl)).2

/-- C12 witness: a TOTP write model reduced over an added, an unrelated and a verified event
in two calls and in one call ends ready with the added secret either way. -/
theorem OTP_Reduce_is_left_fold_witness :
    (((((command.NewHumanTOTPWriteModel "user1" "org1").withEvents
          [.HumanOTPAddedEvent (some ⟨0, "enc", "id", [97]⟩), .other "user.added"]).Reduce
        sample.baseReduce).1.withEvents [.HumanOTPVerifiedEvent]).Reduce
      sample.baseReduce).1.State
      = (((command.NewHumanTOTPWriteModel "user1" "org1").withEvents
          ([.HumanOTPAddedEvent (some ⟨0, "enc", "id", [97]⟩), .other "user.added"]
            ++ [.HumanOTPVerifiedEvent])).Reduce sample.baseReduce).1.State ∧
    (((command.NewHumanTOTPWriteModel "user1" "org1").withEvents
          ([.HumanOTPAddedEvent (some ⟨0, "enc", "id", [97]⟩), .other "user.added"]
            ++ [.HumanOTPVerifiedEvent])).Reduce sample.baseReduce).1.State
      = .MFAStateReady :=
  ⟨((OTP_Reduce_is_left_fold sample.baseReduce sample.baseReduce).1.2.2
      (command.NewHumanTOTPWriteModel "user1" "org1")
      [.HumanOTPAddedEvent (some ⟨0, "enc", "id", [97]⟩), .other "user.added"]
      [.HumanOTPVerifiedEvent]).1,
    by decide⟩

/-- C13: for every starting state and every list of events that ends in a user-removed
event, after `Reduce` the TOTP write model has State `MFAStateRemoved`, the OTP-SMS write
model has phoneVerified and otpAdded false, and the OTP-email write model has emailVerified
and otpAdded false. -/
theorem OTP_Reduce_user_removed_last
    (base : eventstore.WriteModel → eventstore.WriteModel × Option GoError)
    (events : List user.Event) (totp : command.HumanTOTPWriteModel)
    (sms : command.HumanOTPSMSWriteModel) (email : command.HumanOTPEmailWriteModel) :
    ((totp.withEvents (events ++ [.UserRemovedEvent])).Reduce base).1.State
      = .MFAStateRemoved ∧
    ((sms.withEvents (events ++ [.UserRemovedEvent])).Reduce base).1.phoneVerified = false ∧
    ((sms.withEvents (events ++ [.UserRemovedEvent])).Reduce base).1.otpAdded = false ∧
    ((email.withEvents (events ++ [.UserRemovedEvent])).Reduce base).1.emailVerified = false ∧
    ((email.withEvents (events ++ [.UserRemovedEvent])).Reduce base).1.otpAdded = false := by
  simp [command.HumanTOTPWriteModel.Reduce, command.HumanTOTPWriteModel.withEvents,
    command.HumanOTPSMSWriteModel.Reduce, command.HumanOTPSMSWriteModel.withEvents,
    command.HumanOTPEmailWriteModel.Reduce, command.HumanOTPEmailWriteModel.withEvents,
    List.foldl_append, command.HumanTOTPWriteModel.reduceEvent,
    command.HumanOTPSMSWriteModel.reduceEvent, command.HumanOTPEmailWriteModel.reduceEvent]

/-- C13 witness: a ready TOTP model and verified SMS and email models with OTP added, reduced
over a verification followed by the removal of the user. -/
theorem OTP_Reduce_user_removed_last_witness :
    (((⟨⟨"user1", 3, [], "org1", ""⟩, .MFAStateReady, none⟩ :
        command.HumanTOTPWriteModel).withEvents
        ([.HumanOTPVerifiedEvent] ++ [.UserRemovedEvent])).Reduce sample.baseReduce).1.State
      = .MFAStateRemoved ∧
    (((⟨⟨"user1", 3, [], "org1", ""⟩, true, true⟩ :
        command.HumanOTPSMSWriteModel).withEvents
        ([.HumanPhoneVerifiedEvent] ++ [.UserRemovedEvent])).Reduce
          sample.baseReduce).1.phoneVerified = false :=
  ⟨(OTP_Reduce_user_removed_last sample.baseReduce [.HumanOTPVerifiedEvent]
      ⟨⟨"user1", 3, [], "org1", ""⟩, .MFAStateReady, none⟩
      ⟨⟨"user1", 3, [], "org1", ""⟩, true, true⟩
      ⟨⟨"user1", 3, [], "org1", ""⟩, true, true⟩).1,
    (OTP_Reduce_user_removed_last sample.baseReduce [.HumanPhoneVerifiedEvent]
      ⟨⟨"user1", 3, [], "org1", ""⟩, .MFAStateReady, none⟩
      ⟨⟨"user1", 3, [], "org1", ""⟩, true, true⟩
      ⟨⟨"user1", 3, [], "org1", ""⟩, true, true⟩).2.1⟩

/-! ### Deleting user sessions -/

/-- C14: `DeleteUserSessions`, `DeleteInstanceUserSessions` and `DeleteOrgUserSessions` of
the view return nil exactly when the delete of the repository returned nil or a NotFound
error, and return the error of the repository unchanged otherwise; the repository delete
behind `DeleteOrgUserSessions` is the one for the table `auth.user_sessions`, the instance id
of the aggregate of the event and its resource owner. -/
theorem DeleteUserSessions_swallow_NotFound (db : view.Db) (userID instanceID : String)
    (event : eventstore.Event) :
    ((auth_view.DeleteUserSessions db userID instanceID = none ↔
        (db.DeleteUserSessions "auth.user_sessions" userID instanceID = none ∨
          ∃ err, db.DeleteUserSessions "auth.user_sessions" userID instanceID = some err ∧
            errors.IsNotFound err = true)) ∧
      (∀ err, db.DeleteUserSessions "auth.user_sessions" userID instanceID = some err →
        errors.IsNotFound err = false →
        auth_view.DeleteUserSessions db userID instanceID = some err)) ∧
    ((auth_view.DeleteInstanceUserSessions db instanceID = none ↔
        (db.DeleteInstanceUserSessions "auth.user_sessions" instanceID = none ∨
          ∃ err, db.DeleteInstanceUserSessions "auth.user_sessions" instanceID = some err ∧
            errors.IsNotFound err = true)) ∧
      (∀ err, db.DeleteInstanceUserSessions "auth.user_sessions" instanceID = some err →
        errors.IsNotFound err = false →
        auth_view.DeleteInstanceUserSessions db instanceID = some err)) ∧
    ((auth_view.DeleteOrgUserSessions db event = none ↔
        (db.DeleteOrgUserSessions "auth.user_sessions" event.Aggregate.InstanceID
            event.Aggregate.ResourceOwner = none ∨
          ∃ err, db.DeleteOrgUserSessions "auth.user_sessions" event.Aggregate.InstanceID
              event.Aggregate.ResourceOwner = some err ∧
            errors.IsNotFound err = true)) ∧
      (∀ err, db.DeleteOrgUserSessions "auth.user_sessions" event.Aggregate.InstanceID
          event.Aggregate.ResourceOwner = some err →
        errors.IsNotFound err = false →
        auth_view.DeleteOrgUserSessions db event = some err)) := by
  refine ⟨⟨?_, ?_⟩, ⟨?_, ?_⟩, ⟨?_, ?_⟩⟩
  · unfold auth_view.DeleteUserSessions auth_view.userSessionTable
    cases h : db.DeleteUserSessions "auth.user_sessions" userID instanceID with
    | none => simp
    | some err => cases hn : errors.IsNotFound err <;> simp [hn]
  · intro err h hn
    simp [auth_view.DeleteUserSessions, auth_view.userSessionTable, h, hn]
  · unfold auth_view.DeleteInstanceUserSessions auth_view.userSessionTable
    cases h : db.DeleteInstanceUserSessions "auth.user_sessions" instanceID with
    | none => simp
    | some err => cases hn : errors.IsNotFound err <;> simp [hn]
  · intro err h hn
    simp [auth_view.DeleteInstanceUserSessions, auth_view.userSessionTable, h, hn]
  · unfold auth_view.DeleteOrgUserSessions auth_view.userSessionTable
    cases h : db.DeleteOrgUserSessions "auth.user_sessions" event.Aggregate.InstanceID
        event.Aggregate.ResourceOwner with
    | none => simp
    | some err => cases hn : errors.IsNotFound err <;> simp [hn]
  · intro err h hn
    simp [auth_view.DeleteOrgUserSessions, auth_view.userSessionTable, h, hn]

/-- C14 witness: on the sample database an org delete that finds nothing returns nil, and a
user delete on an unreachable instance returns the connection error. -/
theorem DeleteUserSessions_swallow_NotFound_witness :
    auth_view.DeleteOrgUserSessions sample.db
        ⟨⟨"org9", "org", "nobody", "inst1"⟩, "editor", "org.removed", 1, 4, []⟩ = none ∧
    auth_view.DeleteUserSessions sample.db "user1" "down"
      = some (.foreign "connection refused") :=
  ⟨((DeleteUserSessions_swallow_NotFound sample.db "user1" "down"
      ⟨⟨"org9", "org", "nobody", "inst1"⟩, "editor", "org.removed", 1, 4, []⟩).2.2.1).2
      (Or.inr ⟨errors.ThrowNotFound none "VIEW-2" "not found", rfl, rfl⟩),
    ((DeleteUserSessions_swallow_NotFound sample.db "user1" "down"
      ⟨⟨"org9", "org", "nobody", "inst1"⟩, "editor", "org.removed", 1, 4, []⟩).1.2)
      (.foreign "connection refused") rfl rfl⟩

/-! ### Push of the event store -/

/-- The event of `commandToEvent` has the aggregate of the sequence entry and the type and
creator of the command. -/
theorem commandToEvent_fields {P : Type} (marshal : P → Except GoError Bytes)
    (sequence : v3.latestSequence) (command : v3.Command P) (e : v3.event)
    (h : v3.commandToEvent marshal sequence command = .ok e) :
    e.aggregate = sequence.aggregate ∧ e.typ = command.Typ ∧ e.creator = command.Creator := by
  unfold v3.commandToEvent at h
  cases hp : command.Payload with
  | none =>
    simp only [hp] at h
    injection h with h
    subst h
    exact ⟨rfl, rfl, rfl⟩
  | some value =>
    simp only [hp] at h
    cases hm : marshal value with
    | error err => simp [hm] at h
    | ok payload =>
      simp only [hm] at h
      injection h with h
      subst h
      exact ⟨rfl, rfl, rfl⟩

/-- Incrementing the entry of an aggregate keeps the aggregates of all entries, and the entry
it returns is the first one with the identity of the aggregate. -/
theorem nextSequence_some (a : eventstore.Aggregate) :
    ∀ (sequences : List v3.latestSequence) (found : v3.latestSequence)
      (sequences1 : List v3.latestSequence),
      v3.nextSequence sequences a = some (found, sequences1) →
      sequences1.map (fun s => s.aggregate) = sequences.map (fun s => s.aggregate) ∧
      (sequences.map (fun s => s.aggregate)).find?
          (fun b => v3.aggregateKey b = v3.aggregateKey a) = some found.aggregate := by
  intro sequences
  induction sequences with
  | nil => intro found sequences1 h; simp [v3.nextSequence] at h
  | cons s rest ih =>
    intro found sequences1 h
    unfold v3.nextSequence at h
    by_cases hk : v3.aggregateKey s.aggregate = v3.aggregateKey a
    · simp only [hk, if_true] at h
      injection h with h
      injection h with h1 h2
      subst h1 h2
      simp [List.find?_cons, hk]
    · simp only [hk, if_false] at h
      cases hn : v3.nextSequence rest a with
      | none => simp [hn] at h
      | some pair =>
        obtain ⟨found1, rest1⟩ := pair
        simp only [hn] at h
        injection h with h
        injection h with h1 h2
        subst h1 h2
        obtain ⟨ih1, ih2⟩ := ih found1 rest1 hn
        simp [List.find?_cons, hk, ih1, ih2]

/-- An aggregate whose identity has an entry gets a next sequence. -/
theorem nextSequence_of_find (a : eventstore.Aggregate) :
    ∀ (sequences : List v3.latestSequence),
      ((sequences.map (fun s => s.aggregate)).find?
          (fun b => v3.aggregateKey b = v3.aggregateKey a)).isSome = true →
      (v3.nextSequence sequences a).isSome = true := by
  intro sequences
  induction sequences with
  | nil => intro h; simp at h
  | cons s rest ih =>
    intro h
    unfold v3.nextSequence
    by_cases hk : v3.aggregateKey s.aggregate = v3.aggregateKey a
    · simp [hk]
    · simp only [List.map_cons, List.find?_cons, hk, decide_False] at h
      have := ih h
      cases hn : v3.nextSequence rest a with
      | none => simp [hn] at this
      | some pair => simp [hk]

/-- The entries built from the commands hold, for every identity, the aggregate of the first
command with that identity. -/
theorem commandsToSequences_find {P : Type} (stored : List v3.event)
    (a : eventstore.Aggregate) (commands : List (v3.Command P)) :
    ((v3.commandsToSequences stored commands).map (fun s => s.aggregate)).find?
        (fun b => v3.aggregateKey b = v3.aggregateKey a)
      = (commands.map (fun c => c.Aggregate)).find?
        (fun b => v3.aggregateKey b = v3.aggregateKey a) := by
  have key : ∀ (cmds : List (v3.Command P)) (acc : List v3.latestSequence),
      ((cmds.foldl
          (fun sequences command =>
            match sequences.find?
              (fun s => v3.aggregateKey s.aggregate = v3.aggregateKey command.Aggregate) with
            | some _ => sequences
            | none =>
              sequences ++ [⟨command.Aggregate, v3.storedSequence stored command.Aggregate⟩])
          acc).map (fun s => s.aggregate)).find?
          (fun b => v3.aggregateKey b = v3.aggregateKey a)
        = (acc.map (fun s => s.aggregate) ++ cmds.map (fun c => c.Aggregate)).find?
          (fun b => v3.aggregateKey b = v3.aggregateKey a) := by
    intro cmds
    induction cmds with
    | nil => intro acc; simp
    | cons c rest ih =>
      intro acc
      rw [List.foldl_cons]
      cases hf : acc.find?
          (fun s => v3.aggregateKey s.aggregate = v3.aggregateKey c.Aggregate) with
      | none =>
        simp only []
        rw [ih]
        simp
      | some s =>
        simp only []
        rw [ih]
        have hs := List.find?_some hf
        have hmem := List.mem_of_find?_eq_some hf
        simp only [decide_eq_true_eq] at hs
        simp only [List.map_cons, List.find?_append, List.find?_cons]
        by_cases hk : v3.aggregateKey c.Aggregate = v3.aggregateKey a
        · have hex : ((acc.map (fun s => s.aggregate)).find?
              (fun b => v3.aggregateKey b = v3.aggregateKey a)).isSome = true := by
            rw [List.find?_isSome]
            exact ⟨s.aggregate, List.mem_map_of_mem _ hmem, by simp [hs, hk]⟩
          cases hx : (acc.map (fun s => s.aggregate)).find?
              (fun b => v3.aggregateKey b = v3.aggregateKey a) with
          | none => simp [hx] at hex
          | some x => simp
        · simp [hk]
  simpa [v3.commandsToSequences] using key commands []

/-- The events of `mapCommands` are in command order, one per command: each has the type and
creator of its command and the aggregate of the first entry with the identity of the
aggregate of the command. -/
theorem mapCommands_fields {P : Type} (marshal : P → Except GoError Bytes) :
    ∀ (commands : List (v3.Command P)) (sequences : List v3.latestSequence)
      (events : List v3.event),
      v3.mapCommands marshal sequences commands = .ok events →
      events.map (fun e => e.aggregate)
        = commands.map (fun c =>
            match (sequences.map (fun s => s.aggregate)).find?
              (fun b => v3.aggregateKey b = v3.aggregateKey c.Aggregate) with
            | some b => b
            | none => c.Aggregate) ∧
      events.map (fun e => e.typ) = commands.map (fun c => c.Typ) ∧
      events.map (fun e => e.creator) = commands.map (fun c => c.Creator) := by
  intro commands
  induction commands with
  | nil =>
    intro sequences events h
    simp only [v3.mapCommands] at h
    injection h with h
    subst h
    simp
  | cons c rest ih =>
    intro sequences events h
    unfold v3.mapCommands at h
    cases hn : v3.nextSequence sequences c.Aggregate with
    | none => simp [hn] at h
    | some pair =>
      obtain ⟨found, sequences1⟩ := pair
      simp only [hn] at h
      cases hc : v3.commandToEvent marshal found c with
      | error err => simp [hc] at h
      | ok e =>
        simp only [hc] at h
        cases hr : v3.mapCommands marshal sequences1 rest with
        | error err => simp [hr] at h
        | ok tail =>
          simp only [hr] at h
          injection h with h
          subst h
          obtain ⟨hkeep, hfound⟩ := nextSequence_some c.Aggregate sequences found sequences1 hn
          obtain ⟨hagg, htyp, hcre⟩ := commandToEvent_fields marshal found c e hc
          obtain ⟨ih1, ih2, ih3⟩ := ih sequences1 tail hr
          rw [hkeep] at ih1
          simp only [List.map_cons, ih1, ih2, ih3, hagg, htyp, hcre, hfound]
          exact ⟨trivial, trivial, trivial⟩

/-- The mapping of the commands fails only when a payload cannot be encoded: with an entry
for the aggregate of every command and an encodable payload in every command it returns
events. -/
theorem mapCommands_total {P : Type} (marshal : P → Except GoError Bytes) :
    ∀ (commands : List (v3.Command P)) (sequences : List v3.latestSequence),
      (∀ c ∈ commands, ((sequences.map (fun s => s.aggregate)).find?
          (fun b => v3.aggregateKey b = v3.aggregateKey c.Aggregate)).isSome = true) →
      (∀ c ∈ commands, ∀ value, c.Payload = some value → ∃ bytes, marshal value = .ok bytes) →
      ∃ events, v3.mapCommands marshal sequences commands = .ok events := by
  intro commands
  induction commands with
  | nil => intro sequences _ _; exact ⟨[], rfl⟩
  | cons c rest ih =>
    intro sequences hseq hmarshal
    have hsome := nextSequence_of_find c.Aggregate sequences (hseq c (List.mem_cons_self _ _))
    cases hn : v3.nextSequence sequences c.Aggregate with
    | none => simp [hn] at hsome
    | some pair =>
      obtain ⟨found, sequences1⟩ := pair
      obtain ⟨hkeep, _⟩ := nextSequence_some c.Aggregate sequences found sequences1 hn
      have hevent : ∃ e, v3.commandToEvent marshal found c = .ok e := by
        unfold v3.commandToEvent
        cases hp : c.Payload with
        | none => exact ⟨_, rfl⟩
        | some value =>
          obtain ⟨bytes, hb⟩ := hmarshal c (List.mem_cons_self _ _) value hp
          simp only [hb]
          exact ⟨_, rfl⟩
      obtain ⟨e, he⟩ := hevent
      obtain ⟨tail, htail⟩ := ih sequences1
        (fun c1 hc1 => by rw [hkeep]; exact hseq c1 (List.mem_cons_of_mem _ hc1))
        (fun c1 hc1 => hmarshal c1 (List.mem_cons_of_mem _ hc1))
      exact ⟨e :: tail, by simp [v3.mapCommands, hn, he, htail]⟩

/-- Assigning global sequences changes no other field and drops no event. -/
theorem assignGlobalSequence_map {α : Type} (f : v3.event → α)
    (hf : ∀ (e : v3.event) (g : Nat), f { e with globalSequence := g } = f e) :
    ∀ (events : List v3.event) (first : Nat),
      (v3.assignGlobalSequence first events).map f = events.map f := by
  intro events
  induction events with
  | nil => intro first; rfl
  | cons e rest ih =>
    intro first
    simp [v3.assignGlobalSequence, hf, ih]

/-- What a successful push returns and stores, in terms of the mapping of the commands. -/
theorem Push_ok {P : Type} (marshal : P → Except GoError Bytes) (ctx : context.Context)
    (store store1 : v3.Store) (commands : List (v3.Command P)) (events : List v3.event)
    (h : v3.Push marshal ctx store commands = (store1, .ok events)) :
    ctx.canceled = false ∧
    store1.events = store.events ++ events ∧
    ∃ mapped, v3.mapCommands marshal (v3.commandsToSequences store.events commands) commands
        = .ok mapped ∧
      events = v3.assignGlobalSequence store.events.length mapped := by
  unfold v3.Push at h
  cases hc : ctx.canceled with
  | true => simp [hc] at h
  | false =>
    simp only [hc] at h
    cases hm : v3.mapCommands marshal (v3.commandsToSequences store.events commands)
        commands with
    | error err => simp [hm] at h
    | ok mapped =>
      simp only [hm] at h
      cases hu : v3.handleUniqueConstraints store.uniques commands with
      | error err => simp [hu] at h
      | ok uniques =>
        simp only [hu] at h
        injection h with h1 h2
        injection h2 with h2
        subst h1 h2
        exact ⟨rfl, rfl, mapped, rfl, rfl⟩

/-- The events of a successful push, field by field: in command order, one per command, with
the type and creator of the command and the aggregate of the first command of the push for
the same aggregate identity. -/
theorem Push_ok_fields {P : Type} (marshal : P → Except GoError Bytes) (ctx : context.Context)
    (store store1 : v3.Store) (commands : List (v3.Command P)) (events : List v3.event)
    (h : v3.Push marshal ctx store commands = (store1, .ok events)) :
    events.map (fun e => e.aggregate)
      = commands.map (fun c => v3.firstAggregate commands c.Aggregate) ∧
    events.map (fun e => e.typ) = commands.map (fun c => c.Typ) ∧
    events.map (fun e => e.creator) = commands.map (fun c => c.Creator) := by
  obtain ⟨_, _, mapped, hmapped, hevents⟩ := Push_ok marshal ctx store store1 commands events h
  obtain ⟨h1, h2, h3⟩ := mapCommands_fields marshal commands _ mapped hmapped
  subst hevents
  rw [assignGlobalSequence_map (fun e => e.aggregate) (fun _ _ => rfl),
    assignGlobalSequence_map (fun e => e.typ) (fun _ _ => rfl),
    assignGlobalSequence_map (fun e => e.creator) (fun _ _ => rfl), h1, h2, h3]
  refine ⟨?_, rfl, rfl⟩
  apply List.map_congr_left
  intro c _
  rw [commandsToSequences_find]
  rfl

/-- The first aggregate found for an identity has that identity. -/
theorem firstAggregate_key {P : Type} (commands : List (v3.Command P))
    (a : eventstore.Aggregate) :
    v3.aggregateKey (v3.firstAggregate commands a) = v3.aggregateKey a := by
  unfold v3.firstAggregate
  cases h : (commands.map (fun c => c.Aggregate)).find?
      (fun b => v3.aggregateKey b = v3.aggregateKey a) with
  | none => rfl
  | some b =>
    have := List.find?_some h
    simpa using this

/-- The first aggregate found depends on the identity only, for the aggregate of a command of
the list. -/
theorem firstAggregate_congr {P : Type} (commands : List (v3.Command P))
    (c1 c2 : v3.Command P) (h1 : c1 ∈ commands)
    (hk : v3.aggregateKey c1.Aggregate = v3.aggregateKey c2.Aggregate) :
    v3.firstAggregate commands c1.Aggregate = v3.firstAggregate commands c2.Aggregate := by
  unfold v3.firstAggregate
  rw [hk]
  have hsome : ((commands.map (fun c => c.Aggregate)).find?
      (fun b => v3.aggregateKey b = v3.aggregateKey c2.Aggregate)).isSome = true := by
    rw [List.find?_isSome]
    exact ⟨c1.Aggregate, List.mem_map_of_mem _ h1, by simp [hk]⟩
  cases h : (commands.map (fun c => c.Aggregate)).find?
      (fun b => v3.aggregateKey b = v3.aggregateKey c2.Aggregate) with
  | none => simp [h] at hsome
  | some b => rfl

/-- Commands without unique constraints leave the unique rows as they are. -/
theorem handleUniqueConstraints_nil {P : Type} (uniques : List (String × String × String)) :
    ∀ commands : List (v3.Command P), (∀ c ∈ commands, c.UniqueConstraints = []) →
      v3.handleUniqueConstraints uniques commands = .ok uniques := by
  intro commands
  induction commands with
  | nil => intro _; rfl
  | cons c rest ih =>
    intro h
    have hc := h c (List.mem_cons_self _ _)
    simp only [v3.handleUniqueConstraints, hc, v3.applyUniqueConstraints]
    exact ih (fun c1 hc1 => h c1 (List.mem_cons_of_mem _ hc1))

/-- Every aggregate of a command has a sequence entry in the entries built from the
commands. -/
theorem commandsToSequences_complete {P : Type} (stored : List v3.event)
    (commands : List (v3.Command P)) (c : v3.Command P) (hc : c ∈ commands) :
    (((v3.commandsToSequences stored commands).map (fun s => s.aggregate)).find?
      (fun b => v3.aggregateKey b = v3.aggregateKey c.Aggregate)).isSome = true := by
  rw [commandsToSequences_find, List.find?_isSome]
  exact ⟨c.Aggregate, List.mem_map_of_mem _ hc, by simp⟩

/-- C11: a push that is not cancelled, whose payloads encode and whose commands carry no
unique constraint returns events; `commandToEvent` gives an event the aggregate of the
sequence entry, not that of the command; and the events of every successful push are in
command order, one per command (with the type and creator of the command), each with the
aggregate of the first command of the push for the same aggregate identity, so each carries
the resource owner of that first command, whatever resource owner its own command names,
and events of one aggregate carry the same resource owner. -/
theorem Push_resource_owner_of_first_command {P : Type}
    (marshal : P → Except GoError Bytes) (ctx : context.Context) (store : v3.Store)
    (commands : List (v3.Command P)) :
    (ctx.canceled = false →
      (∀ c ∈ commands, ∀ value, c.Payload = some value → ∃ bytes, marshal value = .ok bytes) →
      (∀ c ∈ commands, c.UniqueConstraints = []) →
      ∃ store1 events, v3.Push marshal ctx store commands = (store1, .ok events)) ∧
    (∀ (sequence : v3.latestSequence) (command : v3.Command P) (e : v3.event),
      v3.commandToEvent marshal sequence command = .ok e →
      e.aggregate = sequence.aggregate) ∧
    (∀ store1 events, v3.Push marshal ctx store commands = (store1, .ok events) →
      events.length = commands.length ∧
      events.map (fun e => e.typ) = commands.map (fun c => c.Typ) ∧
      events.map (fun e => e.creator) = commands.map (fun c => c.Creator) ∧
      events.map (fun e => e.aggregate)
        = commands.map (fun c => v3.firstAggregate commands c.Aggregate) ∧
      events.map (fun e => e.aggregate.ResourceOwner)
        = commands.map (fun c => (v3.firstAggregate commands c.Aggregate).ResourceOwner) ∧
      (∀ e1 ∈ events, ∀ e2 ∈ events,
        v3.aggregateKey e1.aggregate = v3.aggregateKey e2.aggregate →
        e1.aggregate.ResourceOwner = e2.aggregate.ResourceOwner)) := by
  refine ⟨?_, fun sequence command e h =>
    (commandToEvent_fields marshal sequence command e h).1, ?_⟩
  · intro hctx hmarshal huniq
    obtain ⟨mapped, hmapped⟩ := mapCommands_total marshal commands
      (v3.commandsToSequences store.events commands)
      (fun c hc => commandsToSequences_complete store.events commands c hc) hmarshal
    refine ⟨{ events := store.events ++ v3.assignGlobalSequence store.events.length mapped,
              uniques := store.uniques },
      v3.assignGlobalSequence store.events.length mapped, ?_⟩
    simp [v3.Push, hctx, hmapped, handleUniqueConstraints_nil store.uniques commands huniq]
  · intro store1 events h
    obtain ⟨hagg, htyp, hcre⟩ := Push_ok_fields marshal ctx store store1 commands events h
    have hlen : events.length = commands.length := by
      have := congrArg List.length htyp
      simpa using this
    have howner : events.map (fun e => e.aggregate.ResourceOwner)
        = commands.map (fun c => (v3.firstAggregate commands c.Aggregate).ResourceOwner) := by
      have := congrArg (List.map (fun a : eventstore.Aggregate => a.ResourceOwner)) hagg
      simpa [List.map_map, Function.comp] using this
    refine ⟨hlen, htyp, hcre, hagg, howner, ?_⟩
    intro e1 he1 e2 he2 hk
    have hm1 : e1.aggregate ∈ events.map (fun e => e.aggregate) := List.mem_map_of_mem _ he1
    have hm2 : e2.aggregate ∈ events.map (fun e => e.aggregate) := List.mem_map_of_mem _ he2
    rw [hagg, List.mem_map] at hm1 hm2
    obtain ⟨c1, hc1, h1⟩ := hm1
    obtain ⟨c2, hc2, h2⟩ := hm2
    have hk12 : v3.aggregateKey c1.Aggregate = v3.aggregateKey c2.Aggregate := by
      rw [← firstAggregate_key commands c1.Aggregate, ← firstAggregate_key commands c2.Aggregate,
        h1, h2]
      exact hk
    rw [← h1, ← h2, firstAggregate_congr commands c1 c2 hc1 hk12]

/-- C11 witness: the push of the test with resource owners caos, ignored, zitadel, ignored on
the aggregates 507, 507, 508, 508 returns events owned by caos, caos, zitadel, zitadel. -/
theorem Push_resource_owner_of_first_command_witness :
    ∃ store1 events,
      v3.Push sample.marshal ⟨false⟩ sample.emptyStore sample.ownerCommands
        = (store1, .ok events) ∧
      events.map (fun e => e.aggregate.ResourceOwner) = ["caos", "caos", "zitadel", "zitadel"] ∧
      events.map (fun e => e.aggregate.ID) = ["507", "507", "508", "508"] :=
  ⟨_, _, rfl,
    ((Push_resource_owner_of_first_command sample.marshal ⟨false⟩ sample.emptyStore
      sample.ownerCommands).2.2 _ _ rfl).2.2.2.2.1,
    by decide⟩

/-- C15: a push that fails leaves the store as it was, so the number of stored events of the
targeted aggregates is unchanged; a push with a cancelled context fails; a push that succeeds
returns one event per command and stores exactly these events after the ones already stored,
so the number of stored events of the targeted aggregates grows by the number of commands,
for one aggregate or several. -/
theorem Push_all_or_nothing {P : Type} (marshal : P → Except GoError Bytes)
    (ctx : context.Context) (store : v3.Store) (commands : List (v3.Command P)) :
    (∀ err, (v3.Push marshal ctx store commands).2 = .error err →
      (v3.Push marshal ctx store commands).1 = store ∧
      v3.countTargeted commands (v3.Push marshal ctx store commands).1.events
        = v3.countTargeted commands store.events) ∧
    (ctx.canceled = true → ∃ err, v3.Push marshal ctx store commands = (store, .error err)) ∧
    (∀ store1 events, v3.Push marshal ctx store commands = (store1, .ok events) →
      events.length = commands.length ∧
      store1.events = store.events ++ events ∧
      store1.events.length = store.events.length + commands.length ∧
      v3.countTargeted commands store1.events
        = v3.countTargeted commands store.events + commands.length) := by
  refine ⟨?_, ?_, ?_⟩
  · intro err h
    have hstore : (v3.Push marshal ctx store commands).1 = store := by
      unfold v3.Push at h ⊢
      cases hc : ctx.canceled with
      | true => simp
      | false =>
        simp only [hc] at h ⊢
        cases hm : v3.mapCommands marshal (v3.commandsToSequences store.events commands)
            commands with
        | error e => simp
        | ok mapped =>
          simp only [hm] at h ⊢
          cases hu : v3.handleUniqueConstraints store.uniques commands with
          | error e => simp
          | ok uniques => simp [hu] at h
    rw [hstore]
    exact ⟨rfl, rfl⟩
  · intro hc
    exact ⟨.foreign "context canceled", by simp [v3.Push, hc]⟩
  · intro store1 events h
    obtain ⟨_, hstored, _⟩ := Push_ok marshal ctx store store1 commands events h
    obtain ⟨hagg, htyp, _⟩ := Push_ok_fields marshal ctx store store1 commands events h
    have hlen : events.length = commands.length := by
      have := congrArg List.length htyp
      simpa using this
    have hall : ∀ e ∈ events,
        commands.any (fun c => v3.aggregateKey c.Aggregate = v3.aggregateKey e.aggregate)
          = true := by
      intro e he
      have hm : e.aggregate ∈ events.map (fun e => e.aggregate) := List.mem_map_of_mem _ he
      rw [hagg, List.mem_map] at hm
      obtain ⟨c, hc, h1⟩ := hm
      rw [List.any_eq_true]
      refine ⟨c, hc, ?_⟩
      rw [← h1, firstAggregate_key]
      simp
    refine ⟨hlen, hstored, ?_, ?_⟩
    · rw [hstored, List.length_append, hlen]
    · unfold v3.countTargeted
      rw [hstored, List.filter_append, List.length_append,
        List.filter_eq_self.mpr hall, hlen]

/-- C15 witness: with a cancelled context the push of one command stores nothing; the push
of the four commands on two aggregates stores four events. -/
theorem Push_all_or_nothing_witness :
    (v3.Push sample.marshal ⟨true⟩ sample.emptyStore
        [sample.generateCommand "9" "caos" []]).1 = sample.emptyStore ∧
    ∃ store1 events,
      v3.Push sample.marshal ⟨false⟩ sample.emptyStore sample.ownerCommands
        = (store1, .ok events) ∧
      v3.countTargeted sample.ownerCommands store1.events
        = v3.countTargeted sample.ownerCommands sample.emptyStore.events + 4 :=
  ⟨((Push_all_or_nothing sample.marshal ⟨true⟩ sample.emptyStore
      [sample.generateCommand "9" "caos" []]).1 (.foreign "context canceled") rfl).1,
    _, _, rfl,
    ((Push_all_or_nothing sample.marshal ⟨false⟩ sample.emptyStore
      sample.ownerCommands).2.2 _ _ rfl).2.2.2⟩

/-! ### Instance domains -/

/-- The apostrophe and every non-ASCII character are not allowed in a domain name. -/
theorem allowedDomainRune_excludes (c : Char) (h : c.toNat = 39 ∨ 128 ≤ c.toNat) :
    command.allowedDomainRune c = false := by
  unfold command.allowedDomainRune
  simp only [decide_eq_false_iff_not]
  omega

/-- C16: `AddInstanceDomain` rejects with InvalidArgument, without any call on the event
store, every domain name that is empty or holds an apostrophe or a non-ASCII character (an
umlaut, an emoji); `SetPrimaryInstanceDomain` and `RemoveInstanceDomain` reject the empty
domain in the same way. -/
theorem InstanceDomain_invalid_rejected {C α : Type} (proceed : String → command.Run C α) :
    (∀ instanceDomain : String,
      (instanceDomain = "" ∨ ∃ c ∈ instanceDomain.data, c.toNat = 39 ∨ 128 ≤ c.toNat) →
      ∃ err, (command.AddInstanceDomain proceed instanceDomain).result = .error err ∧
        errors.kindOf err = some .InvalidArgument ∧
        (command.AddInstanceDomain proceed instanceDomain).calls = []) ∧
    (∃ err, (command.SetPrimaryInstanceDomain proceed "").result = .error err ∧
      errors.kindOf err = some .InvalidArgument ∧
      (command.SetPrimaryInstanceDomain proceed "").calls = []) ∧
    (∃ err, (command.RemoveInstanceDomain proceed "").result = .error err ∧
      errors.kindOf err = some .InvalidArgument ∧
      (command.RemoveInstanceDomain proceed "").calls = []) := by
  refine ⟨?_, ?_, ?_⟩
  · intro instanceDomain h
    rcases h with h | ⟨c, hc, hbad⟩
    · subst h
      exact ⟨_, rfl, rfl, rfl⟩
    · by_cases hempty : instanceDomain = ""
      · subst hempty
        exact ⟨_, rfl, rfl, rfl⟩
      · have hall : instanceDomain.data.all command.allowedDomainRune = false := by
          rw [List.all_eq_false]
          exact ⟨c, hc, by simp [allowedDomainRune_excludes c hbad]⟩
        refine ⟨errors.ThrowInvalidArgument none "" "Errors.Instance.Domain.InvalidCharacter",
          ?_, rfl, ?_⟩
        · simp [command.AddInstanceDomain, command.validateInstanceDomain, hempty, hall]
        · simp [command.AddInstanceDomain, command.validateInstanceDomain, hempty, hall]
  · exact ⟨_, rfl, rfl, rfl⟩
  · exact ⟨_, rfl, rfl, rfl⟩

/-- C16 witness: the four domain names of the command test are rejected before any call on
the event store, and `domain.ch` passes the validation. -/
theorem InstanceDomain_invalid_rejected_witness :
    (∃ err, (command.AddInstanceDomain sample.proceedDomain "").result = .error err ∧
      errors.kindOf err = some .InvalidArgument ∧
      (command.AddInstanceDomain sample.proceedDomain "").calls = []) ∧
    (∃ err, (command.AddInstanceDomain sample.proceedDomain
        "hodor\x27s-org.localhost").result = .error err ∧
      errors.kindOf err = some .InvalidArgument ∧
      (command.AddInstanceDomain sample.proceedDomain "hodor\x27s-org.localhost").calls = []) ∧
    (∃ err, (command.AddInstanceDomain sample.proceedDomain "bücher.ch").result = .error err ∧
      errors.kindOf err = some .InvalidArgument ∧
      (command.AddInstanceDomain sample.proceedDomain "bücher.ch").calls = []) ∧
    (∃ err, (command.AddInstanceDomain sample.proceedDomain "🦒.ch").result = .error err ∧
      errors.kindOf err = some .InvalidArgument ∧
      (command.AddInstanceDomain sample.proceedDomain "🦒.ch").calls = []) ∧
    command.validateInstanceDomain "domain.ch" = none :=
  ⟨(InstanceDomain_invalid_rejected sample.proceedDomain).1 "" (Or.inl rfl),
    (InstanceDomain_invalid_rejected sample.proceedDomain).1 "hodor\x27s-org.localhost"
      (Or.inr ⟨Char.ofNat 39, by decide, Or.inl (by decide)⟩),
    (InstanceDomain_invalid_rejected sample.proceedDomain).1 "bücher.ch"
      (Or.inr ⟨Char.ofNat 252, by decide, Or.inr (by decide)⟩),
    (InstanceDomain_invalid_rejected sample.proceedDomain).1 "🦒.ch"
      (Or.inr ⟨Char.ofNat 0x1F992, by decide, Or.inr (by decide)⟩),
    by rfl⟩

/-! ### Organisations -/

/-- A list that `dropWhile` leaves alone does not start with a dropped element. -/
theorem head_not_of_dropWhile_eq_self {α : Type} (p : α → Bool) (a : α) (rest : List α)
    (h : List.dropWhile p (a :: rest) = a :: rest) : p a = false := by
  cases hp : p a with
  | false => rfl
  | true =>
    rw [List.dropWhile_cons_of_pos hp] at h
    have hle := (List.dropWhile_suffix (l := rest) p).length_le
    rw [h] at hle
    simp at hle

/-- Trimming a trimmed string changes nothing. -/
theorem TrimSpace_idempotent (s : String) :
    strings.TrimSpace (strings.TrimSpace s) = strings.TrimSpace s := by
  unfold strings.TrimSpace
  simp only
  have hhead : List.dropWhile strings.isSpace
      ((s.data.dropWhile strings.isSpace).rdropWhile strings.isSpace)
        = (s.data.dropWhile strings.isSpace).rdropWhile strings.isSpace := by
    have hpre : (s.data.dropWhile strings.isSpace).rdropWhile strings.isSpace
        <+: s.data.dropWhile strings.isSpace := List.rdropWhile_prefix _ _
    have hidem : List.dropWhile strings.isSpace (s.data.dropWhile strings.isSpace)
        = s.data.dropWhile strings.isSpace := List.dropWhile_idempotent _ _
    cases hr : (s.data.dropWhile strings.isSpace).rdropWhile strings.isSpace with
    | nil => rfl
    | cons a t =>
      rw [hr] at hpre
      obtain ⟨u, hu⟩ := hpre
      rw [← hu] at hidem
      have hna := head_not_of_dropWhile_eq_self strings.isSpace a (t ++ u) hidem
      rw [List.dropWhile_cons_of_neg (by simp [hna])]
  rw [hhead, List.rdropWhile_idempotent]

/-- C17: organisation commands act on the trimmed name. `ChangeOrg` and `AddOrg` reject a
name that is empty after trimming with InvalidArgument and without a call on the event
store; `ChangeOrg` of an existing org whose current name is the trimmed name fails with
PreconditionFailed after the one filter, without a push; and `AddOrg` and `ChangeOrg` do on a
name what they do on the trimmed name, so `AddOrg` of a padded name gives the same calls,
events and result as `AddOrg` of the trimmed name. -/
theorem Org_name_trimmed {α : Type} (es : command.Eventstore)
    (rename : command.OrgWriteModel → String → command.Run command.OrgCommand String)
    (add : String → command.Run command.OrgCommand α) (orgID name : String) :
    (strings.TrimSpace name = "" →
      (∃ err, (command.ChangeOrg es rename orgID name).result = .error err ∧
        errors.kindOf err = some .InvalidArgument ∧
        (command.ChangeOrg es rename orgID name).calls = []) ∧
      (∃ err, (command.AddOrg add name).result = .error err ∧
        errors.kindOf err = some .InvalidArgument ∧
        (command.AddOrg add name).calls = [])) ∧
    (∀ events, es.Filter orgID = .ok events →
      (events.foldl command.OrgWriteModel.reduceEvent
        (command.NewOrgWriteModel orgID)).exists = true →
      (events.foldl command.OrgWriteModel.reduceEvent
        (command.NewOrgWriteModel orgID)).Name = strings.TrimSpace name →
      strings.TrimSpace name ≠ "" →
      ∃ err, (command.ChangeOrg es rename orgID name).result = .error err ∧
        errors.kindOf err = some .PreconditionFailed ∧
        (command.ChangeOrg es rename orgID name).calls = [.Filter orgID]) ∧
    (strings.TrimSpace name ≠ "" →
      command.AddOrg add name = add (strings.TrimSpace name)) ∧
    command.AddOrg add name = command.AddOrg add (strings.TrimSpace name) ∧
    command.ChangeOrg es rename orgID name
      = command.ChangeOrg es rename orgID (strings.TrimSpace name) := by
  refine ⟨?_, ?_, ?_, ?_, ?_⟩
  · intro hempty
    constructor
    · refine ⟨errors.ThrowInvalidArgument none "" "Errors.Org.Invalid", ?_, rfl, ?_⟩ <;>
        simp [command.ChangeOrg, hempty]
    · refine ⟨errors.ThrowInvalidArgument none "" "Errors.Org.Invalid", ?_, rfl, ?_⟩ <;>
        simp [command.AddOrg, hempty]
  · intro events hfilter hexists hname hne
    refine ⟨errors.ThrowPreconditionFailed none "" "Errors.Org.NotChanged", ?_, rfl, ?_⟩ <;>
      simp [command.ChangeOrg, command.getOrgWriteModelByID, hfilter, hexists, hname, hne]
  · intro hne
    simp [command.AddOrg, hne]
  · simp only [command.AddOrg, TrimSpace_idempotent]
  · simp only [command.ChangeOrg, TrimSpace_idempotent]

/-- C17 witness: the names of the command tests. The empty name and the name of two spaces
are empty after trimming; ` org ` against the org `org1` named `org` is PreconditionFailed
after one filter; and `AddOrg` of ` Org ` is `AddOrg` of `Org`, which pushes the org-added
event with the name `Org`. -/
theorem Org_name_trimmed_witness :
    strings.TrimSpace "" = "" ∧ strings.TrimSpace "  " = "" ∧
    strings.TrimSpace " org " = "org" ∧ strings.TrimSpace " Org " = "Org" ∧
    (∃ err, (command.ChangeOrg sample.orgStore sample.renameOrg "org1" " org ").result
        = .error err ∧
      errors.kindOf err = some .PreconditionFailed ∧
      (command.ChangeOrg sample.orgStore sample.renameOrg "org1" " org ").calls
        = [.Filter "org1"]) ∧
    command.AddOrg sample.addOrg " Org " = command.AddOrg sample.addOrg "Org" ∧
    command.AddOrg sample.addOrg " Org " = sample.addOrg "Org" :=
  ⟨by decide, by decide, by decide, by decide,
    (Org_name_trimmed sample.orgStore sample.renameOrg sample.addOrg "org1" " org ").2.1
      [.OrgAddedEvent "org"] rfl (by decide) (by decide) (by decide),
    (Org_name_trimmed sample.orgStore sample.renameOrg sample.addOrg "org1" " Org ").2.2.2.1,
    (Org_name_trimmed sample.orgStore sample.renameOrg sample.addOrg "org1" " Org ").2.2.1
      (by decide)⟩

/-- C20: with `events` the events that the filter returns for the org and `wm` the write
model reduced from them, `DeactivateOrg` returns without error exactly when the org is active
and the push succeeds, and then its calls are the filter and the push of exactly one
org-deactivated event; `ReactivateOrg` likewise exactly when the org is inactive, pushing
exactly one org-reactivated event; deactivating an inactive org and reactivating an active
org fail with PreconditionFailed and an org without events gives NotFound, both after the
filter alone, without a push; and the pushed event switches the state of the write model
(active to inactive, inactive to active). -/
theorem Org_activation_state_machine (es : command.Eventstore) (orgID : String)
    (events : List org.Event) (hfilter : es.Filter orgID = .ok events) :
    ((∃ r, (command.DeactivateOrg es orgID).result = .ok r) ↔
      ((events.foldl command.OrgWriteModel.reduceEvent
          (command.NewOrgWriteModel orgID)).State = .OrgStateActive ∧
        es.Push [⟨orgID, .OrgDeactivatedEvent⟩] = none)) ∧
    ((∃ r, (command.DeactivateOrg es orgID).result = .ok r) →
      (command.DeactivateOrg es orgID).calls
        = [.Filter orgID, .Push [⟨orgID, .OrgDeactivatedEvent⟩]]) ∧
    ((∃ r, (command.ReactivateOrg es orgID).result = .ok r) ↔
      ((events.foldl command.OrgWriteModel.reduceEvent
          (command.NewOrgWriteModel orgID)).State = .OrgStateInactive ∧
        es.Push [⟨orgID, .OrgReactivatedEvent⟩] = none)) ∧
    ((∃ r, (command.ReactivateOrg es orgID).result = .ok r) →
      (command.ReactivateOrg es orgID).calls
        = [.Filter orgID, .Push [⟨orgID, .OrgReactivatedEvent⟩]]) ∧
    ((events.foldl command.OrgWriteModel.reduceEvent
        (command.NewOrgWriteModel orgID)).State = .OrgStateInactive →
      ∃ err, (command.DeactivateOrg es orgID).result = .error err ∧
        errors.kindOf err = some .PreconditionFailed ∧
        (command.DeactivateOrg es orgID).calls = [.Filter orgID]) ∧
    ((events.foldl command.OrgWriteModel.reduceEvent
        (command.NewOrgWriteModel orgID)).State = .OrgStateActive →
      ∃ err, (command.ReactivateOrg es orgID).result = .error err ∧
        errors.kindOf err = some .PreconditionFailed ∧
        (command.ReactivateOrg es orgID).calls = [.Filter orgID]) ∧
    (events = [] →
      (∃ err, (command.DeactivateOrg es orgID).result = .error err ∧
        errors.kindOf err = some .NotFound ∧
        (command.DeactivateOrg es orgID).calls = [.Filter orgID]) ∧
      (∃ err, (command.ReactivateOrg es orgID).result = .error err ∧
        errors.kindOf err = some .NotFound ∧
        (command.ReactivateOrg es orgID).calls = [.Filter orgID])) ∧
    ((events.foldl command.OrgWriteModel.reduceEvent
        (command.NewOrgWriteModel orgID)).State = .OrgStateActive →
      ((events ++ [org.Event.OrgDeactivatedEvent]).foldl command.OrgWriteModel.reduceEvent
        (command.NewOrgWriteModel orgID)).State = .OrgStateInactive) ∧
    ((events.foldl command.OrgWriteModel.reduceEvent
        (command.NewOrgWriteModel orgID)).State = .OrgStateInactive →
      ((events ++ [org.Event.OrgReactivatedEvent]).foldl command.OrgWriteModel.reduceEvent
        (command.NewOrgWriteModel orgID)).State = .OrgStateActive) := by
  have hwm : command.getOrgWriteModelByID es orgID
      = .ok (events.foldl command.OrgWriteModel.reduceEvent
          (command.NewOrgWriteModel orgID)) := by
    simp [command.getOrgWriteModelByID, hfilter]
  refine ⟨?_, ?_, ?_, ?_, ?_, ?_, ?_, ?_, ?_⟩
  · simp only [command.DeactivateOrg, hwm]
    cases hs : (events.foldl command.OrgWriteModel.reduceEvent
        (command.NewOrgWriteModel orgID)).State <;>
      cases hp : es.Push [⟨orgID, .OrgDeactivatedEvent⟩] <;>
      simp [command.OrgWriteModel.exists, hs, hp]
  · simp only [command.DeactivateOrg, hwm]
    cases hs : (events.foldl command.OrgWriteModel.reduceEvent
        (command.NewOrgWriteModel orgID)).State <;>
      cases hp : es.Push [⟨orgID, .OrgDeactivatedEvent⟩] <;>
      simp [command.OrgWriteModel.exists, hs, hp]
  · simp only [command.ReactivateOrg, hwm]
    cases hs : (events.foldl command.OrgWriteModel.reduceEvent
        (command.NewOrgWriteModel orgID)).State <;>
      cases hp : es.Push [⟨orgID, .OrgReactivatedEvent⟩] <;>
      simp [command.OrgWriteModel.exists, hs, hp]
  · simp only [command.ReactivateOrg, hwm]
    cases hs : (events.foldl command.OrgWriteModel.reduceEvent
        (command.NewOrgWriteModel orgID)).State <;>
      cases hp : es.Push [⟨orgID, .OrgReactivatedEvent⟩] <;>
      simp [command.OrgWriteModel.exists, hs, hp]
  · intro hs
    refine ⟨errors.ThrowPreconditionFailed none "" "Errors.Org.AlreadyDeactivated",
      ?_, rfl, ?_⟩ <;>
      simp [command.DeactivateOrg, hwm, command.OrgWriteModel.exists, hs]
  · intro hs
    refine ⟨errors.ThrowPreconditionFailed none "" "Errors.Org.AlreadyActive",
      ?_, rfl, ?_⟩ <;>
      simp [command.ReactivateOrg, hwm, command.OrgWriteModel.exists, hs]
  · intro hnil
    subst hnil
    constructor
    · refine ⟨errors.ThrowNotFound none "" "Errors.Org.NotFound", ?_, rfl, ?_⟩ <;>
        simp [command.DeactivateOrg, command.getOrgWriteModelByID, hfilter,
          command.OrgWriteModel.exists, command.NewOrgWriteModel]
    · refine ⟨errors.ThrowNotFound none "" "Errors.Org.NotFound", ?_, rfl, ?_⟩ <;>
        simp [command.ReactivateOrg, command.getOrgWriteModelByID, hfilter,
          command.OrgWriteModel.exists, command.NewOrgWriteModel]
  · intro _
    simp [List.foldl_append, command.OrgWriteModel.reduceEvent]
  · intro _
    simp [List.foldl_append, command.OrgWriteModel.reduceEvent]

/-- C20 witness: on the event store of the command tests the active org `org1` is deactivated
by the push of one org-deactivated event, and the inactive org `org3` cannot be
deactivated. -/
theorem Org_activation_state_machine_witness :
    (∃ r, (command.DeactivateOrg sample.orgStore "org1").result = .ok r) ∧
    (command.DeactivateOrg sample.orgStore "org1").calls
      = [.Filter "org1", .Push [⟨"org1", .OrgDeactivatedEvent⟩]] ∧
    (∃ err, (command.DeactivateOrg sample.orgStore "org3").result = .error err ∧
      errors.kindOf err = some .PreconditionFailed ∧
      (command.DeactivateOrg sample.orgStore "org3").calls = [.Filter "org3"]) :=
  ⟨(Org_activation_state_machine sample.orgStore "org1" [.OrgAddedEvent "org"] rfl).1.2
      ⟨rfl, rfl⟩,
    (Org_activation_state_machine sample.orgStore "org1" [.OrgAddedEvent "org"] rfl).2.1
      ((Org_activation_state_machine sample.orgStore "org1" [.OrgAddedEvent "org"] rfl).1.2
        ⟨rfl, rfl⟩),
    (Org_activation_state_machine sample.orgStore "org3"
      [.OrgAddedEvent "org", .OrgDeactivatedEvent] rfl).2.2.2.2.1 rfl⟩

/-! ### Sessions -/

/-- C19: `CreateSession` with a Password check and no User check fails with
FailedPrecondition (PreconditionFailed), whatever the password and the server state, and
leaves the server as it was: no event is emitted and no session is created. -/
theorem CreateSession_password_without_user (c : session.Collaborators)
    (server : session.Server) (password : String) :
    ∃ err, session.CreateSession c server ⟨none, some password⟩ = (server, .error err) ∧
      errors.kindOf err = some .PreconditionFailed ∧
      (session.CreateSession c server ⟨none, some password⟩).1.events = server.events ∧
      ∀ id, session.writeModelOf
          (session.CreateSession c server ⟨none, some password⟩).1 id
        = session.writeModelOf server id := by
  have h : session.CreateSession c server ⟨none, some password⟩
      = (server, .error (errors.ThrowPreconditionFailed none "" "Errors.User.UserIDMissing")) := by
    simp [session.CreateSession, session.checkEvents, session.NewWriteModel]
  refine ⟨_, h, rfl, ?_, ?_⟩
  · rw [h]
  · intro id
    rw [h]

/-- C19 witness: the request of the integration test, a Password check with the password
`Difficult` and no User check, on the initial server. -/
theorem CreateSession_password_without_user_witness :
    ∃ err, session.CreateSession sample.collaborators session.Server.init
        ⟨none, some "Difficult"⟩ = (session.Server.init, .error err) ∧
      errors.kindOf err = some .PreconditionFailed :=
  match CreateSession_password_without_user sample.collaborators session.Server.init
      "Difficult" with
  | ⟨err, h, hk, _⟩ => ⟨err, h, hk⟩

/-! ### Payloads without the string member -/

/-- C21: the payload helpers are not total. For every payload that decodes to a map in which
the member read by the helper (`userAgentID`, `tokenId`) is missing or is not a string, the
unchecked type assertion panics: `agentIDFromSession`, `tokenIDFromRemovedEvent` and
`refreshTokenIDFromRemovedEvent` return neither an identifier nor an error. With the sample
syntax this happens for the payload `null`, for the empty object and for an object whose
member is the number 5, and `Token.Reduce` passes the panic on for a signed-out, a
token-removed and a refresh-token-removed event. -/
theorem payload_helpers_panic_without_string_member :
    (∀ (p : Packages) (event : eventstore.Event) (members : List (String × json.Value)),
      json.unmarshalMap p.jsonParse event.DataAsBytes = .ok members →
      (json.assertString (json.mapIndex members "userAgentID") = none →
        agentIDFromSession p event = .panic) ∧
      (json.assertString (json.mapIndex members "tokenId") = none →
        tokenIDFromRemovedEvent p event = .panic ∧
        refreshTokenIDFromRemovedEvent p event = .panic)) ∧
    (agentIDFromSession sample.packagesNumbers
        (sample.eventOf "user" "user1" "user.human.signed.out" (sample.bytes "null")) = .panic ∧
      tokenIDFromRemovedEvent sample.packagesNumbers
        (sample.eventOf "user" "user1" "user.token.removed" (sample.bytes "null")) = .panic ∧
      refreshTokenIDFromRemovedEvent sample.packagesNumbers
        (sample.eventOf "user" "user1" "user.human.refresh.token.removed"
          (sample.bytes "null")) = .panic) ∧
    (agentIDFromSession sample.packagesNumbers
        (sample.eventOf "user" "user1" "user.human.signed.out" (sample.bytes "\x7b\x7d"))
        = .panic ∧
      tokenIDFromRemovedEvent sample.packagesNumbers
        (sample.eventOf "user" "user1" "user.token.removed" (sample.bytes "\x7b\x7d"))
        = .panic ∧
      refreshTokenIDFromRemovedEvent sample.packagesNumbers
        (sample.eventOf "user" "user1" "user.human.refresh.token.removed"
          (sample.bytes "\x7b\x7d")) = .panic) ∧
    (agentIDFromSession sample.packagesNumbers
        (sample.eventOf "user" "user1" "user.human.signed.out"
          (sample.bytes "\x7b\"userAgentID\":5\x7d")) = .panic ∧
      tokenIDFromRemovedEvent sample.packagesNumbers
        (sample.eventOf "user" "user1" "user.token.removed"
          (sample.bytes "\x7b\"tokenId\":5\x7d")) = .panic ∧
      refreshTokenIDFromRemovedEvent sample.packagesNumbers
        (sample.eventOf "user" "user1" "user.human.refresh.token.removed"
          (sample.bytes "\x7b\"tokenId\":5\x7d")) = .panic) ∧
    ((Token.Reduce sample.packagesNumbers sample.token
        (sample.eventOf "user" "user1" "user.human.signed.out" (sample.bytes "\x7b\x7d"))).out
        = .panic ∧
      (Token.Reduce sample.packagesNumbers sample.token
        (sample.eventOf "user" "user1" "user.token.removed" (sample.bytes "null"))).out
        = .panic ∧
      (Token.Reduce sample.packagesNumbers sample.token
        (sample.eventOf "user" "user1" "user.human.refresh.token.removed"
          (sample.bytes "\x7b\"tokenId\":5\x7d"))).out = .panic) ∧
    ((sample.packagesNumbers.userAggregateType, "user.human.signed.out")
        ∈ Token.registered sample.packagesNumbers sample.token ∧
      (sample.packagesNumbers.userAggregateType, "user.token.removed")
        ∈ Token.registered sample.packagesNumbers sample.token ∧
      (sample.packagesNumbers.userAggregateType, "user.human.refresh.token.removed")
        ∈ Token.registered sample.packagesNumbers sample.token) := by
  refine ⟨?_, ⟨rfl, rfl, rfl⟩, ⟨rfl, rfl, rfl⟩, ⟨rfl, rfl, rfl⟩, ⟨rfl, rfl, rfl⟩,
    ⟨by decide, by decide, by decide⟩⟩
  intro p event members hmap
  refine ⟨?_, ?_⟩
  · intro h
    simp [agentIDFromSession, hmap, h]
  · intro h
    simp [tokenIDFromRemovedEvent, refreshTokenIDFromRemovedEvent, hmap, h]

/-! ### Project not found -/

/-- C22: for a project-deactivated or project-removed event whose query is built: when the
filter of the event store returns no events, the rebuilt project has sequence 0,
`getProjectByID` returns the NotFound error `EVENT-Dsdw2` and `Reduce` returns that error
and no statement (the same holds whenever the rebuilt project has sequence 0); an error of
the filter and an error of applying the events are returned unchanged by `getProjectByID`
and by `Reduce`, with no statement. -/
theorem Reduce_project_not_found (p : Packages) (t : Token) (event : eventstore.Event)
    (query : es_models.SearchQuery)
    (h : event.Typ = p.ProjectDeactivatedType ∨ event.Typ = p.ProjectRemovedType)
    (hquery : p.ProjectByIDQuery event.Aggregate.ID event.Aggregate.InstanceID 0 = .ok query) :
    (t.es.Filter query = .ok [] →
      AppendEvents p
        { AggregateID := event.Aggregate.ID, Sequence := 0, ResourceOwner := "",
          InstanceID := "", Name := "", Applications := [] } []
        = .ok { AggregateID := event.Aggregate.ID, Sequence := 0, ResourceOwner := "",
                InstanceID := "", Name := "", Applications := [] } ∧
      Token.getProjectByID p t event.Aggregate.ID event.Aggregate.InstanceID
        = ([.esFilter query],
            .error (errors.ThrowNotFound none "EVENT-Dsdw2" "Errors.Project.NotFound")) ∧
      Token.Reduce p t event
        = ⟨[.esFilter query],
            .err (errors.ThrowNotFound none "EVENT-Dsdw2" "Errors.Project.NotFound")⟩) ∧
    (∀ events esProject, t.es.Filter query = .ok events →
      AppendEvents p
        { AggregateID := event.Aggregate.ID, Sequence := 0, ResourceOwner := "",
          InstanceID := "", Name := "", Applications := [] } events = .ok esProject →
      esProject.Sequence = 0 →
      Token.Reduce p t event
        = ⟨[.esFilter query],
            .err (errors.ThrowNotFound none "EVENT-Dsdw2" "Errors.Project.NotFound")⟩) ∧
    errors.IsNotFound (errors.ThrowNotFound none "EVENT-Dsdw2" "Errors.Project.NotFound")
      = true ∧
    (∀ err, t.es.Filter query = .error err →
      Token.getProjectByID p t event.Aggregate.ID event.Aggregate.InstanceID
        = ([.esFilter query], .error err) ∧
      Token.Reduce p t event = ⟨[.esFilter query], .err err⟩) ∧
    (∀ events err, t.es.Filter query = .ok events →
      AppendEvents p
        { AggregateID := event.Aggregate.ID, Sequence := 0, ResourceOwner := "",
          InstanceID := "", Name := "", Applications := [] } events = .error err →
      Token.getProjectByID p t event.Aggregate.ID event.Aggregate.InstanceID
        = ([.esFilter query], .error err) ∧
      Token.Reduce p t event = ⟨[.esFilter query], .err err⟩) := by
  refine ⟨?_, ?_, rfl, ?_, ?_⟩
  · intro hfilter
    refine ⟨rfl, ?_, ?_⟩
    · simp [Token.getProjectByID, hquery, hfilter, AppendEvents]
    · rw [Reduce_case_project p t event h]
      simp [Token.getProjectByID, hquery, hfilter, AppendEvents]
  · intro events esProject hfilter happend hzero
    rw [Reduce_case_project p t event h]
    simp [Token.getProjectByID, hquery, hfilter, happend, hzero]
  · intro err hfilter
    refine ⟨?_, ?_⟩
    · simp [Token.getProjectByID, hquery, hfilter]
    · rw [Reduce_case_project p t event h]
      simp [Token.getProjectByID, hquery, hfilter]
  · intro events err hfilter happend
    refine ⟨?_, ?_⟩
    · simp [Token.getProjectByID, hquery, hfilter, happend]
    · rw [Reduce_case_project p t event h]
      simp [Token.getProjectByID, hquery, hfilter, happend]

/-- C22 witness: the sample event store holds no event for project `proj2`, so the removal
of `proj2` is answered with NotFound; for project `down` the filter fails and its error is
returned. -/
theorem Reduce_project_not_found_witness :
    Token.Reduce sample.packages sample.token
        (sample.eventOf "project" "proj2" "project.removed" [])
      = ⟨[.esFilter ⟨["project"], "proj2", "inst1", 0⟩],
          .err (errors.ThrowNotFound none "EVENT-Dsdw2" "Errors.Project.NotFound")⟩ ∧
    Token.Reduce sample.packages sample.tokenFailing
        (sample.eventOf "project" "down" "project.deactivated" [])
      = ⟨[.esFilter ⟨["project"], "down", "inst1", 0⟩],
          .err (.foreign "connection refused")⟩ :=
  ⟨((Reduce_project_not_found sample.packages sample.token
      (sample.eventOf "project" "proj2" "project.removed" [])
      ⟨["project"], "proj2", "inst1", 0⟩ (Or.inr rfl) rfl).1 rfl).2.2,
    ((Reduce_project_not_found sample.packages sample.tokenFailing
      (sample.eventOf "project" "down" "project.deactivated" [])
      ⟨["project"], "down", "inst1", 0⟩ (Or.inl rfl) rfl).2.2.2.1
      (.foreign "connection refused") rfl).2⟩

/-! ### Registered types and the cases of the switch -/

/-- For an event whose type is one of the case constants of the switch, a statement that
`Reduce` returns carries a closure: it is not the no-op statement of the default branch. -/
theorem Reduce_case_not_default (p : Packages) (t : Token) (event : eventstore.Event)
    (h : event.Typ ∈ p.switchTypes) :
    ∀ s, (Token.Reduce p t event).out = .ok s → ∃ e, s = NewStatement event e := by
  simp only [Packages.switchTypes, List.mem_cons, List.mem_singleton, List.not_mem_nil,
    or_false] at h
  intro s hs
  rcases h with h | h | h | h | h | h | h | h | h | h | h | h | h | h | h | h | h | h
  · rw [Reduce_case_tokenAdded p t event (Or.inl h)] at hs
    split at hs <;> simp at hs
    exact ⟨_, hs.symm⟩
  · rw [Reduce_case_tokenAdded p t event (Or.inr h)] at hs
    split at hs <;> simp at hs
    exact ⟨_, hs.symm⟩
  · rw [Reduce_case_profileChanged p t event (Or.inl h)] at hs
    split at hs
    · simp at hs
    · split at hs <;> simp at hs
      exact ⟨_, hs.symm⟩
  · rw [Reduce_case_profileChanged p t event (Or.inr h)] at hs
    split at hs
    · simp at hs
    · split at hs <;> simp at hs
      exact ⟨_, hs.symm⟩
  · rw [Reduce_case_signedOut p t event (Or.inl h)] at hs
    split at hs <;> simp at hs
    exact ⟨_, hs.symm⟩
  · rw [Reduce_case_signedOut p t event (Or.inr h)] at hs
    split at hs <;> simp at hs
    exact ⟨_, hs.symm⟩
  · rw [Reduce_case_userGone p t event (Or.inl h)] at hs
    simp at hs
    exact ⟨_, hs.symm⟩
  · rw [Reduce_case_userGone p t event (Or.inr (Or.inl h))] at hs
    simp at hs
    exact ⟨_, hs.symm⟩
  · rw [Reduce_case_userGone p t event (Or.inr (Or.inr h))] at hs
    simp at hs
    exact ⟨_, hs.symm⟩
  · rw [Reduce_case_tokenRemoved p t event (Or.inl h)] at hs
    split at hs <;> simp at hs
    exact ⟨_, hs.symm⟩
  · rw [Reduce_case_tokenRemoved p t event (Or.inr h)] at hs
    split at hs <;> simp at hs
    exact ⟨_, hs.symm⟩
  · rw [Reduce_case_refreshTokenRemoved p t event h] at hs
    split at hs <;> simp at hs
    exact ⟨_, hs.symm⟩
  · rw [Reduce_case_application p t event (Or.inl h)] at hs
    split at hs <;> simp at hs
    exact ⟨_, hs.symm⟩
  · rw [Reduce_case_application p t event (Or.inr h)] at hs
    split at hs <;> simp at hs
    exact ⟨_, hs.symm⟩
  · rw [Reduce_case_project p t event (Or.inl h)] at hs
    split at hs <;> simp at hs
    exact ⟨_, hs.symm⟩
  · rw [Reduce_case_project p t event (Or.inr h)] at hs
    split at hs <;> simp at hs
    exact ⟨_, hs.symm⟩
  · rw [Reduce_case_instanceRemoved p t event h] at hs
    simp at hs
    exact ⟨_, hs.symm⟩
  · rw [Reduce_case_orgRemoved p t event h] at hs
    simp at hs
    exact ⟨_, hs.symm⟩

/-- C27: every event type registered in `Token.Reducers` is one of the case constants of the
switch of `Token.Reduce`, and the registered function is `Token.Reduce`; so for an event of
a registered type `Reduce` does not take the default branch: a statement it returns carries a
closure and is never the no-op statement, whatever the payload. -/
theorem Reducers_types_have_cases (p : Packages) (t : Token) :
    (∀ entry ∈ Token.registered p t, entry.2 ∈ p.switchTypes) ∧
    (∀ ar ∈ Token.Reducers p t, ∀ er ∈ ar.EventRedusers, er.Reduce = Token.Reduce p t) ∧
    (∀ (event : eventstore.Event) (aggregate : eventstore.AggregateType),
      (aggregate, event.Typ) ∈ Token.registered p t →
      Token.Reduce p t event ≠ ⟨[], .ok (NewNoOpStatement event)⟩ ∧
      ∀ s, (Token.Reduce p t event).out = .ok s →
        s.Execute ≠ none ∧ s ≠ NewNoOpStatement event) := by
  have hreg : ∀ entry ∈ Token.registered p t, entry.2 ∈ p.switchTypes := by
    intro entry hentry
    simp only [Token.registered, Token.Reducers, List.flatMap_cons, List.flatMap_nil,
      List.map_cons, List.map_nil, List.cons_append, List.nil_append, List.append_nil,
      List.mem_cons, List.mem_singleton, List.not_mem_nil, or_false] at hentry
    rcases hentry with h | h | h | h | h | h | h | h | h | h | h | h | h | h | h | h | h <;>
      simp [h, Packages.switchTypes]
  refine ⟨hreg, ?_, ?_⟩
  · simp [Token.Reducers]
  · intro event aggregate hmem
    have hcase := Reduce_case_not_default p t event (hreg _ hmem)
    have hstmt : ∀ s, (Token.Reduce p t event).out = .ok s →
        s.Execute ≠ none ∧ s ≠ NewNoOpStatement event := by
      intro s hs
      obtain ⟨e, he⟩ := hcase s hs
      subst he
      simp [NewStatement, NewNoOpStatement]
    refine ⟨?_, hstmt⟩
    intro heq
    exact (hstmt (NewNoOpStatement event) (by rw [heq])).2 rfl

/-- C27 witness: the registered type project-removed on the sample projection: the statement
that `Reduce` returns for the project `proj1` is not the no-op statement. -/
theorem Reducers_types_have_cases_witness :
    ("project", (sample.eventOf "project" "proj1" "project.removed" []).Typ)
      ∈ Token.registered sample.packages sample.token ∧
    Token.Reduce sample.packages sample.token
        (sample.eventOf "project" "proj1" "project.removed" [])
      ≠ ⟨[], .ok (NewNoOpStatement (sample.eventOf "project" "proj1" "project.removed" []))⟩ :=
  ⟨by decide,
    ((Reducers_types_have_cases sample.packages sample.token).2.2
      (sample.eventOf "project" "proj1" "project.removed" []) "project" (by decide)).1⟩

/-! ### OTP write models: the last event decides -/

/-- A fold whose step either sets a field to a value fixed by the event or leaves the field
alone: after the fold the field is the value of the last selected event, and the field
before the fold when no event is selected. -/
theorem fold_last_selected {σ E β : Type} (f : σ → E → σ) (field : σ → β) (sel : E → Bool)
    (val : E → β) (h : ∀ s e, field (f s e) = if sel e = true then val e else field s)
    (es : List E) (s : σ) :
    field (es.foldl f s) = ((es.reverse.find? sel).map val).getD (field s) := by
  induction es using List.reverseRecOn with
  | nil => rfl
  | append_singleton l a ih =>
    rw [List.foldl_append, List.reverse_append]
    simp only [List.foldl_cons, List.foldl_nil, List.reverse_singleton, List.singleton_append,
      List.find?_cons]
    rw [h]
    cases hs : sel a <;> simp [ih]

/-- Folding the same list a second time changes no field that the last selected event
decides. -/
theorem fold_twice_selected {σ E β : Type} (f : σ → E → σ) (field : σ → β) (sel : E → Bool)
    (val : E → β) (h : ∀ s e, field (f s e) = if sel e = true then val e else field s)
    (es : List E) (s : σ) :
    field (es.foldl f (es.foldl f s)) = field (es.foldl f s) := by
  rw [fold_last_selected f field sel val h es (es.foldl f s),
    fold_last_selected f field sel val h es s]
  cases (es.reverse.find? sel) <;> simp

/-- The State of the TOTP write model after one event. -/
theorem totp_step_State (s : command.HumanTOTPWriteModel) (e : user.Event) :
    (command.HumanTOTPWriteModel.reduceEvent s e).State
      = if command.HumanTOTPWriteModel.named e = true then
          (match e with
            | .HumanOTPAddedEvent _ => domain.MFAState.MFAStateNotReady
            | .HumanOTPVerifiedEvent => domain.MFAState.MFAStateReady
            | _ => domain.MFAState.MFAStateRemoved)
        else s.State := by
  cases e <;> rfl

/-- The Secret of the TOTP write model after one event. -/
theorem totp_step_Secret (s : command.HumanTOTPWriteModel) (e : user.Event) :
    (command.HumanTOTPWriteModel.reduceEvent s e).Secret
      = if command.isHumanOTPAddedEvent e = true then
          (match e with
            | .HumanOTPAddedEvent secret => secret
            | _ => none)
        else s.Secret := by
  cases e <;> rfl

/-- The otpAdded flag of the OTP-SMS write model after one event. -/
theorem sms_step_otpAdded (s : command.HumanOTPSMSWriteModel) (e : user.Event) :
    (command.HumanOTPSMSWriteModel.reduceEvent s e).otpAdded
      = if decide (e ∈ [user.Event.HumanOTPSMSAddedEvent, user.Event.HumanOTPSMSRemovedEvent,
            user.Event.HumanPhoneRemovedEvent, user.Event.UserRemovedEvent]) = true then
          decide (e = user.Event.HumanOTPSMSAddedEvent)
        else s.otpAdded := by
  cases e <;> simp [command.HumanOTPSMSWriteModel.reduceEvent]

/-- The phoneVerified flag of the OTP-SMS write model after one event. -/
theorem sms_step_phoneVerified (s : command.HumanOTPSMSWriteModel) (e : user.Event) :
    (command.HumanOTPSMSWriteModel.reduceEvent s e).phoneVerified
      = if decide (e ∈ [user.Event.HumanPhoneVerifiedEvent, user.Event.HumanPhoneRemovedEvent,
            user.Event.UserRemovedEvent]) = true then
          decide (e = user.Event.HumanPhoneVerifiedEvent)
        else s.phoneVerified := by
  cases e <;> simp [command.HumanOTPSMSWriteModel.reduceEvent]

/-- The otpAdded flag of the OTP-email write model after one event. -/
theorem email_step_otpAdded (s : command.HumanOTPEmailWriteModel) (e : user.Event) :
    (command.HumanOTPEmailWriteModel.reduceEvent s e).otpAdded
      = if decide (e ∈ [user.Event.HumanOTPEmailAddedEvent,
            user.Event.HumanOTPEmailRemovedEvent, user.Event.UserRemovedEvent]) = true then
          decide (e = user.Event.HumanOTPEmailAddedEvent)
        else s.otpAdded := by
  cases e <;> simp [command.HumanOTPEmailWriteModel.reduceEvent]

/-- The emailVerified flag of the OTP-email write model after one event. -/
theorem email_step_emailVerified (s : command.HumanOTPEmailWriteModel) (e : user.Event) :
    (command.HumanOTPEmailWriteModel.reduceEvent s e).emailVerified
      = if decide (e ∈ [user.Event.HumanEmailVerifiedEvent, user.Event.UserRemovedEvent])
            = true then
          decide (e = user.Event.HumanEmailVerifiedEvent)
        else s.emailVerified := by
  cases e <;> simp [command.HumanOTPEmailWriteModel.reduceEvent]

/-- The domain fields after `Reduce` of the TOTP write model are those after the loop. -/
theorem totp_Reduce_fields
    (base : eventstore.WriteModel → eventstore.WriteModel × Option GoError)
    (wm : command.HumanTOTPWriteModel) (events : List user.Event) :
    ((wm.withEvents events).Reduce base).1.State
      = (events.foldl command.HumanTOTPWriteModel.reduceEvent wm).State ∧
    ((wm.withEvents events).Reduce base).1.Secret
      = (events.foldl command.HumanTOTPWriteModel.reduceEvent wm).Secret := by
  simp only [command.HumanTOTPWriteModel.Reduce, command.HumanTOTPWriteModel.withEvents]
  exact totp_fold_congr events _ wm (by rfl) (by rfl)

/-- The flags after `Reduce` of the OTP-SMS write model are those after the loop. -/
theorem sms_Reduce_fields
    (base : eventstore.WriteModel → eventstore.WriteModel × Option GoError)
    (wm : command.HumanOTPSMSWriteModel) (events : List user.Event) :
    ((wm.withEvents events).Reduce base).1.phoneVerified
      = (events.foldl command.HumanOTPSMSWriteModel.reduceEvent wm).phoneVerified ∧
    ((wm.withEvents events).Reduce base).1.otpAdded
      = (events.foldl command.HumanOTPSMSWriteModel.reduceEvent wm).otpAdded := by
  simp only [command.HumanOTPSMSWriteModel.Reduce, command.HumanOTPSMSWriteModel.withEvents]
  exact sms_fold_congr events _ wm (by rfl) (by rfl)

/-- The flags after `Reduce` of the OTP-email write model are those after the loop. -/
theorem email_Reduce_fields
    (base : eventstore.WriteModel → eventstore.WriteModel × Option GoError)
    (wm : command.HumanOTPEmailWriteModel) (events : List user.Event) :
    ((wm.withEvents events).Reduce base).1.emailVerified
      = (events.foldl command.HumanOTPEmailWriteModel.reduceEvent wm).emailVerified ∧
    ((wm.withEvents events).Reduce base).1.otpAdded
      = (events.foldl command.HumanOTPEmailWriteModel.reduceEvent wm).otpAdded := by
  simp only [command.HumanOTPEmailWriteModel.Reduce,
    command.HumanOTPEmailWriteModel.withEvents]
  exact email_fold_congr events _ wm (by rfl) (by rfl)

/-- C23: after `Reduce` of the TOTP write model, State is decided by the last event of the
list among OTP-added (`MFAStateNotReady`), OTP-verified (`MFAStateReady`), OTP-removed and
user-removed (`MFAStateRemoved`), and is the State before the call when the list holds none of
them; a list that ends in OTP-verified gives `MFAStateReady` whatever the state before;
Secret is the secret of the last OTP-added event, the Secret before the call when there is
none, and an OTP-verified, OTP-removed or user-removed event that follows leaves it as it
is. -/
theorem TOTP_Reduce_last_event
    (base : eventstore.WriteModel → eventstore.WriteModel × Option GoError)
    (wm : command.HumanTOTPWriteModel) (events : List user.Event) :
    ((wm.withEvents events).Reduce base).1.State
      = (match command.lastAmong command.HumanTOTPWriteModel.named events with
          | some (.HumanOTPAddedEvent _) => .MFAStateNotReady
          | some .HumanOTPVerifiedEvent => .MFAStateReady
          | some .HumanOTPRemovedEvent => .MFAStateRemoved
          | some .UserRemovedEvent => .MFAStateRemoved
          | _ => wm.State) ∧
    ((wm.withEvents events).Reduce base).1.Secret
      = (match command.lastAmong command.isHumanOTPAddedEvent events with
          | some (.HumanOTPAddedEvent secret) => secret
          | _ => wm.Secret) ∧
    (command.lastAmong command.HumanTOTPWriteModel.named events = none
      ↔ ∀ e ∈ events, command.HumanTOTPWriteModel.named e = false) ∧
    (command.lastAmong command.isHumanOTPAddedEvent events = none
      ↔ ∀ e ∈ events, command.isHumanOTPAddedEvent e = false) ∧
    ((wm.withEvents (events ++ [.HumanOTPVerifiedEvent])).Reduce base).1.State
      = .MFAStateReady ∧
    ((wm.withEvents (events ++ [.HumanOTPVerifiedEvent])).Reduce base).1.Secret
      = ((wm.withEvents events).Reduce base).1.Secret ∧
    ((wm.withEvents (events ++ [.HumanOTPRemovedEvent])).Reduce base).1.Secret
      = ((wm.withEvents events).Reduce base).1.Secret ∧
    ((wm.withEvents (events ++ [.UserRemovedEvent])).Reduce base).1.Secret
      = ((wm.withEvents events).Reduce base).1.Secret := by
  refine ⟨?_, ?_, ?_, ?_, ?_, ?_, ?_, ?_⟩
  · rw [(totp_Reduce_fields base wm events).1,
      fold_last_selected command.HumanTOTPWriteModel.reduceEvent (fun s => s.State)
        command.HumanTOTPWriteModel.named _ totp_step_State events wm]
    unfold command.lastAmong
    cases hfind : events.reverse.find? command.HumanTOTPWriteModel.named with
    | none => rfl
    | some e =>
      have hsel := List.find?_some hfind
      cases e <;> first | rfl | (simp [command.HumanTOTPWriteModel.named] at hsel)
  · rw [(totp_Reduce_fields base wm events).2,
      fold_last_selected command.HumanTOTPWriteModel.reduceEvent (fun s => s.Secret)
        command.isHumanOTPAddedEvent _ totp_step_Secret events wm]
    unfold command.lastAmong
    cases hfind : events.reverse.find? command.isHumanOTPAddedEvent with
    | none => rfl
    | some e =>
      have hsel := List.find?_some hfind
      cases e <;> first | rfl | (simp [command.isHumanOTPAddedEvent] at hsel)
  · simp [command.lastAmong]
  · simp [command.lastAmong]
  · rw [(totp_Reduce_fields base wm _).1, List.foldl_append]
    rfl
  · rw [(totp_Reduce_fields base wm _).2, (totp_Reduce_fields base wm events).2,
      List.foldl_append]
    rfl
  · rw [(totp_Reduce_fields base wm _).2, (totp_Reduce_fields base wm events).2,
      List.foldl_append]
    rfl
  · rw [(totp_Reduce_fields base wm _).2, (totp_Reduce_fields base wm events).2,
      List.foldl_append]
    rfl

/-- C23 witness: a removed model with an old secret, reduced over added, verified, removed,
added with a new secret, an unrelated event and verified: it ends ready with the new
secret. -/
theorem TOTP_Reduce_last_event_witness :
    (((⟨⟨"user1", 3, [], "org1", ""⟩, .MFAStateRemoved, some ⟨0, "enc", "id", [1]⟩⟩ :
        command.HumanTOTPWriteModel).withEvents
        [.HumanOTPAddedEvent (some ⟨0, "enc", "id", [2]⟩), .HumanOTPVerifiedEvent,
          .HumanOTPRemovedEvent, .HumanOTPAddedEvent (some ⟨0, "enc", "id", [3]⟩),
          .other "user.locked", .HumanOTPVerifiedEvent]).Reduce sample.baseReduce).1.State
      = .MFAStateReady ∧
    (((⟨⟨"user1", 3, [], "org1", ""⟩, .MFAStateRemoved, some ⟨0, "enc", "id", [1]⟩⟩ :
        command.HumanTOTPWriteModel).withEvents
        [.HumanOTPAddedEvent (some ⟨0, "enc", "id", [2]⟩), .HumanOTPVerifiedEvent,
          .HumanOTPRemovedEvent, .HumanOTPAddedEvent (some ⟨0, "enc", "id", [3]⟩),
          .other "user.locked", .HumanOTPVerifiedEvent]).Reduce sample.baseReduce).1.Secret
      = some ⟨0, "enc", "id", [3]⟩ :=
  ⟨(TOTP_Reduce_last_event sample.baseReduce
      ⟨⟨"user1", 3, [], "org1", ""⟩, .MFAStateRemoved, some ⟨0, "enc", "id", [1]⟩⟩
      [.HumanOTPAddedEvent (some ⟨0, "enc", "id", [2]⟩), .HumanOTPVerifiedEvent,
        .HumanOTPRemovedEvent, .HumanOTPAddedEvent (some ⟨0, "enc", "id", [3]⟩),
        .other "user.locked", .HumanOTPVerifiedEvent]).1,
    (TOTP_Reduce_last_event sample.baseReduce
      ⟨⟨"user1", 3, [], "org1", ""⟩, .MFAStateRemoved, some ⟨0, "enc", "id", [1]⟩⟩
      [.HumanOTPAddedEvent (some ⟨0, "enc", "id", [2]⟩), .HumanOTPVerifiedEvent,
        .HumanOTPRemovedEvent, .HumanOTPAddedEvent (some ⟨0, "enc", "id", [3]⟩),
        .other "user.locked", .HumanOTPVerifiedEvent]).2.1⟩

/-- C25: after `Reduce` of the OTP-SMS write model, otpAdded is true exactly when the last
event of the list among OTP-SMS-added, OTP-SMS-removed, phone-removed and user-removed is
OTP-SMS-added, and phoneVerified is true exactly when the last event among phone-verified,
phone-removed and user-removed is phone-verified; a flag keeps its value from before the call
when the list holds no event of its set. A list that ends in phone-removed clears both
flags; one that ends in OTP-SMS-removed clears otpAdded and leaves phoneVerified as the
events before it gave. -/
theorem OTPSMS_Reduce_last_event
    (base : eventstore.WriteModel → eventstore.WriteModel × Option GoError)
    (wm : command.HumanOTPSMSWriteModel) (events : List user.Event) :
    (((wm.withEvents events).Reduce base).1.otpAdded = true ↔
      (match command.lastAmong
          (fun e => decide (e ∈ [user.Event.HumanOTPSMSAddedEvent,
            user.Event.HumanOTPSMSRemovedEvent, user.Event.HumanPhoneRemovedEvent,
            user.Event.UserRemovedEvent])) events with
        | some e => e = user.Event.HumanOTPSMSAddedEvent
        | none => wm.otpAdded = true)) ∧
    (((wm.withEvents events).Reduce base).1.phoneVerified = true ↔
      (match command.lastAmong
          (fun e => decide (e ∈ [user.Event.HumanPhoneVerifiedEvent,
            user.Event.HumanPhoneRemovedEvent, user.Event.UserRemovedEvent])) events with
        | some e => e = user.Event.HumanPhoneVerifiedEvent
        | none => wm.phoneVerified = true)) ∧
    ((wm.withEvents (events ++ [.HumanPhoneRemovedEvent])).Reduce base).1.otpAdded = false ∧
    ((wm.withEvents (events ++ [.HumanPhoneRemovedEvent])).Reduce base).1.phoneVerified
      = false ∧
    ((wm.withEvents (events ++ [.HumanOTPSMSRemovedEvent])).Reduce base).1.otpAdded = false ∧
    ((wm.withEvents (events ++ [.HumanOTPSMSRemovedEvent])).Reduce base).1.phoneVerified
      = ((wm.withEvents events).Reduce base).1.phoneVerified := by
  refine ⟨?_, ?_, ?_, ?_, ?_, ?_⟩
  · rw [(sms_Reduce_fields base wm events).2,
      fold_last_selected command.HumanOTPSMSWriteModel.reduceEvent (fun s => s.otpAdded)
        _ _ sms_step_otpAdded events wm]
    unfold command.lastAmong
    cases events.reverse.find? (fun e => decide (e ∈ [user.Event.HumanOTPSMSAddedEvent,
            user.Event.HumanOTPSMSRemovedEvent, user.Event.HumanPhoneRemovedEvent,
            user.Event.UserRemovedEvent])) <;> simp
  · rw [(sms_Reduce_fields base wm events).1,
      fold_last_selected command.HumanOTPSMSWriteModel.reduceEvent (fun s => s.phoneVerified)
        _ _ sms_step_phoneVerified events wm]
    unfold command.lastAmong
    cases events.reverse.find? (fun e => decide (e ∈ [user.Event.HumanPhoneVerifiedEvent,
            user.Event.HumanPhoneRemovedEvent, user.Event.UserRemovedEvent])) <;> simp
  · rw [(sms_Reduce_fields base wm _).2, List.foldl_append]
    rfl
  · rw [(sms_Reduce_fields base wm _).1, List.foldl_append]
    rfl
  · rw [(sms_Reduce_fields base wm _).2, List.foldl_append]
    rfl
  · rw [(sms_Reduce_fields base wm _).1, (sms_Reduce_fields base wm events).1,
      List.foldl_append]
    rfl

/-- C25 witness: from the zero state, phone verified, OTP-SMS added, OTP-SMS removed, an
unrelated event: otpAdded is false and phoneVerified is true. -/
theorem OTPSMS_Reduce_last_event_witness :
    ¬ ((((command.NewHumanOTPSMSWriteModel "user1" "org1").withEvents
        [.HumanPhoneVerifiedEvent, .HumanOTPSMSAddedEvent, .HumanOTPSMSRemovedEvent,
          .other "user.locked"]).Reduce sample.baseReduce).1.otpAdded = true) ∧
    (((command.NewHumanOTPSMSWriteModel "user1" "org1").withEvents
        [.HumanPhoneVerifiedEvent, .HumanOTPSMSAddedEvent, .HumanOTPSMSRemovedEvent,
          .other "user.locked"]).Reduce sample.baseReduce).1.phoneVerified = true :=
  ⟨fun h => absurd
      ((OTPSMS_Reduce_last_event sample.baseReduce
        (command.NewHumanOTPSMSWriteModel "user1" "org1")
        [.HumanPhoneVerifiedEvent, .HumanOTPSMSAddedEvent, .HumanOTPSMSRemovedEvent,
          .other "user.locked"]).1.mp h) (by simp [command.lastAmong]),
    (OTPSMS_Reduce_last_event sample.baseReduce
      (command.NewHumanOTPSMSWriteModel "user1" "org1")
      [.HumanPhoneVerifiedEvent, .HumanOTPSMSAddedEvent, .HumanOTPSMSRemovedEvent,
        .other "user.locked"]).2.1.mpr (by simp [command.lastAmong])⟩

/-- C26: for every starting state and every list of events, reducing the list and then the
same list again leaves State and Secret of the TOTP write model, phoneVerified and otpAdded
of the OTP-SMS write model, and emailVerified and otpAdded of the OTP-email write model as
they were after the first reduction. -/
theorem OTP_Reduce_idempotent
    (base : eventstore.WriteModel → eventstore.WriteModel × Option GoError)
    (events : List user.Event) (totp : command.HumanTOTPWriteModel)
    (sms : command.HumanOTPSMSWriteModel) (email : command.HumanOTPEmailWriteModel) :
    (((((totp.withEvents events).Reduce base).1.withEvents events).Reduce base).1.State
        = ((totp.withEvents events).Reduce base).1.State ∧
      ((((totp.withEvents events).Reduce base).1.withEvents events).Reduce base).1.Secret
        = ((totp.withEvents events).Reduce base).1.Secret) ∧
    (((((sms.withEvents events).Reduce base).1.withEvents events).Reduce base).1.phoneVerified
        = ((sms.withEvents events).Reduce base).1.phoneVerified ∧
      ((((sms.withEvents events).Reduce base).1.withEvents events).Reduce base).1.otpAdded
        = ((sms.withEvents events).Reduce base).1.otpAdded) ∧
    (((((email.withEvents events).Reduce base).1.withEvents events).Reduce
          base).1.emailVerified
        = ((email.withEvents events).Reduce base).1.emailVerified ∧
      ((((email.withEvents events).Reduce base).1.withEvents events).Reduce base).1.otpAdded
        = ((email.withEvents events).Reduce base).1.otpAdded) := by
  refine ⟨⟨?_, ?_⟩, ⟨?_, ?_⟩, ⟨?_, ?_⟩⟩
  · rw [(totp_Reduce_fields base _ events).1,
      (totp_fold_congr events _ _ (totp_Reduce_fields base totp events).1
        (totp_Reduce_fields base totp events).2).1,
      (totp_Reduce_fields base totp events).1]
    exact fold_twice_selected command.HumanTOTPWriteModel.reduceEvent (fun s => s.State)
      _ _ totp_step_State events totp
  · rw [(totp_Reduce_fields base _ events).2,
      (totp_fold_congr events _ _ (totp_Reduce_fields base totp events).1
        (totp_Reduce_fields base totp events).2).2,
      (totp_Reduce_fields base totp events).2]
    exact fold_twice_selected command.HumanTOTPWriteModel.reduceEvent (fun s => s.Secret)
      _ _ totp_step_Secret events totp
  · rw [(sms_Reduce_fields base _ events).1,
      (sms_fold_congr events _ _ (sms_Reduce_fields base sms events).1
        (sms_Reduce_fields base sms events).2).1,
      (sms_Reduce_fields base sms events).1]
    exact fold_twice_selected command.HumanOTPSMSWriteModel.reduceEvent
      (fun s => s.phoneVerified) _ _ sms_step_phoneVerified events sms
  · rw [(sms_Reduce_fields base _ events).2,
      (sms_fold_congr events _ _ (sms_Reduce_fields base sms events).1
        (sms_Reduce_fields base sms events).2).2,
      (sms_Reduce_fields base sms events).2]
    exact fold_twice_selected command.HumanOTPSMSWriteModel.reduceEvent
      (fun s => s.otpAdded) _ _ sms_step_otpAdded events sms
  · rw [(email_Reduce_fields base _ events).1,
      (email_fold_congr events _ _ (email_Reduce_fields base email events).1
        (email_Reduce_fields base email events).2).1,
      (email_Reduce_fields base email events).1]
    exact fold_twice_selected command.HumanOTPEmailWriteModel.reduceEvent
      (fun s => s.emailVerified) _ _ email_step_emailVerified events email
  · rw [(email_Reduce_fields base _ events).2,
      (email_fold_congr events _ _ (email_Reduce_fields base email events).1
        (email_Reduce_fields base email events).2).2,
      (email_Reduce_fields base email events).2]
    exact fold_twice_selected command.HumanOTPEmailWriteModel.reduceEvent
      (fun s => s.otpAdded) _ _ email_step_otpAdded events email

/-- C26 witness: a ready TOTP model reduced twice over removed, added, verified is ready with
the added secret after the first and after the second reduction. -/
theorem OTP_Reduce_idempotent_witness :
    (((((⟨⟨"user1", 3, [], "org1", ""⟩, .MFAStateReady, none⟩ :
        command.HumanTOTPWriteModel).withEvents
        [.HumanOTPRemovedEvent, .HumanOTPAddedEvent (some ⟨0, "enc", "id", [2]⟩),
          .HumanOTPVerifiedEvent]).Reduce sample.baseReduce).1.withEvents
        [.HumanOTPRemovedEvent, .HumanOTPAddedEvent (some ⟨0, "enc", "id", [2]⟩),
          .HumanOTPVerifiedEvent]).Reduce sample.baseReduce).1.State
      = (((⟨⟨"user1", 3, [], "org1", ""⟩, .MFAStateReady, none⟩ :
        command.HumanTOTPWriteModel).withEvents
        [.HumanOTPRemovedEvent, .HumanOTPAddedEvent (some ⟨0, "enc", "id", [2]⟩),
          .HumanOTPVerifiedEvent]).Reduce sample.baseReduce).1.State ∧
    (((⟨⟨"user1", 3, [], "org1", ""⟩, .MFAStateReady, none⟩ :
        command.HumanTOTPWriteModel).withEvents
        [.HumanOTPRemovedEvent, .HumanOTPAddedEvent (some ⟨0, "enc", "id", [2]⟩),
          .HumanOTPVerifiedEvent]).Reduce sample.baseReduce).1.State = .MFAStateReady :=
  ⟨(OTP_Reduce_idempotent sample.baseReduce
      [.HumanOTPRemovedEvent, .HumanOTPAddedEvent (some ⟨0, "enc", "id", [2]⟩),
        .HumanOTPVerifiedEvent]
      ⟨⟨"user1", 3, [], "org1", ""⟩, .MFAStateReady, none⟩
      (command.NewHumanOTPSMSWriteModel "user1" "org1")
      (command.NewHumanOTPEmailWriteModel "user1" "org1")).1.1,
    by decide⟩

/-- C24: take a history in which every OTP-SMS-added event comes when the OTP-SMS write model,
started from its zero state and reduced over the events before it, has phoneVerified true.
Then after every prefix of the history otpAdded implies phoneVerified. The same holds for
the OTP-email write model with OTP-email-added and emailVerified. In both models an event
that clears the verified flag gives otpAdded false. -/
theorem OTP_added_implies_verified
    (base : eventstore.WriteModel → eventstore.WriteModel × Option GoError)
    (userID resourceOwner : String) (events : List user.Event) :
    ((∀ n, events[n]? = some user.Event.HumanOTPSMSAddedEvent →
        (((command.NewHumanOTPSMSWriteModel userID resourceOwner).withEvents
          (events.take n)).Reduce base).1.phoneVerified = true) →
      ∀ n,
        (((command.NewHumanOTPSMSWriteModel userID resourceOwner).withEvents
          (events.take n)).Reduce base).1.otpAdded = true →
        (((command.NewHumanOTPSMSWriteModel userID resourceOwner).withEvents
          (events.take n)).Reduce base).1.phoneVerified = true) ∧
    ((∀ n, events[n]? = some user.Event.HumanOTPEmailAddedEvent →
        (((command.NewHumanOTPEmailWriteModel userID resourceOwner).withEvents
          (events.take n)).Reduce base).1.emailVerified = true) →
      ∀ n,
        (((command.NewHumanOTPEmailWriteModel userID resourceOwner).withEvents
          (events.take n)).Reduce base).1.otpAdded = true →
        (((command.NewHumanOTPEmailWriteModel userID resourceOwner).withEvents
          (events.take n)).Reduce base).1.emailVerified = true) ∧
    (∀ (wm : command.HumanOTPSMSWriteModel) (event : user.Event),
      wm.phoneVerified = true →
      (command.HumanOTPSMSWriteModel.reduceEvent wm event).phoneVerified = false →
      (command.HumanOTPSMSWriteModel.reduceEvent wm event).otpAdded = false) ∧
    (∀ (wm : command.HumanOTPEmailWriteModel) (event : user.Event),
      wm.emailVerified = true →
      (command.HumanOTPEmailWriteModel.reduceEvent wm event).emailVerified = false →
      (command.HumanOTPEmailWriteModel.reduceEvent wm event).otpAdded = false) := by
  refine ⟨?_, ?_, ?_, ?_⟩
  · intro hadm n
    induction n with
    | zero =>
      intro h
      simp [command.HumanOTPSMSWriteModel.Reduce, command.HumanOTPSMSWriteModel.withEvents,
        command.NewHumanOTPSMSWriteModel] at h
    | succ n ih =>
      rw [List.take_succ]
      cases hget : events[n]? with
      | none => simpa using ih
      | some e =>
        have hadm1 := hadm n
        rw [hget, (sms_Reduce_fields base _ _).1] at hadm1
        rw [(sms_Reduce_fields base _ _).1, (sms_Reduce_fields base _ _).2] at ih
        simp only [Option.toList]
        rw [(sms_Reduce_fields base _ _).1, (sms_Reduce_fields base _ _).2, List.foldl_append]
        simp only [List.foldl_cons, List.foldl_nil]
        cases e <;> simp [command.HumanOTPSMSWriteModel.reduceEvent] <;>
          first | exact ih | exact hadm1 rfl
  · intro hadm n
    induction n with
    | zero =>
      intro h
      simp [command.HumanOTPEmailWriteModel.Reduce,
        command.HumanOTPEmailWriteModel.withEvents,
        command.NewHumanOTPEmailWriteModel] at h
    | succ n ih =>
      rw [List.take_succ]
      cases hget : events[n]? with
      | none => simpa using ih
      | some e =>
        have hadm1 := hadm n
        rw [hget, (email_Reduce_fields base _ _).1] at hadm1
        rw [(email_Reduce_fields base _ _).1, (email_Reduce_fields base _ _).2] at ih
        simp only [Option.toList]
        rw [(email_Reduce_fields base _ _).1, (email_Reduce_fields base _ _).2,
          List.foldl_append]
        simp only [List.foldl_cons, List.foldl_nil]
        cases e <;> simp [command.HumanOTPEmailWriteModel.reduceEvent] <;>
          first | exact ih | exact hadm1 rfl
  · intro wm event hv
    cases event <;> simp [command.HumanOTPSMSWriteModel.reduceEvent, hv]
  · intro wm event hv
    cases event <;> simp [command.HumanOTPEmailWriteModel.reduceEvent, hv]

/-- C24 witness: in the history phone verified, OTP-SMS added, phone removed, phone verified
the one OTP-SMS-added event (position 1) comes while the phone is verified; after the first
two events both flags are true, after the first three both are false. -/
theorem OTP_added_implies_verified_witness :
    ((((command.NewHumanOTPSMSWriteModel "user1" "org1").withEvents
        ([user.Event.HumanPhoneVerifiedEvent, .HumanOTPSMSAddedEvent, .HumanPhoneRemovedEvent,
          .HumanPhoneVerifiedEvent].take 2)).Reduce sample.baseReduce).1.otpAdded = true →
      (((command.NewHumanOTPSMSWriteModel "user1" "org1").withEvents
        ([user.Event.HumanPhoneVerifiedEvent, .HumanOTPSMSAddedEvent, .HumanPhoneRemovedEvent,
          .HumanPhoneVerifiedEvent].take 2)).Reduce sample.baseReduce).1.phoneVerified
        = true) ∧
    (((command.NewHumanOTPSMSWriteModel "user1" "org1").withEvents
        ([user.Event.HumanPhoneVerifiedEvent, .HumanOTPSMSAddedEvent, .HumanPhoneRemovedEvent,
          .HumanPhoneVerifiedEvent].take 2)).Reduce sample.baseReduce).1.otpAdded = true ∧
    (((command.NewHumanOTPSMSWriteModel "user1" "org1").withEvents
        ([user.Event.HumanPhoneVerifiedEvent, .HumanOTPSMSAddedEvent, .HumanPhoneRemovedEvent,
          .HumanPhoneVerifiedEvent].take 3)).Reduce sample.baseReduce).1.otpAdded = false :=
  ⟨(OTP_added_implies_verified sample.baseReduce "user1" "org1"
      [.HumanPhoneVerifiedEvent, .HumanOTPSMSAddedEvent, .HumanPhoneRemovedEvent,
        .HumanPhoneVerifiedEvent]).1
      (fun n h =>
        match n, h with
        | 0, h => by simp at h
        | 1, _ => by decide
        | 2, h => by simp at h
        | 3, h => by simp at h
        | n + 4, h => by simp at h)
      2,
    by decide, by decide⟩

/-! ### Events of the v1 event store -/

/-- C28: v1 `Event.Validate` returns nil exactly when the event is non-nil and its Typ,
AggregateID, AggregateType, Service, User and ResourceOwner are all non-empty; every error it
returns is PreconditionFailed, and it is the error of the first failing check in the order
nil event, type, aggregate id, aggregate type, editor service, editor user, resource owner;
InstanceID, Data, Seq and PreviousSequence do not influence the result. -/
theorem Validate_first_failing_check (e : Option models.Event) :
    (models.Event.Validate e = none ↔
      ∃ ev, e = some ev ∧ ev.Typ ≠ "" ∧ ev.AggregateID ≠ "" ∧ ev.AggregateType ≠ "" ∧
        ev.Service ≠ "" ∧ ev.User ≠ "" ∧ ev.ResourceOwner ≠ "") ∧
    (∀ err, models.Event.Validate e = some err →
      errors.kindOf err = some .PreconditionFailed) ∧
    (e = none →
      models.Event.Validate e
        = some (errors.ThrowPreconditionFailed none "MODEL-oEAG4" "event is nil")) ∧
    (∀ ev, e = some ev → ev.Typ = "" →
      models.Event.Validate e
        = some (errors.ThrowPreconditionFailed none "MODEL-R2sB0" "type not defined")) ∧
    (∀ ev, e = some ev → ev.Typ ≠ "" → ev.AggregateID = "" →
      models.Event.Validate e
        = some (errors.ThrowPreconditionFailed none "MODEL-A6WwL" "aggregate id not set")) ∧
    (∀ ev, e = some ev → ev.Typ ≠ "" → ev.AggregateID ≠ "" → ev.AggregateType = "" →
      models.Event.Validate e
        = some (errors.ThrowPreconditionFailed none "MODEL-EzdyK" "aggregate type not set")) ∧
    (∀ ev, e = some ev → ev.Typ ≠ "" → ev.AggregateID ≠ "" → ev.AggregateType ≠ "" →
      ev.Service = "" →
      models.Event.Validate e
        = some (errors.ThrowPreconditionFailed none "MODEL-4Yqik" "editor service not set")) ∧
    (∀ ev, e = some ev → ev.Typ ≠ "" → ev.AggregateID ≠ "" → ev.AggregateType ≠ "" →
      ev.Service ≠ "" → ev.User = "" →
      models.Event.Validate e
        = some (errors.ThrowPreconditionFailed none "MODEL-L3NHO" "editor user not set")) ∧
    (∀ ev, e = some ev → ev.Typ ≠ "" → ev.AggregateID ≠ "" → ev.AggregateType ≠ "" →
      ev.Service ≠ "" → ev.User ≠ "" → ev.ResourceOwner = "" →
      models.Event.Validate e
        = some (errors.ThrowPreconditionFailed none "MODEL-omFVT" "resource ow")) ∧
    (∀ ev (instanceID : String) (data : Bytes) (seq previousSequence : Nat), e = some ev →
      models.Event.Validate
          (some { ev with InstanceID := instanceID, Data := data, Seq := seq,
                          PreviousSequence := previousSequence })
        = models.Event.Validate e) := by
  refine ⟨?_, ?_, ?_, ?_, ?_, ?_, ?_, ?_, ?_, ?_⟩
  · cases e with
    | none => simp [models.Event.Validate]
    | some ev =>
      simp only [models.Event.Validate, Option.some.injEq, exists_eq_left']
      by_cases h1 : ev.Typ = "" <;> by_cases h2 : ev.AggregateID = "" <;>
        by_cases h3 : ev.AggregateType = "" <;> by_cases h4 : ev.Service = "" <;>
        by_cases h5 : ev.User = "" <;> by_cases h6 : ev.ResourceOwner = "" <;>
        simp [h1, h2, h3, h4, h5, h6]
  · intro err h
    cases e with
    | none =>
      simp only [models.Event.Validate, Option.some.injEq] at h
      subst h
      rfl
    | some ev =>
      simp only [models.Event.Validate] at h
      split_ifs at h <;> simp only [Option.some.injEq] at h <;> (subst h; rfl)
  · intro h
    subst h
    rfl
  · intro ev h h1
    subst h
    simp [models.Event.Validate, h1]
  · intro ev h h1 h2
    subst h
    simp [models.Event.Validate, h1, h2]
  · intro ev h h1 h2 h3
    subst h
    simp [models.Event.Validate, h1, h2, h3]
  · intro ev h h1 h2 h3 h4
    subst h
    simp [models.Event.Validate, h1, h2, h3, h4]
  · intro ev h h1 h2 h3 h4 h5
    subst h
    simp [models.Event.Validate, h1, h2, h3, h4, h5]
  · intro ev h h1 h2 h3 h4 h5 h6
    subst h
    simp [models.Event.Validate, h1, h2, h3, h4, h5, h6]
  · intro ev instanceID data seq previousSequence h
    subst h
    rfl

/-- C28 witness: the sample event is valid; without a service and a user it fails the check
of the editor service, whatever its instance id, data and sequences. -/
theorem Validate_first_failing_check_witness :
    models.Event.Validate (some sample.v1Event) = none ∧
    models.Event.Validate (some { sample.v1Event with Service := "", User := "" })
      = some (errors.ThrowPreconditionFailed none "MODEL-4Yqik" "editor service not set") ∧
    models.Event.Validate
        (some { ({ sample.v1Event with Service := "", User := "" } : models.Event) with
          InstanceID := "", Data := [], Seq := 0, PreviousSequence := 0 })
      = models.Event.Validate (some { sample.v1Event with Service := "", User := "" }) :=
  ⟨(Validate_first_failing_check (some sample.v1Event)).1.mpr
      ⟨sample.v1Event, rfl, by decide, by decide, by decide, by decide, by decide, by decide⟩,
    (Validate_first_failing_check
      (some { sample.v1Event with Service := "", User := "" })).2.2.2.2.2.2.1
      { sample.v1Event with Service := "", User := "" } rfl (by decide) (by decide) (by decide)
      rfl,
    (Validate_first_failing_check
      (some { sample.v1Event with Service := "", User := "" })).2.2.2.2.2.2.2.2.2
      { sample.v1Event with Service := "", User := "" } "" [] 0 0 rfl⟩

/-- C29: v3 `event.Unmarshal` on an event with an empty payload returns nil and leaves the
target as it was; the event that `commandToEvent` builds from a command with a nil payload
has an empty payload, so it unmarshals without error; on a non-empty payload the result is
that of `json.Unmarshal` on the payload bytes, which is also the result of v1
`Event.Unmarshal` on an event with the same bytes as its data. -/
theorem Unmarshal_empty_payload_is_nil {T P : Type}
    (unmarshal : Bytes → T → T × Option GoError) (marshal : P → Except GoError Bytes)
    (e : v3.event) (ptr : T) :
    (e.payload = [] → v3.event.Unmarshal unmarshal e ptr = (ptr, none)) ∧
    (∀ (sequence : v3.latestSequence) (command : v3.Command P), command.Payload = none →
      ∃ ev, v3.commandToEvent marshal sequence command = .ok ev ∧ ev.payload = [] ∧
        v3.event.Unmarshal unmarshal ev ptr = (ptr, none)) ∧
    (e.payload ≠ [] →
      v3.event.Unmarshal unmarshal e ptr = unmarshal e.payload ptr ∧
      ∀ v1 : models.Event, v1.Data = e.payload →
        models.Event.Unmarshal unmarshal v1 ptr = v3.event.Unmarshal unmarshal e ptr) := by
  refine ⟨?_, ?_, ?_⟩
  · intro h
    simp [v3.event.Unmarshal, h]
  · intro sequence command h
    refine ⟨⟨sequence.aggregate, command.Creator, command.Revision, command.Typ, 0,
      sequence.sequence, 0, []⟩, ?_, rfl, ?_⟩
    · simp [v3.commandToEvent, h]
    · simp [v3.event.Unmarshal]
  · intro h
    have hlen : ¬ e.payload.length = 0 := by
      intro h0
      exact h (List.length_eq_zero.mp h0)
    refine ⟨by simp [v3.event.Unmarshal, hlen], ?_⟩
    intro v1 hdata
    simp [v3.event.Unmarshal, models.Event.Unmarshal, models.Event.DataAsBytes, hlen, hdata]

/-- C29 witness: the event of the sample command without its payload leaves the target
`en` alone, although the sample decoder rejects empty input; the event with the payload
`"de"` sets the target as the v1 event with the same data does. -/
theorem Unmarshal_empty_payload_is_nil_witness :
    (∃ ev, v3.commandToEvent sample.marshal sample.latest
        { sample.command with Payload := none } = .ok ev ∧ ev.payload = [] ∧
      v3.event.Unmarshal sample.unmarshalString ev "en" = ("en", none)) ∧
    (sample.unmarshalString [] "en").2.isSome = true ∧
    v3.event.Unmarshal sample.unmarshalString
        ⟨⟨"user1", "user", "org1", "inst1"⟩, "editor", 2, "user.added", 0, 5, 0,
          sample.bytes "\"de\""⟩ "en" = ("de", none) ∧
    models.Event.Unmarshal sample.unmarshalString
        { sample.v1Event with Data := sample.bytes "\"de\"" } "en"
      = v3.event.Unmarshal sample.unmarshalString
        ⟨⟨"user1", "user", "org1", "inst1"⟩, "editor", 2, "user.added", 0, 5, 0,
          sample.bytes "\"de\""⟩ "en" :=
  ⟨(Unmarshal_empty_payload_is_nil sample.unmarshalString sample.marshal
      ⟨⟨"user1", "user", "org1", "inst1"⟩, "editor", 2, "user.added", 0, 5, 0, []⟩ "en").2.1
      sample.latest { sample.command with Payload := none } rfl,
    by rfl,
    by rfl,
    ((Unmarshal_empty_payload_is_nil sample.unmarshalString sample.marshal
      ⟨⟨"user1", "user", "org1", "inst1"⟩, "editor", 2, "user.added", 0, 5, 0,
        sample.bytes "\"de\""⟩ "en").2.2 (by decide)).2
      { sample.v1Event with Data := sample.bytes "\"de\"" } rfl⟩

/-- A type of pointer kind has an element type. -/
theorem Elem_of_Ptr (t : reflect.Typ) (h : t.Kind = .Ptr) : ∃ elem, t.Elem = some elem := by
  induction t with
  | ptr elem _ => exact ⟨elem, rfl⟩
  | named name underlying ih =>
    simp only [reflect.Typ.Kind] at h
    obtain ⟨elem, helem⟩ := ih h
    exact ⟨elem, by simp [reflect.Typ.Elem, helem]⟩
  | _ => simp [reflect.Typ.Kind] at h

/-- C30: `eventData` returns a `[]byte` argument unchanged, nil bytes and a nil error for a
nil argument, and the JSON encoding for a `map[string]interface`, a struct or a pointer to
a struct; for a value of any other type (such as a string, a number, a slice that is not
`[]byte`, a pointer to a non-struct, a pointer to a pointer) it returns the InvalidArgument
error `MODEL-rjWdN` and no bytes; a failure of the JSON encoding is returned as an
InvalidArgument error that wraps it; it never panics and returns no error of another kind. -/
theorem eventData_by_dynamic_type {V : Type} (marshal : V → Except GoError Bytes) :
    (∀ v : Bytes, models.eventData marshal (.bytes v) = .ok v) ∧
    models.eventData marshal .nil = .ok [] ∧
    (∀ v encoded, marshal v = .ok encoded →
      models.eventData marshal (.mapStringAny v) = .ok encoded) ∧
    (∀ v err, marshal v = .error err →
      models.eventData marshal (.mapStringAny v)
        = .err (errors.ThrowInvalidArgument (some err) "MODEL-s2fgE"
            "unable to marshal data")) ∧
    (∀ (t : reflect.Typ) v encoded,
      (t.Kind = .Struct ∨ (t.Kind = .Ptr ∧ ∃ elem, t.Elem = some elem ∧ elem.Kind = .Struct)) →
      marshal v = .ok encoded →
      models.eventData marshal (.other t v) = .ok encoded) ∧
    (∀ (t : reflect.Typ) v err,
      (t.Kind = .Struct ∨ (t.Kind = .Ptr ∧ ∃ elem, t.Elem = some elem ∧ elem.Kind = .Struct)) →
      marshal v = .error err →
      models.eventData marshal (.other t v)
        = .err (errors.ThrowInvalidArgument (some err) "MODEL-Y2OpM"
            "unable to marshal data")) ∧
    (∀ (t : reflect.Typ) v,
      ¬ (t.Kind = .Struct ∨
          (t.Kind = .Ptr ∧ ∃ elem, t.Elem = some elem ∧ elem.Kind = .Struct)) →
      models.eventData marshal (.other t v)
        = .err (errors.ThrowInvalidArgument none "MODEL-rjWdN" "data is not valid")) ∧
    (∀ (elem : reflect.Typ) (name : String) v,
      models.eventData marshal (.other .string v)
        = .err (errors.ThrowInvalidArgument none "MODEL-rjWdN" "data is not valid") ∧
      models.eventData marshal (.other .int v)
        = .err (errors.ThrowInvalidArgument none "MODEL-rjWdN" "data is not valid") ∧
      models.eventData marshal (.other .float64 v)
        = .err (errors.ThrowInvalidArgument none "MODEL-rjWdN" "data is not valid") ∧
      models.eventData marshal (.other (.slice elem) v)
        = .err (errors.ThrowInvalidArgument none "MODEL-rjWdN" "data is not valid") ∧
      models.eventData marshal (.other (.named name (.slice .uint8)) v)
        = .err (errors.ThrowInvalidArgument none "MODEL-rjWdN" "data is not valid") ∧
      models.eventData marshal (.other (.ptr (.ptr elem)) v)
        = .err (errors.ThrowInvalidArgument none "MODEL-rjWdN" "data is not valid") ∧
      (elem.Kind ≠ .Struct →
        models.eventData marshal (.other (.ptr elem) v)
          = .err (errors.ThrowInvalidArgument none "MODEL-rjWdN" "data is not valid"))) ∧
    (∀ i, models.eventData marshal i ≠ .panic) ∧
    (∀ i err, models.eventData marshal i = .err err →
      errors.kindOf err = some .InvalidArgument) := by
  have hother : ∀ (t : reflect.Typ) (v : V),
      (t.Kind = .Struct ∨ (t.Kind = .Ptr ∧ ∃ elem, t.Elem = some elem ∧ elem.Kind = .Struct)) →
      models.eventData marshal (.other t v)
        = match marshal v with
          | .error err =>
            .err (errors.ThrowInvalidArgument (some err) "MODEL-Y2OpM" "unable to marshal data")
          | .ok bytes => .ok bytes := by
    intro t v h
    rcases h with h | ⟨hptr, elem, helem, hkind⟩
    · simp [models.eventData, h]
    · simp [models.eventData, hptr, helem, hkind]
  have hinvalid : ∀ (t : reflect.Typ) (v : V),
      ¬ (t.Kind = .Struct ∨
          (t.Kind = .Ptr ∧ ∃ elem, t.Elem = some elem ∧ elem.Kind = .Struct)) →
      models.eventData marshal (.other t v)
        = .err (errors.ThrowInvalidArgument none "MODEL-rjWdN" "data is not valid") := by
    intro t v h
    simp only [not_or, not_and, not_exists] at h
    by_cases hptr : t.Kind = .Ptr
    · obtain ⟨elem, helem⟩ := Elem_of_Ptr t hptr
      have hkind := h.2 hptr elem helem
      simp [models.eventData, hptr, helem, hkind]
    · simp [models.eventData, hptr, h.1]
  refine ⟨fun _ => rfl, rfl, ?_, ?_, ?_, ?_, hinvalid, ?_, ?_, ?_⟩
  · intro v encoded h
    simp [models.eventData, h]
  · intro v err h
    simp [models.eventData, h]
  · intro t v encoded ht h
    rw [hother t v ht, h]
  · intro t v err ht h
    rw [hother t v ht, h]
  · intro elem name v
    refine ⟨?_, ?_, ?_, ?_, ?_, ?_, ?_⟩
    · exact hinvalid _ v (by simp [reflect.Typ.Kind])
    · exact hinvalid _ v (by simp [reflect.Typ.Kind])
    · exact hinvalid _ v (by simp [reflect.Typ.Kind])
    · exact hinvalid _ v (by simp [reflect.Typ.Kind])
    · exact hinvalid _ v (by simp [reflect.Typ.Kind])
    · exact hinvalid _ v (by simp [reflect.Typ.Kind, reflect.Typ.Elem])
    · intro hk
      exact hinvalid _ v (by simp [reflect.Typ.Kind, reflect.Typ.Elem, hk])
  · intro i
    cases i with
    | nil => simp [models.eventData]
    | bytes v => simp [models.eventData]
    | mapStringAny v =>
      cases h : marshal v <;> simp [models.eventData, h]
    | other t v =>
      by_cases ht : (t.Kind = .Struct ∨
          (t.Kind = .Ptr ∧ ∃ elem, t.Elem = some elem ∧ elem.Kind = .Struct))
      · rw [hother t v ht]
        cases marshal v <;> simp
      · rw [hinvalid t v ht]
        simp
  · intro i err
    cases i with
    | nil => simp [models.eventData]
    | bytes v => simp [models.eventData]
    | mapStringAny v =>
      cases h : marshal v <;> simp [models.eventData, h]
      intro he
      subst he
      rfl
    | other t v =>
      by_cases ht : (t.Kind = .Struct ∨
          (t.Kind = .Ptr ∧ ∃ elem, t.Elem = some elem ∧ elem.Kind = .Struct))
      · rw [hother t v ht]
        cases marshal v <;> simp
        intro he
        subst he
        rfl
      · rw [hinvalid t v ht]
        simp only [Outcome.err.injEq]
        intro he
        subst he
        rfl

/-- C30 witness: with the sample encoder a pointer to a struct is encoded, a pointer to a
pointer to a struct and a string are rejected, and the encoding error of the empty text is
wrapped. -/
theorem eventData_by_dynamic_type_witness :
    models.eventData sample.marshal (.other (.ptr (.struct "Profile")) "null")
      = .ok (sample.bytes "null") ∧
    models.eventData sample.marshal (.other (.ptr (.ptr (.struct "Profile"))) "null")
      = .err (errors.ThrowInvalidArgument none "MODEL-rjWdN" "data is not valid") ∧
    models.eventData sample.marshal (.other .string "null")
      = .err (errors.ThrowInvalidArgument none "MODEL-rjWdN" "data is not valid") ∧
    models.eventData sample.marshal (.mapStringAny "")
      = .err (errors.ThrowInvalidArgument (some (.foreign "json: unsupported value"))
          "MODEL-s2fgE" "unable to marshal data") :=
  ⟨(eventData_by_dynamic_type sample.marshal).2.2.2.2.1 (.ptr (.struct "Profile")) "null"
      (sample.bytes "null") (Or.inr ⟨rfl, .struct "Profile", rfl, rfl⟩) rfl,
    ((eventData_by_dynamic_type sample.marshal).2.2.2.2.2.2.2.1
      (.struct "Profile") "" "null").2.2.2.2.2.1,
    ((eventData_by_dynamic_type sample.marshal).2.2.2.2.2.2.2.1
      (.struct "Profile") "" "null").1,
    (eventData_by_dynamic_type sample.marshal).2.2.2.1 "" (.foreign "json: unsupported value")
      rfl⟩
